import Mathlib

/-!
# EffectUI.cpp: the effect dialog host and `EffectUI::DoEffect`

A shallow embedding of `src/effects/EffectUI.cpp`.  The file is glue between
the effect dialog and the host application, so the embedding keeps

* the state the file owns (dialog members, the repeat-last fields of the
  menu manager it writes, the skip-state flag it resets) as records,
* the answers of collaborators declared elsewhere (`PluginManager`,
  `EffectManager`, the effect itself, the audio engine, the widget toolkit)
  as fields of input records, and
* every call the file makes on a collaborator as an entry appended to a call
  log, in program order.

Null pointers are `Option`; a dereference of a null pointer makes the
embedded function return `none`.
-/

namespace EffectUI

/-! ## Types shared by the whole file -/

/-- Plugin identifiers are strings (`PluginID` is a `wxString`). -/
abbrev PluginID := String

/-- The `EffectType` enumerators this file names, and any other enumerator
of the type (the enumeration itself is declared in another file). -/
inductive EffectType where
  | EffectTypeGenerate
  | EffectTypeProcess
  | EffectTypeAnalyze
  | EffectTypeTool
  | other (n : Nat)
  deriving DecidableEq, Repr

/-- The settings of an effect; their contents belong to the plugin. -/
structure EffectSettings where
  values : List (String × String)
  deriving DecidableEq, Repr

/-- Constants this file uses and another file declares: the `EffectManager`
flag masks, `MenuCreator::repeattypeplugin` and `NYQUIST_PROMPT_NAME`. -/
structure Constants where
  kConfigured : Nat
  kSkipState : Nat
  kDontRepeatLast : Nat
  kRepeatNyquistPrompt : Nat
  repeattypeplugin : Nat
  NYQUIST_PROMPT_NAME : String
  deriving DecidableEq, Repr

/-- Modelled from the spec: `EffectSettingsAccess` and its subclass
`SimpleEffectSettingsAccess`, listed among the interfaces this file consumes
and declared elsewhere.  The object holds the settings; `Get` reads them and
`ModifySettings` runs the given function once on them, before it returns, and
stores what the function leaves.  The file relies on that: it reads `result`
and `success`, assigned inside the function, right after the call. -/
structure EffectSettingsAccess where
  settings : EffectSettings
  deriving DecidableEq, Repr

/-- Source: `access.Get()`. -/
def EffectSettingsAccess.Get (a : EffectSettingsAccess) : EffectSettings :=
  a.settings

/-- Source: `access.ModifySettings(function)`: the value the function computes on the
side, and the access object afterwards. -/
def EffectSettingsAccess.ModifySettings {α : Type} (a : EffectSettingsAccess)
    (function : EffectSettings → α × EffectSettings) : α × EffectSettingsAccess :=
  let r := function a.settings
  (r.1, { a with settings := r.2 })

/-! ## `EffectUI::DoEffect` -/

/-- The fields of `MenuManager` that `DoEffect` writes. -/
structure MenuManager where
  mLastGenerator : PluginID
  mLastEffect : PluginID
  mLastAnalyzer : PluginID
  mLastTool : PluginID
  mLastAnalyzerRegistration : Nat
  mLastToolRegistration : Nat
  mRepeatGeneratorFlags : Nat
  mRepeatEffectFlags : Nat
  mRepeatAnalyzerFlags : Nat
  mRepeatToolFlags : Nat
  deriving DecidableEq, Repr

/-- A track of the project, as far as `DoEffect` looks at it. -/
structure Track where
  id : Nat
  isWaveTrack : Bool
  selected : Bool
  endTime : Rat
  deriving DecidableEq, Repr

/-- The value handed to an effect as its dialog factory, when it is not null:
the function `EffectUI::DialogFactory`. -/
inductive EffectDialogFactory where
  | DialogFactory
  deriving DecidableEq, Repr

/-- Calls `DoEffect` makes on its collaborators. -/
inductive HostCall where
  /-- Source: `ProjectAudioManager::Get(project).Stop()` -/
  | Stop
  /-- Source: `SelectUtilities::SelectAllIfNone(project)` -/
  | SelectAllIfNone
  /-- Source: `em.SetSkipStateFlag(b)` -/
  | SetSkipStateFlag (b : Bool)
  /-- Source: `effect->DoEffect(settings, ..., flags, &window, factory, pAccess)` -/
  | EffectDoEffect (settings : EffectSettings) (flags : Nat)
      (factory : Option EffectDialogFactory)
  /-- Source: `MenuManager::Get(project).UpdateMenus(b)` -/
  | UpdateMenus (b : Bool)
  /-- Source: `ProjectHistory::Get(project).PushState(longDesc, shortDesc)` -/
  | PushState (longDesc shortDesc : String)
  /-- Source: `commandManager.Modify(name, description)` -/
  | Modify (name description : String)
  /-- Source: `window.DoZoomFit()` -/
  | DoZoomFit
  /-- Source: `window.RedrawProject()` -/
  | RedrawProject
  /-- The call `focus->SetFocus()` on the window with this id -/
  | SetFocus (window : Nat)
  /-- Source: `trackPanel.VerticalScroll(1.0)` -/
  | VerticalScroll
  /-- Source: `TrackFocus::Get(project).Set(pTrack)` -/
  | TrackFocusSet (track : Nat)
  /-- Source: `pTrack->EnsureVisible()` -/
  | EnsureVisible (track : Nat)
  deriving DecidableEq, Repr

/-- What one call of the effect's own `DoEffect` leaves behind, as far as the
host looks at it afterwards. -/
structure EffectRun where
  /-- the value the call returns -/
  success : Bool
  /-- the settings, which the call gets by reference -/
  settings : EffectSettings
  /-- The skip-state flag of `EffectManager` when the call returns -/
  mSkipStateFlag : Bool
  /-- the project's tracks when the call returns -/
  tracks : List Track
  /-- The value of `selectedRegion.t0()` when the call returns -/
  t0 : Rat
  /-- The value of `focus->GetParent()` for the window that had the focus before the call -/
  focusParent : Option Nat

/-- An effect instance, as `EffectManager::GetEffect` returns it. -/
structure Effect where
  DoEffect : EffectSettings → Nat → Option EffectDialogFactory → EffectRun

/-- A plugin descriptor, as `PluginManager::GetPlugin` returns it. -/
structure PluginDescriptor where
  GetEffectType : EffectType
  deriving DecidableEq, Repr

/-- A window of the toolkit: its identity and its parent. -/
structure Window where
  id : Nat
  parent : Option Nat
  deriving DecidableEq, Repr

/-- The answers of the collaborators `DoEffect` asks. -/
structure Collaborators where
  /-- Source: `PluginManager::Get().GetPlugin(ID)` -/
  GetPlugin : PluginID → Option PluginDescriptor
  /-- Source: `em.GetEffect(ID)` -/
  GetEffect : PluginID → Option Effect
  /-- Source: `em.GetDefaultSettings(ID)` -/
  GetDefaultSettings : PluginID → Option EffectSettings
  /-- Source: `em.GetCommandName(ID)` -/
  GetCommandName : PluginID → String
  /-- Source: `em.GetCommandDescription(ID)` -/
  GetCommandDescription : PluginID → String
  /-- Source: `wxWindow::FindFocus()` -/
  FindFocus : Option Window

/-- The state `DoEffect` reads and writes. -/
structure Project where
  tracks : List Track
  /-- Source: `ViewInfo::Get(project).selectedRegion.t0()` -/
  t0 : Rat
  menuManager : MenuManager
  /-- The member `EffectManager::mSkipStateFlag` -/
  mSkipStateFlag : Bool
  /-- the calls made so far, oldest first -/
  calls : List HostCall

/-- Append one call to the log. -/
def Project.call (p : Project) (c : HostCall) : Project :=
  { p with calls := p.calls ++ [c] }

/-- The loop over `tracks.Selected<const WaveTrack>()`: the number of selected
wave tracks, and whether all of them end at time zero. -/
def countSelectedWaveTracks (tracks : List Track) : Nat × Bool :=
  (tracks.filter (fun t => t.selected && t.isWaveTrack)).foldl
    (fun (acc : Nat × Bool) t =>
      (acc.1 + 1, if t.endTime ≠ 0 then false else acc.2))
    (0, true)

/-- Source: `XO("Repeat %s").Format(shortDesc)`. -/
def lastEffectDesc (shortDesc : String) : String :=
  "Repeat " ++ shortDesc

/-- The `switch (type)` of `DoEffect`: rename the repeat command and remember
the plugin in the fields of its type. -/
def rememberLast (K : Constants) (type : EffectType) (ID : PluginID)
    (shortDesc : String) (p : Project) : Project :=
  let desc := lastEffectDesc shortDesc
  match type with
  | .EffectTypeGenerate =>
    let p := p.call (.Modify "RepeatLastGenerator" desc)
    { p with menuManager :=
        { p.menuManager with
          mLastGenerator := ID
          mRepeatGeneratorFlags := K.kConfigured } }
  | .EffectTypeProcess =>
    let p := p.call (.Modify "RepeatLastEffect" desc)
    { p with menuManager :=
        { p.menuManager with
          mLastEffect := ID
          mRepeatEffectFlags := K.kConfigured } }
  | .EffectTypeAnalyze =>
    let p := p.call (.Modify "RepeatLastAnalyzer" desc)
    { p with menuManager :=
        { p.menuManager with
          mLastAnalyzer := ID
          mLastAnalyzerRegistration := K.repeattypeplugin
          mRepeatAnalyzerFlags := K.kConfigured } }
  | .EffectTypeTool =>
    let p := p.call (.Modify "RepeatLastTool" desc)
    { p with menuManager :=
        { p.menuManager with
          mLastTool := ID
          mLastToolRegistration := K.repeattypeplugin
          mRepeatToolFlags :=
            if shortDesc = K.NYQUIST_PROMPT_NAME then K.kRepeatNyquistPrompt
            else K.kConfigured } }
  | .other _ => p

/-- The block of `DoEffect` that re-zooms after sound was generated. -/
def zoomAfterGenerate (type : EffectType) (count : Nat) (clean : Bool)
    (p : Project) : Project :=
  if type = .EffectTypeGenerate then
    if count = 0 ∨ (clean = true ∧ p.t0 = 0) then p.call .DoZoomFit else p
  else p

/-- The block of `DoEffect` that gives the focus back to the window that had
it, when that window still has the parent it had. -/
def restoreFocus (focus : Option Window) (focusParentNow : Option Nat)
    (p : Project) : Project :=
  match focus with
  | some w => if focusParentNow = w.parent then p.call (.SetFocus w.id) else p
  | none => p

/-- The last block of `DoEffect` (the fix for bug 63): scroll new tracks into
view, or else focus the first selected track, or the first track. -/
def showTracks (nTracksOriginally : Nat) (p : Project) : Project :=
  if p.tracks.length > nTracksOriginally then
    p.call .VerticalScroll
  else
    let pTrack := (p.tracks.filter (fun t => t.selected)).head?
    let pTrack := if pTrack.isNone then p.tracks.head? else pTrack
    match pTrack with
    | some t => (p.call (.TrackFocusSet t.id)).call (.EnsureVisible t.id)
    | none => p

/-- The tail of `DoEffect` after the repeat-last block: zoom, redraw, focus
and scrolling. -/
def finishEffect (type : EffectType) (count : Nat) (clean : Bool)
    (focus : Option Window) (focusParentNow : Option Nat)
    (nTracksOriginally : Nat) (p : Project) : Project :=
  let p := zoomAfterGenerate type count clean p
  let p := p.call .RedrawProject
  let p := restoreFocus focus focusParentNow p
  showTracks nTracksOriginally p

/-- The block of `DoEffect` that looks the effect up and runs it: the value
of `success` after it, the focused window's parent after it, and the state. -/
def runEffect (K : Constants) (env : Collaborators) (ID : PluginID)
    (flags : Nat) (p : Project) : Bool × Option Nat × Project :=
  let parent := env.FindFocus.bind (fun w => w.parent)
  match env.GetEffect ID with
  | none => (false, parent, p)
  | some effect =>
    match env.GetDefaultSettings ID with
    | none => (false, parent, p)
    | some pSettings =>
      let factory :=
        if flags &&& K.kConfigured = 0 then some EffectDialogFactory.DialogFactory
        else none
      let pAccess : EffectSettingsAccess := { settings := pSettings }
      let (run, _) := pAccess.ModifySettings (fun settings =>
        let run := effect.DoEffect settings flags factory
        (run, run.settings))
      (run.success, run.focusParent,
        { p.call (.EffectDoEffect pSettings flags factory) with
          mSkipStateFlag := run.mSkipStateFlag
          tracks := run.tracks
          t0 := run.t0 })

/-- The first block of `DoEffect` after the plugin was found: make sure
there is no activity when the effect is already configured. -/
def stopActivity (K : Constants) (flags : Nat) (project : Project) : Project :=
  if flags &&& K.kConfigured ≠ 0 then
    let p := project.call .Stop
    -- Don't Select All if repeating Generator Effect
    if ¬ (flags &&& K.kConfigured ≠ 0) then p.call .SelectAllIfNone else p
  else project

/-- The part of `DoEffect` that follows `if (!success) return false;`: merge
the skip-state flag into `flags`, push the undo state, remember the effect for
the repeat commands, then zoom, redraw, focus and scroll. -/
def afterSuccess (K : Constants) (env : Collaborators) (ID : PluginID)
    (type : EffectType) (flags : Nat) (count : Nat) (clean : Bool)
    (focus : Option Window) (focusParentNow : Option Nat)
    (nTracksOriginally : Nat) (p : Project) : Project :=
  let flags := if p.mSkipStateFlag then flags ||| K.kSkipState else flags
  let p :=
    if flags &&& K.kSkipState = 0 then
      let shortDesc := env.GetCommandName ID
      let longDesc := env.GetCommandDescription ID
      p.call (.PushState longDesc shortDesc)
    else p
  let p :=
    if flags &&& K.kDontRepeatLast = 0 then
      rememberLast K type ID (env.GetCommandName ID) p
    else p
  finishEffect type count clean focus focusParentNow nTracksOriginally p

/-- Source: `EffectUI::DoEffect(ID, context, flags)`: the returned value and the state
it leaves. -/
def DoEffect (K : Constants) (env : Collaborators) (ID : PluginID)
    (flags : Nat) (project : Project) : Bool × Project :=
  match env.GetPlugin ID with
  | none => (false, project)
  | some plug =>
    let type := plug.GetEffectType
    let p := stopActivity K flags project
    let nTracksOriginally := p.tracks.length
    let focus := env.FindFocus
    let (count, clean) := countSelectedWaveTracks p.tracks
    let p := { p.call (.SetSkipStateFlag false) with mSkipStateFlag := false }
    let (success, focusParentNow, p) := runEffect K env ID flags p
    if ¬ success then
      -- the `finally` block runs on the way out
      (false, p.call (.UpdateMenus false))
    else
      (true, afterSuccess K env ID type flags count clean focus focusParentNow
        nTracksOriginally p)

/-! ## The effect dialog, `EffectUIHost`

Layout-only toolkit calls (sizers, borders, spacing, `Layout`, `Fit`,
`Center`, `Refresh`, `SetMinSize`) leave no trace in the embedding. -/

/-- The pixmaps of `images/Effect.h` the dialog uses. -/
inductive Xpm where
  | effect_menu_xpm
  | effect_play_xpm
  | effect_play_disabled_xpm
  | effect_stop_xpm
  | effect_stop_disabled_xpm
  | effect_rewind_xpm
  | effect_rewind_disabled_xpm
  | effect_ffwd_xpm
  | effect_ffwd_disabled_xpm
  deriving DecidableEq, Repr

/-- A bitmap made by `CreateBitmap`: the picture and where it is drawn. -/
structure Bitmap where
  pic : Xpm
  offset : Nat
  deriving DecidableEq, Repr

/-- Source: `EffectUIHost::CreateBitmap(xpm, up, pusher)`. -/
def CreateBitmap (xpm : Xpm) (up pusher : Bool) : Bitmap :=
  let offset := 3
  let offset :=
    if pusher then
      if !up then offset + 1 else offset
    else offset
  { pic := xpm, offset := offset }

/-- The window ids the file defines for the controls of the button bar. -/
def kMenuID : Nat := 20100
def kEnableID : Nat := 20101
def kPlayID : Nat := 20102
def kRewindID : Nat := 20103
def kFFwdID : Nat := 20104

/-- Window identifiers: the toolkit's stock ids the file names, `eDebugID`,
the numeric ids the file defines, the client panel (made with `wxID_ANY`),
and windows that do not belong to the dialog. -/
inductive WindowId where
  | wxID_APPLY
  | wxID_CANCEL
  | wxID_HELP
  | eDebugID
  | id (n : Nat)
  | panel
  | foreign (n : Nat)
  deriving DecidableEq, Repr

/-- A control of the dialog, with the attributes the file sets. -/
structure Control where
  id : WindowId
  enabled : Bool
  label : String
  name : String
  toolTip : String
  bitmapLabel : Option Bitmap
  bitmapDisabled : Option Bitmap
  bitmapPressed : Option Bitmap
  /-- the state of a check box -/
  value : Bool
  deriving DecidableEq, Repr

/-- Source: `S.Id(id).ToolTip(tip).AddButton(label, ...)`. -/
def AddButton (id : Nat) (tip label : String) : Control :=
  { id := .id id, enabled := true, label := label, name := "", toolTip := tip,
    bitmapLabel := none, bitmapDisabled := none, bitmapPressed := none,
    value := false }

/-- Source: `S.Id(id).ToolTip(tip).Name(name).AddBitmapButton(bitmap)`. -/
def AddBitmapButton (id : Nat) (tip name : String) (bitmap : Bitmap) : Control :=
  { id := .id id, enabled := true, label := "", name := name, toolTip := tip,
    bitmapLabel := some bitmap, bitmapDisabled := none, bitmapPressed := none,
    value := false }

/-- Source: `S.Id(id).Name(name).AddCheckBox(label, value)`. -/
def AddCheckBox (id : Nat) (name label : String) (value : Bool) : Control :=
  { id := .id id, enabled := true, label := label, name := name, toolTip := "",
    bitmapLabel := none, bitmapDisabled := none, bitmapPressed := none,
    value := value }

/-- A standard button made by `AddStandardButtons` for one enumerator. -/
def stockButton (id : WindowId) : Control :=
  { id := id, enabled := true, label := "", name := "", toolTip := "",
    bitmapLabel := none, bitmapDisabled := none, bitmapPressed := none,
    value := false }

/-- The enumerators of the standard-button mask that `Initialize` uses.  The
mask `long buttons` is kept as the list of enumerators or-ed into it. -/
inductive StandardButton where
  | eApplyButton
  | eCloseButton
  | eHelpButton
  | eDebugButton
  deriving DecidableEq, Repr

/-- Keys named in the file. -/
inductive KeyCode where
  | WXK_F1
  deriving DecidableEq, Repr

/-- An entry of an accelerator table; a default-constructed entry names no
key and no command. -/
structure AcceleratorEntry where
  keyCode : Option KeyCode
  command : Option WindowId
  deriving DecidableEq, Repr

/-- The object `PopulateUI` returns. -/
structure EffectUIValidator where
  /-- Source: `mpValidator->ValidateUI()` -/
  ValidateUI : Bool
  /-- Source: `mpValidator->UpdateUI()` -/
  UpdateUI : Bool
  deriving DecidableEq, Repr

/-- The answers of `EffectUIClientInterface`. -/
structure EffectUIClientInterface where
  /-- Source: `mClient.PopulateUI(S1, *mpAccess)`; `none` is a null pointer -/
  PopulateUI : Option EffectUIValidator
  IsGraphicalUI : Bool
  CanExportPresets : Bool
  HasOptions : Bool
  deriving DecidableEq, Repr

/-- The answers of `mEffectUIHost.GetDefinition()`. -/
structure EffectDefinition where
  GetName : String
  GetType : EffectType
  SupportsRealtime : Bool
  ManualPage : String
  HelpPage : String
  EnablesDebug : Bool
  GetFactoryPresets : List String
  deriving DecidableEq, Repr

/-- The answers of `EffectUIHostInterface`. -/
structure EffectUIHostInterface where
  GetDefinition : EffectDefinition
  IsBatchProcessing : Bool
  /-- Source: `mEffectUIHost.TransferDataFromWindow(settings)`: the returned value and
  the settings, which it gets by reference -/
  TransferDataFromWindow : EffectSettings → Bool × EffectSettings
  /-- Source: `mEffectUIHost.TransferDataToWindow(settings)` -/
  TransferDataToWindow : EffectSettings → Bool

/-- The answers of the audio engine, `AudioIO::Get()`. -/
structure AudioIOState where
  IsAvailable : Bool
  IsStreamActive : Bool
  GetNumCaptureChannels : Nat
  IsMonitoring : Bool
  GetStreamTime : Rat
  /-- Source: `AddState(mProject, nullptr, id)`; `none` is a null pointer -/
  AddState : Option Nat
  deriving DecidableEq, Repr

/-- The answers of the toolkit and of the helpers declared outside the file. -/
structure Toolkit where
  /-- compiled with `__WXMAC__` defined -/
  wxMac : Bool
  /-- Source: `wxDialogWrapper::Validate()` -/
  Validate : Bool
  /-- Source: `wxDialogWrapper::TransferDataFromWindow()` -/
  TransferDataFromWindow : Bool
  /-- Source: `wxDialogWrapper::TransferDataToWindow()` -/
  TransferDataToWindow : Bool
  /-- Source: `UserPresetsGroup(name)` -/
  UserPresetsGroup : String → String
  /-- the subgroup names `GetConfigSubgroups(definition, Private, group, out)`
  appends to `out` -/
  GetConfigSubgroups : String → List String

/-- A region of time, `SelectedRegion`. -/
structure SelectedRegion where
  t0 : Rat
  t1 : Rat
  deriving DecidableEq, Repr

/-- What `ShowModal()` of the Save Preset name dialog returns: `wxID_OK`,
`wxID_CANCEL`, or any other code. -/
inductive ModalResult where
  | wxID_OK
  | wxID_CANCEL
  | other (code : Nat)
  deriving DecidableEq, Repr

/-- What `ShowModal()` of the replace prompt returns.  The prompt is a message
dialog made with `wxYES_NO | wxCANCEL`, so it has these three answers. -/
inductive ReplaceAnswer where
  | wxID_YES
  | wxID_NO
  | wxID_CANCEL
  deriving DecidableEq, Repr

/-- Calls the dialog makes on its collaborators. -/
inductive DialogCall where
  /-- Source: `wxDialogWrapper::Validate()` -/
  | Validate
  /-- Source: `wxDialogWrapper::TransferDataFromWindow()` -/
  | wxTransferDataFromWindow
  /-- Source: `mpValidator->ValidateUI()` -/
  | ValidateUI
  /-- Source: `mpAccess->ModifySettings(...)` -/
  | ModifySettings
  /-- Source: `mEffectUIHost.TransferDataFromWindow(settings)` -/
  | EffectTransferDataFromWindow (settings : EffectSettings)
  /-- Source: `mClient.PopulateUI(S1, *mpAccess)` -/
  | PopulateUI
  /-- Source: `AudioIO::Get()->AddState(mProject, nullptr, id)` -/
  | AddState
  /-- Source: `AudioIO::Get()->Subscribe(...)` -/
  | Subscribe
  /-- The check `wxASSERT(cond)` with the value of `cond` -/
  | wxASSERT (cond : Bool)
  /-- Source: `HelpSystem::ShowHelp(FindWindow(wxID_HELP), page, wxEmptyString, true, true)` -/
  | ShowHelpPage (page : String)
  /-- Source: `HelpSystem::ShowHelp(FindWindow(wxID_HELP), manualPage, true)` -/
  | ShowHelpManual (page : String)
  /-- Source: `mEffectUIHost.Preview(*mpAccess, false)` -/
  | Preview
  /-- Source: `ProjectAudioManager::Get(mProject).Stop()` -/
  | Stop
  /-- Source: `projectAudioManager.PlayPlayRegion(SelectedRegion(t0, t1),
  DefaultPlayOptions(mProject), PlayMode::normalPlay)` -/
  | PlayPlayRegion (t0 t1 : Rat)
  /-- Source: `gAudioIO->SeekStream(seconds)` -/
  | SeekStream (seconds : Rat)
  /-- Source: `dlg.ShowModal()` of the Save Preset name dialog, with what it returned -/
  | ShowModalSavePreset (rc : ModalResult)
  /-- Source: `md.ShowModal()` of the message "You must specify a name" -/
  | ShowModalMustSpecifyName
  /-- Source: `md.ShowModal()` of the prompt "Preset already exists. Replace?", with
  what it returned -/
  | ShowModalReplace (choice : ReplaceAnswer)
  /-- Source: `mEffectUIHost.GetDefinition().SaveUserPreset(group, settings)` -/
  | SaveUserPreset (group : String) (settings : EffectSettings)
  deriving DecidableEq, Repr

/-- The members of `EffectUIHost`, the focus as the dialog sees it, the
standard buttons and the accelerator table it has, and the call log. -/
structure EffectUIHost where
  mEffectUIHost : EffectUIHostInterface
  mClient : EffectUIClientInterface
  mpAccess : EffectSettingsAccess
  audio : AudioIOState
  toolkit : Toolkit
  mpValidator : Option EffectUIValidator
  mInitialized : Bool
  mSupportsRealtime : Bool
  mIsGUI : Bool
  mIsBatch : Bool
  mDisableTransport : Bool
  mEnabled : Bool
  mPlaying : Bool
  mCapturing : Bool
  mDismissed : Bool
  mPlayPos : Rat
  mRegion : SelectedRegion
  mUserPresets : List String
  mpState : Option Nat
  mMenuBtn : Option Control
  mPlayToggleBtn : Option Control
  mPlayBtn : Option Control
  mRewindBtn : Option Control
  mFFwdBtn : Option Control
  mEnableCb : Option Control
  mApplyBtn : Option Control
  mCloseBtn : Option Control
  mPlayBM : Option Bitmap
  mPlayDisabledBM : Option Bitmap
  mStopBM : Option Bitmap
  mStopDisabledBM : Option Bitmap
  /-- the mask given to `AddStandardButtons`, empty before that call -/
  standardButtons : List StandardButton
  /-- the table given to `SetAcceleratorTable` -/
  acceleratorTable : List AcceleratorEntry
  /-- Source: `FindFocus()`; `none` is a null pointer -/
  focus : Option WindowId
  /-- the calls made so far, oldest first -/
  calls : List DialogCall

/-- Append one call to the log. -/
def EffectUIHost.call (d : EffectUIHost) (c : DialogCall) : EffectUIHost :=
  { d with calls := d.calls ++ [c] }

/-- The constructor `EffectUIHost::EffectUIHost(parent, project, effect, client,
access)`.  Members it does not assign start null, false or empty. -/
def EffectUIHost.new (effect : EffectUIHostInterface)
    (client : EffectUIClientInterface) (access : EffectSettingsAccess)
    (audio : AudioIOState) (toolkit : Toolkit) (focus : Option WindowId) :
    EffectUIHost :=
  { mEffectUIHost := effect, mClient := client, mpAccess := access,
    audio := audio, toolkit := toolkit, mpValidator := none,
    mInitialized := false, mSupportsRealtime := false, mIsGUI := false,
    mIsBatch := false, mDisableTransport := false, mEnabled := true,
    mPlaying := false, mCapturing := false, mDismissed := false,
    mPlayPos := 0, mRegion := { t0 := 0, t1 := 0 }, mUserPresets := [],
    mpState := none, mMenuBtn := none, mPlayToggleBtn := none,
    mPlayBtn := none, mRewindBtn := none, mFFwdBtn := none, mEnableCb := none,
    mApplyBtn := none, mCloseBtn := none, mPlayBM := none,
    mPlayDisabledBM := none, mStopBM := none, mStopDisabledBM := none,
    standardButtons := [], acceleratorTable := [], focus := focus, calls := [] }

/-! ### Control operations -/

def Control.Enable (c : Control) (enable : Bool) : Control :=
  { c with enabled := enable }

def Control.SetLabel (c : Control) (label : String) : Control :=
  { c with label := label }

def Control.SetName (c : Control) (name : String) : Control :=
  { c with name := name }

def Control.SetToolTip (c : Control) (tip : String) : Control :=
  { c with toolTip := tip }

def Control.SetBitmapLabel (c : Control) (b : Option Bitmap) : Control :=
  { c with bitmapLabel := b }

def Control.SetBitmapDisabled (c : Control) (b : Option Bitmap) : Control :=
  { c with bitmapDisabled := b }

def Control.SetBitmapPressed (c : Control) (b : Option Bitmap) : Control :=
  { c with bitmapPressed := b }

/-- The address held by a member pointer, as the id of the window it points
to; `none` is the null pointer. -/
def ptr (c : Option Control) : Option WindowId :=
  c.map (fun w => w.id)

/-! ### `TransferDataFromWindow` -/

/-- Source: `EffectUIHost::TransferDataFromWindow()`: the returned value and the
dialog afterwards; `none` when `mpValidator` is dereferenced while null. -/
def EffectUIHost.TransferDataFromWindow (d : EffectUIHost) :
    Option (Bool × EffectUIHost) :=
  let d := d.call .Validate
  if !d.toolkit.Validate then some (false, d)
  else
    let d := d.call .wxTransferDataFromWindow
    if !d.toolkit.TransferDataFromWindow then some (false, d)
    else
      match d.mpValidator with
      | none => none
      | some validator =>
        let d := d.call .ValidateUI
        if !validator.ValidateUI then some (false, d)
        else
          let d := d.call .ModifySettings
          let (result, access) := d.mpAccess.ModifySettings (fun settings =>
            d.mEffectUIHost.TransferDataFromWindow settings)
          let d := d.call (.EffectTransferDataFromWindow d.mpAccess.settings)
          some (result, { d with mpAccess := access })

/-! ### `BuildButtonBar` -/

/-- Source: `EffectUIHost::BuildButtonBar(parent)`. -/
def EffectUIHost.BuildButtonBar (d : EffectUIHost) : EffectUIHost :=
  let definition := d.mEffectUIHost.GetDefinition
  let d := { d with
    mSupportsRealtime := definition.SupportsRealtime
    mIsGUI := d.mClient.IsGraphicalUI
    mIsBatch := d.mEffectUIHost.IsBatchProcessing }
  let d :=
    if !d.mIsGUI then
      { d with mMenuBtn := some (AddButton kMenuID "Manage presets and options" "&Manage") }
    else
      let b := AddBitmapButton kMenuID "Manage presets and options" "&Manage"
        (CreateBitmap .effect_menu_xpm true true)
      { d with mMenuBtn := some (b.SetBitmapPressed (some (CreateBitmap .effect_menu_xpm false true))) }
  if !d.mIsBatch then
    let d :=
      if !d.mIsGUI then
        if d.mSupportsRealtime then
          { d with mPlayToggleBtn := some (AddButton kPlayID "Start and stop playback" "Start &Playback") }
        else if definition.GetType ≠ .EffectTypeAnalyze ∧
            definition.GetType ≠ .EffectTypeTool then
          { d with mPlayToggleBtn := some (AddButton kPlayID "Preview effect" "&Preview") }
        else d
      else
        let d := { d with
          mPlayBM := some (CreateBitmap .effect_play_xpm true false)
          mPlayDisabledBM := some (CreateBitmap .effect_play_disabled_xpm true true)
          mStopBM := some (CreateBitmap .effect_stop_xpm true false)
          mStopDisabledBM := some (CreateBitmap .effect_stop_disabled_xpm true false) }
        let b := AddBitmapButton kPlayID "" "" (CreateBitmap .effect_play_xpm true false)
        let b := b.SetBitmapDisabled d.mPlayDisabledBM
        let b := b.SetBitmapPressed (some (CreateBitmap .effect_play_xpm false true))
        let b :=
          if !d.mSupportsRealtime then
            let b := b.SetToolTip "Preview effect"
            if d.toolkit.wxMac then b.SetName "Preview effect"
            else b.SetLabel "&Preview effect"
          else b
        { d with mPlayBtn := some b }
    if d.mSupportsRealtime then
      let d :=
        if !d.mIsGUI then
          { d with mRewindBtn := some (AddButton kRewindID "Skip backward" "Skip &Backward") }
        else
          let b := AddBitmapButton kRewindID "Skip backward" "Skip &Backward"
            (CreateBitmap .effect_rewind_xpm true true)
          let b := b.SetBitmapDisabled
            (some (CreateBitmap .effect_rewind_disabled_xpm true false))
          let b := b.SetBitmapPressed (some (CreateBitmap .effect_rewind_xpm false true))
          { d with mRewindBtn := some b }
      let d :=
        if !d.mIsGUI then
          { d with mFFwdBtn := some (AddButton kFFwdID "Skip forward" "Skip &Forward") }
        else
          let b := AddBitmapButton kFFwdID "Skip forward" "Skip &Forward"
            (CreateBitmap .effect_ffwd_xpm true true)
          let b := b.SetBitmapDisabled
            (some (CreateBitmap .effect_ffwd_disabled_xpm true false))
          let b := b.SetBitmapPressed (some (CreateBitmap .effect_ffwd_xpm false true))
          { d with mFFwdBtn := some b }
      { d with mEnableCb := some (AddCheckBox kEnableID "Enable" "&Enable" d.mEnabled) }
    else d
  else d

/-! ### `UpdateControls` -/

/-- The block of `UpdateControls` that relabels the play control of a
realtime effect. -/
def EffectUIHost.updatePlayControl (d : EffectUIHost) : Option EffectUIHost :=
  if d.mPlaying then
    if !d.mIsGUI then
      d.mPlayToggleBtn.map (fun b =>
        { d with mPlayToggleBtn := some (b.SetLabel "Stop &Playback") })
    else
      d.mPlayBtn.map (fun bb =>
        let bb := bb.SetBitmapLabel d.mStopBM
        let bb := bb.SetBitmapDisabled d.mStopDisabledBM
        let bb := bb.SetToolTip "Stop"
        let bb :=
          if d.toolkit.wxMac then bb.SetName "Stop &Playback"
          else bb.SetLabel "Stop &Playback"
        { d with mPlayBtn := some bb })
  else
    if !d.mIsGUI then
      d.mPlayToggleBtn.map (fun b =>
        { d with mPlayToggleBtn := some (b.SetLabel "Start &Playback") })
    else
      d.mPlayBtn.map (fun bb =>
        let bb := bb.SetBitmapLabel d.mPlayBM
        let bb := bb.SetBitmapDisabled d.mPlayDisabledBM
        let bb := bb.SetToolTip "Play"
        let bb :=
          if d.toolkit.wxMac then bb.SetName "Start &Playback"
          else bb.SetLabel "Start &Playback"
        { d with mPlayBtn := some bb })

/-- The first block of `UpdateControls`: do not let the focus get trapped in a
control that is about to be disabled. -/
def EffectUIHost.releaseTrappedFocus (d : EffectUIHost) : Option EffectUIHost :=
  if d.mCapturing || d.mDisableTransport then
    let focus := d.focus
    if focus = ptr d.mRewindBtn ∨ focus = ptr d.mFFwdBtn ∨
        focus = ptr d.mPlayBtn ∨ focus = ptr d.mEnableCb then
      d.mCloseBtn.map (fun c => { d with focus := some c.id })
    else some d
  else some d

/-- Source: `mApplyBtn->Enable(!mCapturing)`. -/
def EffectUIHost.enableApply (d : EffectUIHost) : Option EffectUIHost :=
  d.mApplyBtn.map (fun apply =>
    { d with mApplyBtn := some (apply.Enable (!d.mCapturing)) })

/-- The block of `UpdateControls` that enables the play or preview button of
an effect that is neither an analyzer nor a tool. -/
def EffectUIHost.enablePlayControl (d : EffectUIHost) : Option EffectUIHost :=
  if d.mEffectUIHost.GetDefinition.GetType ≠ .EffectTypeAnalyze ∧
      d.mEffectUIHost.GetDefinition.GetType ≠ .EffectTypeTool then
    if !d.mIsGUI then
      d.mPlayToggleBtn.map (fun b => { d with mPlayToggleBtn := some (b.Enable (!(d.mCapturing || d.mDisableTransport))) })
    else
      d.mPlayBtn.map (fun b => { d with mPlayBtn := some (b.Enable (!(d.mCapturing || d.mDisableTransport))) })
  else some d

/-- The three `Enable` calls `UpdateControls` makes for a realtime effect. -/
def EffectUIHost.enableTransport (d : EffectUIHost) : Option EffectUIHost := do
  let rewind ← d.mRewindBtn
  let d := { d with mRewindBtn := some (rewind.Enable (!(d.mCapturing || d.mDisableTransport))) }
  let ffwd ← d.mFFwdBtn
  let d := { d with mFFwdBtn := some (ffwd.Enable (!(d.mCapturing || d.mDisableTransport))) }
  let enable ← d.mEnableCb
  some { d with mEnableCb := some (enable.Enable (!(d.mCapturing || d.mDisableTransport))) }

/-- Source: `EffectUIHost::UpdateControls()`; `none` when a null member pointer is
dereferenced. -/
def EffectUIHost.UpdateControls (d : EffectUIHost) : Option EffectUIHost :=
  if d.mIsBatch then some d
  else do
    let d ← d.releaseTrappedFocus
    let d ← d.enableApply
    let d ← d.enablePlayControl
    if d.mSupportsRealtime then do
      let d ← d.enableTransport
      d.updatePlayControl
    else some d

/-! ### `LoadUserPresets`, `InitializeRealtime`, `Initialize` -/

/-- Source: `EffectUIHost::LoadUserPresets()`. -/
def EffectUIHost.LoadUserPresets (d : EffectUIHost) : EffectUIHost :=
  let mUserPresets : List String := []
  let mUserPresets :=
    mUserPresets ++ d.toolkit.GetConfigSubgroups (d.toolkit.UserPresetsGroup "")
  { d with mUserPresets := mUserPresets.insertionSort (fun a b => a ≤ b) }

/-- Source: `EffectUIHost::InitializeRealtime()`. -/
def EffectUIHost.InitializeRealtime (d : EffectUIHost) : EffectUIHost :=
  if d.mSupportsRealtime && !d.mInitialized then
    let d := { d.call .AddState with mpState := d.audio.AddState }
    let d := d.call .Subscribe
    { d with mInitialized := true }
  else d

/-- The window id `AddStandardButtons` gives the button of an enumerator;
the file finds and binds the buttons under these ids. -/
def StandardButton.windowId : StandardButton → WindowId
  | .eApplyButton => .wxID_APPLY
  | .eCloseButton => .wxID_CANCEL
  | .eHelpButton => .wxID_HELP
  | .eDebugButton => .eDebugID

/-- The call `FindWindow(id)` for a standard button that no member points to yet:
the button `AddStandardButtons` made for the enumerator, if it made one. -/
def EffectUIHost.FindStandardButton (d : EffectUIHost) (b : StandardButton) :
    Option Control :=
  if b ∈ d.standardButtons then some (stockButton b.windowId) else none

/-- The `S.StartPanel()` block of `Initialize` and the two `FindWindow` calls
after it: build the button bar, choose the standard buttons and the
accelerator table, add the buttons and keep the Apply and Close buttons. -/
def EffectUIHost.buildFrame (d : EffectUIHost) : EffectUIHost :=
  let d := d.BuildButtonBar
  let definition := d.mEffectUIHost.GetDefinition
  let (buttons, d) :=
    if definition.ManualPage = "" ∧ definition.HelpPage = "" then
      ([StandardButton.eApplyButton, StandardButton.eCloseButton],
        { d with acceleratorTable := [] })
    else
      let entry : AcceleratorEntry :=
        if d.toolkit.wxMac then { keyCode := none, command := none }
        else { keyCode := some .WXK_F1, command := some .wxID_HELP }
      ([StandardButton.eApplyButton, StandardButton.eCloseButton,
          StandardButton.eHelpButton],
        { d with acceleratorTable := [entry] })
  let buttons :=
    if definition.EnablesDebug then buttons ++ [StandardButton.eDebugButton]
    else buttons
  let d := { d with standardButtons := buttons }
  { d with
    mApplyBtn := d.FindStandardButton .eApplyButton
    mCloseBtn := d.FindStandardButton .eCloseButton }

/-- The first block of `Initialize`: read the state of the audio engine. -/
def EffectUIHost.probeAudio (d : EffectUIHost) : EffectUIHost :=
  let gAudio := d.audio
  { d with
    mDisableTransport := !gAudio.IsAvailable
    mPlaying := gAudio.IsStreamActive
    mCapturing := gAudio.IsStreamActive && decide (gAudio.GetNumCaptureChannels > 0)
      && !gAudio.IsMonitoring }

/-- Source: `mpValidator = mClient.PopulateUI(S1, *mpAccess)`. -/
def EffectUIHost.populate (d : EffectUIHost) : EffectUIHost :=
  { d.call .PopulateUI with mpValidator := d.mClient.PopulateUI }

/-- Source: `EffectUIHost::Initialize()`: the returned value and the dialog
afterwards; `none` when a null pointer is dereferenced. -/
def EffectUIHost.Initialize (d : EffectUIHost) : Option (Bool × EffectUIHost) :=
  let d := d.probeAudio
  let d := d.populate
  if d.mpValidator.isNone then some (false, d)
  else
    let d := d.buildFrame
    do
      let d ← d.UpdateControls
      -- `w->SetAccept(!mIsGUI)`, then the focus goes to the client panel `w`
      -- or to `FindWindow(wxID_APPLY)`, the button `mApplyBtn` points to
      let target ← if !d.mIsGUI then some WindowId.panel else ptr d.mApplyBtn
      let d := { d with focus := some target }
      let d := d.LoadUserPresets
      let d := d.InitializeRealtime
      some (true, d)

/-! ### `OnHelp` and how its event is raised -/

/-- Source: `EffectUIHost::OnHelp(event)`. -/
def EffectUIHost.OnHelp (d : EffectUIHost) : EffectUIHost :=
  let definition := d.mEffectUIHost.GetDefinition
  if definition.ManualPage = "" then
    let helpPage := definition.HelpPage
    let d := d.call (.wxASSERT (!decide (helpPage = "")))
    d.call (.ShowHelpPage helpPage)
  else
    d.call (.ShowHelpManual definition.ManualPage)

/-- The event table binds `OnHelp` to button events with id `wxID_HELP`.
Such an event comes from a button with that id or from an accelerator whose
command is that id. -/
def EffectUIHost.raisesButtonEvent (d : EffectUIHost) (id : WindowId) : Bool :=
  d.standardButtons.any (fun b => b.windowId == id) ||
    d.acceleratorTable.any (fun e => e.command == some id)

/-! ### `EffectUI::DialogFactory` -/

/-- Source: `EffectUI::DialogFactory(parent, host, client, access)`.  The inner
`none` is the null pointer the function returns; the outer `none` stands for
a null dereference on the way.  `FindProjectFromWindow` is the answer of
`FindProjectFromWindow(&parent)`. -/
def DialogFactory (FindProjectFromWindow : Option Nat)
    (host : EffectUIHostInterface) (client : EffectUIClientInterface)
    (access : EffectSettingsAccess) (audio : AudioIOState) (toolkit : Toolkit)
    (focus : Option WindowId) : Option (Option EffectUIHost) :=
  match FindProjectFromWindow with
  | none => some none
  | some _ =>
    let dlg := EffectUIHost.new host client access audio toolkit focus
    match dlg.Initialize with
    | none => none
    | some (true, dlg) => some (some dlg)
    | some (false, _) => some none

/-! ### Arithmetic on `double`

Times are finite `double` values, which are rationals.  Comparison, negation
and assignment of `double`s are exact; a sum or a difference is the exact
result rounded to the nearest `double`. -/

/-- The integer nearest to `q`, the even one of the two when `q` lies halfway. -/
def roundNearestEven (q : Rat) : Int :=
  let n := ⌊q⌋
  let r := q - n
  if r < 1 / 2 then n
  else if 1 / 2 < r then n + 1
  else if n % 2 = 0 then n
  else n + 1

/-- The distance between neighbouring `double`s around `q`: `2 ^ (e - 52)` for
`2 ^ e ≤ |q| < 2 ^ (e + 1)`, and `2 ^ (-1074)` below the normal range. -/
def ulp (q : Rat) : Rat :=
  2 ^ (max (Int.log 2 |q|) (-1022) - 52)

/-- The value of a `double` sum or difference whose exact result is `q`: `q`
rounded to a multiple of `ulp q`, to nearest, ties to even (IEEE 754
binary64).  Results beyond the largest finite `double` are outside the model. -/
def roundDouble (q : Rat) : Rat :=
  roundNearestEven (q / ulp q) * ulp q

/-! ### `OnPlay`, `OnRewind`, `OnFFwd` -/

/-- The answers of `viewInfo.playRegion`. -/
structure PlayRegion where
  Active : Bool
  GetStart : Rat
  GetEnd : Rat
  deriving DecidableEq, Repr

/-- The answers of `ViewInfo::Get(mProject)`. -/
structure ViewInfo where
  selectedRegion : SelectedRegion
  playRegion : PlayRegion
  deriving DecidableEq, Repr

/-- The block of `OnPlay` that chooses the region to play: the active play
region, or the selection when it differs from the remembered region, or the
remembered region.  `setTimes r t0 t1` is the region `r.setTimes(t0, t1)`
leaves; `SelectedRegion` is declared outside the file. -/
def EffectUIHost.chooseRegion
    (setTimes : SelectedRegion → Rat → Rat → SelectedRegion)
    (viewInfo : ViewInfo) (d : EffectUIHost) : EffectUIHost :=
  let selectedRegion := viewInfo.selectedRegion
  let playRegion := viewInfo.playRegion
  if playRegion.Active then
    let d := { d with
      mRegion := setTimes d.mRegion playRegion.GetStart playRegion.GetEnd }
    { d with mPlayPos := d.mRegion.t0 }
  else if selectedRegion.t0 ≠ d.mRegion.t0 ∨ selectedRegion.t1 ≠ d.mRegion.t1 then
    let d := { d with mRegion := selectedRegion }
    { d with mPlayPos := d.mRegion.t0 }
  else d

/-- The block of `OnPlay` that keeps the play position from lying after the
end of the region. -/
def EffectUIHost.clampPlayPos (d : EffectUIHost) : EffectUIHost :=
  if d.mPlayPos > d.mRegion.t1 then { d with mPlayPos := d.mRegion.t1 } else d

/-- Source: `EffectUIHost::OnPlay(evt)`; `none` when a null pointer is dereferenced. -/
def EffectUIHost.OnPlay
    (setTimes : SelectedRegion → Rat → Rat → SelectedRegion)
    (viewInfo : ViewInfo) (d : EffectUIHost) : Option EffectUIHost :=
  if !d.mSupportsRealtime then
    match d.TransferDataFromWindow with
    | none => none
    | some (ok, d) =>
      if !ok then some d
      else some (d.call .Preview)
  else if d.mPlaying then
    let d := { d with mPlayPos := d.audio.GetStreamTime }
    some (d.call .Stop)
  else
    let d := d.chooseRegion setTimes viewInfo
    let d := d.clampPlayPos
    some (d.call (.PlayPlayRegion d.mPlayPos d.mRegion.t1))

/-- Source: `EffectUIHost::OnRewind(evt)`.  `SeekShortPeriod` is the value stored under
`/AudioIO/SeekShortPeriod`, if there is one; `gPrefs->Read` falls back to 1.0. -/
def EffectUIHost.OnRewind (SeekShortPeriod : Option Rat) (d : EffectUIHost) :
    EffectUIHost :=
  if d.mPlaying then
    let seek := SeekShortPeriod.getD 1
    let pos := d.audio.GetStreamTime
    let seek :=
      if roundDouble (pos - seek) < d.mRegion.t0 then
        roundDouble (pos - d.mRegion.t0)
      else seek
    d.call (.SeekStream (-seek))
  else
    { d with mPlayPos := d.mRegion.t0 }

/-- Source: `EffectUIHost::OnFFwd(evt)`. -/
def EffectUIHost.OnFFwd (SeekShortPeriod : Option Rat) (d : EffectUIHost) :
    EffectUIHost :=
  if d.mPlaying then
    let seek := SeekShortPeriod.getD 1
    let pos := d.audio.GetStreamTime
    let seek :=
      if d.mRegion.t0 < d.mRegion.t1 ∧ roundDouble (pos + seek) > d.mRegion.t1 then
        roundDouble (d.mRegion.t1 - pos)
      else seek
    d.call (.SeekStream seek)
  else
    -- It allows to play past end of selection...probably useless
    { d with mPlayPos := d.mRegion.t1 }

/-! ### `OnSaveAs` -/

/-- What the user does in one pass of the Save Preset loop. -/
structure SaveAsRound where
  /-- what `dlg.ShowModal()` returns -/
  rc : ModalResult
  /-- what `text->GetValue()` returns -/
  name : String
  /-- what `md.ShowModal()` of the replace prompt returns, if the prompt is shown -/
  choice : ReplaceAnswer
  deriving DecidableEq, Repr

/-- The last statements of the loop body of `OnSaveAs`: save the preset when
the transfer from the window succeeds, then reload the list of presets.
`SaveUserPreset group settings config` is the configuration the definition's
`SaveUserPreset` leaves; `none` when a null pointer is dereferenced. -/
def EffectUIHost.savePreset
    (SaveUserPreset : String → EffectSettings → (String → List String) →
      String → List String)
    (name : String) (d : EffectUIHost) : Option EffectUIHost :=
  match d.TransferDataFromWindow with
  | none => none
  | some (ok, d) =>
    let d :=
      if ok then
        let group := d.toolkit.UserPresetsGroup name
        let settings := d.mpAccess.Get
        let d := d.call (.SaveUserPreset group settings)
        { d with toolkit := { d.toolkit with
            GetConfigSubgroups :=
              SaveUserPreset group settings d.toolkit.GetConfigSubgroups } }
      else d
    some d.LoadUserPresets

/-- The `while (true)` loop of `OnSaveAs`, run against the passes the user
makes.  The flag tells whether the loop was left; it is false when the name
dialog is still waiting for the user after the given passes. -/
def EffectUIHost.saveAsLoop
    (SaveUserPreset : String → EffectSettings → (String → List String) →
      String → List String) :
    List SaveAsRound → EffectUIHost → Option (Bool × EffectUIHost)
  | [], d => some (false, d)
  | round :: rest, d =>
    let d := d.call (.ShowModalSavePreset round.rc)
    if round.rc ≠ .wxID_OK then some (true, d)
    else
      let name := round.name
      if name = "" then
        saveAsLoop SaveUserPreset rest (d.call .ShowModalMustSpecifyName)
      else if name ∈ d.mUserPresets then
        let d := d.call (.ShowModalReplace round.choice)
        match round.choice with
        | .wxID_CANCEL => some (true, d)
        | .wxID_NO => saveAsLoop SaveUserPreset rest d
        | .wxID_YES => (d.savePreset SaveUserPreset name).map (fun d => (true, d))
      else (d.savePreset SaveUserPreset name).map (fun d => (true, d))

/-- Source: `EffectUIHost::OnSaveAs(evt)`: the name dialog is built, then the loop runs. -/
def EffectUIHost.OnSaveAs
    (SaveUserPreset : String → EffectSettings → (String → List String) →
      String → List String)
    (script : List SaveAsRound) (d : EffectUIHost) : Option (Bool × EffectUIHost) :=
  d.saveAsLoop SaveUserPreset script

/-! ## Reading a call log -/

/-- The calls a step made: what `after` logged beyond the log of `before`. -/
def callsMade (before after : Project) : List HostCall :=
  after.calls.drop before.calls.length

/-- The same state with another call log. -/
def Project.withCalls (p : Project) (calls : List HostCall) : Project :=
  { p with calls := calls }

/-- A step on the project is log-local when it reads nothing from the call
log and only appends to it: run on any log, it does what it does on the empty
log, after the calls that were there. -/
def LogLocal (f : Project → Project) : Prop :=
  ∀ (p : Project) (l : List HostCall),
    f (p.withCalls l) =
      (f (p.withCalls [])).withCalls (l ++ (f (p.withCalls [])).calls)

/-- Calls that only rename a command, redraw, zoom, scroll or move a focus:
the ones the repeat-last block and the tail of `DoEffect` make. -/
def HostCall.isBookkeeping : HostCall → Bool
  | .Modify _ _ => true
  | .DoZoomFit => true
  | .RedrawProject => true
  | .SetFocus _ => true
  | .VerticalScroll => true
  | .TrackFocusSet _ => true
  | .EnsureVisible _ => true
  | _ => false

/-- The calls of a log that push an undo state. -/
def pushStateCalls (calls : List HostCall) : List HostCall :=
  calls.filter (fun c =>
    match c with
    | .PushState _ _ => true
    | _ => false)

/-- The dialog factories handed to the effect in the calls of a log. -/
def factoriesPassed (calls : List HostCall) : List (Option EffectDialogFactory) :=
  calls.filterMap (fun c =>
    match c with
    | .EffectDoEffect _ _ factory => some factory
    | _ => none)

/-- The calls of a log that rename a repeat command. -/
def modifyCalls (calls : List HostCall) : List HostCall :=
  calls.filter (fun c =>
    match c with
    | .Modify _ _ => true
    | _ => false)

/-- The result of the effect's own `DoEffect` call as `EffectUI::DoEffect`
makes it, when `EffectManager` yields both the effect and its settings. -/
def effectRun (K : Constants) (env : Collaborators) (ID : PluginID)
    (flags : Nat) : Option EffectRun :=
  match env.GetEffect ID, env.GetDefaultSettings ID with
  | some effect, some pSettings =>
    some (effect.DoEffect pSettings flags
      (if flags &&& K.kConfigured = 0 then some .DialogFactory else none))
  | _, _ => none

/-- What the host side of `DoEffect` decided in one call: whether it stopped
playback, which dialog factory it handed to the effect, the undo states it
pushed, the repeat commands it renamed, the repeat-last fields it left, and
the value it returned. -/
structure HostDecisions where
  stopsPlayback : Bool
  factories : List (Option EffectDialogFactory)
  pushes : List HostCall
  renames : List HostCall
  menuManager : MenuManager
  result : Bool
  deriving DecidableEq, Repr

/-- The host-side decisions of a call that took `before` to `out`. -/
def hostDecisions (before : Project) (out : Bool × Project) : HostDecisions :=
  let made := callsMade before out.2
  { stopsPlayback := decide (HostCall.Stop ∈ made)
    factories := factoriesPassed made
    pushes := pushStateCalls made
    renames := modifyCalls made
    menuManager := out.2.menuManager
    result := out.1 }

/-! ## Sample inputs -/

/-- Flag masks with one distinct bit each, and the other constants. -/
def sampleConstants : Constants :=
  { kConfigured := 1, kSkipState := 2, kDontRepeatLast := 4,
    kRepeatNyquistPrompt := 16, repeattypeplugin := 1,
    NYQUIST_PROMPT_NAME := "Nyquist Prompt" }

/-- An effect that succeeds, leaves the skip-state flag clear and adds
nothing to the project. -/
def sampleEffect : Effect :=
  { DoEffect := fun settings _ _ =>
      { success := true, settings := settings, mSkipStateFlag := false,
        tracks := [], t0 := 0, focusParent := none } }

/-- A plugin registry that knows the one processing effect "Amplify". -/
def sampleEnv : Collaborators :=
  { GetPlugin := fun id =>
      if id = "Amplify" then some { GetEffectType := .EffectTypeProcess } else none
    GetEffect := fun id => if id = "Amplify" then some sampleEffect else none
    GetDefaultSettings := fun id =>
      if id = "Amplify" then some { values := [("Ratio", "2")] } else none
    GetCommandName := fun id => id
    GetCommandDescription := fun id => "Applied effect: " ++ id
    FindFocus := none }

/-- A menu manager that remembers nothing yet. -/
def sampleMenuManager : MenuManager :=
  { mLastGenerator := "", mLastEffect := "", mLastAnalyzer := "", mLastTool := "",
    mLastAnalyzerRegistration := 0, mLastToolRegistration := 0,
    mRepeatGeneratorFlags := 0, mRepeatEffectFlags := 0,
    mRepeatAnalyzerFlags := 0, mRepeatToolFlags := 0 }

/-- An empty project with an empty call log. -/
def sampleProject : Project :=
  { tracks := [], t0 := 0, menuManager := sampleMenuManager,
    mSkipStateFlag := false, calls := [] }

/-! ## Reading a dialog -/

/-- The calls a dialog step made: what `after` logged beyond the log of
`before`. -/
def dialogCallsMade (before after : EffectUIHost) : List DialogCall :=
  after.calls.drop before.calls.length

/-- The play control `UpdateControls` addresses,
`(!mIsGUI ? mPlayToggleBtn : mPlayBtn)`. -/
def EffectUIHost.playControl (d : EffectUIHost) : Option Control :=
  if !d.mIsGUI then d.mPlayToggleBtn else d.mPlayBtn

/-- The controls of the dialog are built: outside batch mode the Apply and
Close buttons exist, the play control exists for a realtime effect and for an
effect that is neither an analyzer nor a tool, the Rewind, FFwd and Enable
controls exist for a realtime effect, and a graphical dialog has different
play and stop bitmaps.  `BuildButtonBar` and `Initialize` bring this about. -/
def EffectUIHost.ControlsBuilt (d : EffectUIHost) : Prop :=
  d.mIsBatch = false →
    d.mApplyBtn.isSome = true ∧ d.mCloseBtn.isSome = true ∧
    ((d.mSupportsRealtime = true ∨
        (d.mEffectUIHost.GetDefinition.GetType ≠ .EffectTypeAnalyze ∧
          d.mEffectUIHost.GetDefinition.GetType ≠ .EffectTypeTool)) →
      d.playControl.isSome = true) ∧
    (d.mSupportsRealtime = true →
      d.mRewindBtn.isSome = true ∧ d.mFFwdBtn.isSome = true ∧
        d.mEnableCb.isSome = true) ∧
    (d.mIsGUI = true → d.mPlayBM ≠ d.mStopBM)

/-- The calls of a log that save a user preset. -/
def savePresetCalls (calls : List DialogCall) : List DialogCall :=
  calls.filter (fun c =>
    match c with
    | .SaveUserPreset _ _ => true
    | _ => false)

/-- The calls `TransferDataFromWindow` makes. -/
def DialogCall.isTransferStage : DialogCall → Bool
  | .Validate => true
  | .wxTransferDataFromWindow => true
  | .ValidateUI => true
  | .ModifySettings => true
  | .EffectTransferDataFromWindow _ => true
  | _ => false

instance (d : EffectUIHost) : Decidable d.ControlsBuilt := by
  unfold EffectUIHost.ControlsBuilt
  infer_instance

/-! ## Sample dialog inputs -/

/-- The definition of a realtime processing effect with a manual page. -/
def sampleDefinition : EffectDefinition :=
  { GetName := "Amplify", GetType := .EffectTypeProcess, SupportsRealtime := true,
    ManualPage := "Amplify", HelpPage := "", EnablesDebug := false,
    GetFactoryPresets := [] }

/-- A host interface whose transfer from the window succeeds and stores one
value. -/
def sampleHost : EffectUIHostInterface :=
  { GetDefinition := sampleDefinition
    IsBatchProcessing := false
    TransferDataFromWindow := fun _ => (true, { values := [("Ratio", "3")] })
    TransferDataToWindow := fun _ => true }

/-- A client with a plain (non-graphical) panel and a validator that accepts. -/
def sampleClient : EffectUIClientInterface :=
  { PopulateUI := some { ValidateUI := true, UpdateUI := true }
    IsGraphicalUI := false, CanExportPresets := false, HasOptions := false }

/-- An idle audio engine. -/
def sampleAudio : AudioIOState :=
  { IsAvailable := true, IsStreamActive := false, GetNumCaptureChannels := 0,
    IsMonitoring := false, GetStreamTime := 0, AddState := some 1 }

/-- A toolkit whose validators accept, with no user presets stored. -/
def sampleToolkit (wxMac : Bool) : Toolkit :=
  { wxMac := wxMac, Validate := true, TransferDataFromWindow := true,
    TransferDataToWindow := true
    UserPresetsGroup := fun name => "UserPresets/" ++ name
    GetConfigSubgroups := fun _ => [] }

/-- The dialog as the constructor leaves it. -/
def sampleDialog (wxMac : Bool) : EffectUIHost :=
  EffectUIHost.new sampleHost sampleClient { settings := { values := [("Ratio", "2")] } }
    sampleAudio (sampleToolkit wxMac) none

/-- The sample dialog once the client has given it a validator. -/
def sampleOpenDialog : EffectUIHost :=
  { sampleDialog false with mpValidator := sampleClient.PopulateUI }

/-- The dialog `Initialize` leaves when it is run on the sample dialog. -/
def sampleInitialized (wxMac : Bool) : EffectUIHost :=
  match (sampleDialog wxMac).Initialize with
  | some (_, d) => d
  | none => sampleDialog wxMac

/-- The sample dialog of a realtime effect while the project plays: the
stream is at 2 s and the remembered region is 1 s to 4 s. -/
def samplePlaying : EffectUIHost :=
  { sampleOpenDialog with
    mSupportsRealtime := true
    mPlaying := true
    audio := { sampleAudio with IsStreamActive := true, GetStreamTime := 2 }
    mRegion := { t0 := 1, t1 := 4 } }

/-- The sample dialog of a realtime effect while the project is stopped, with
a play position left behind the remembered region. -/
def sampleStopped : EffectUIHost :=
  { sampleOpenDialog with
    mSupportsRealtime := true
    mPlaying := false
    mPlayPos := 9
    mRegion := { t0 := 1, t1 := 4 } }

/-- A project whose selection is 3 s to 8 s and whose play region is off. -/
def sampleViewInfo : ViewInfo :=
  { selectedRegion := { t0 := 3, t1 := 8 }
    playRegion := { Active := false, GetStart := 0, GetEnd := 0 } }

/-- A sample `setTimes`: it stores the two times in ascending order. -/
def sampleSetTimes (_ : SelectedRegion) (t0 t1 : Rat) : SelectedRegion :=
  if t1 < t0 then { t0 := t1, t1 := t0 } else { t0 := t0, t1 := t1 }

/-- A sample `SaveUserPreset`: it adds the last path component of the group
to the subgroups the configuration reports. -/
def sampleSaveUserPreset (group : String) (_ : EffectSettings)
    (config : String → List String) : String → List String :=
  fun g => config g ++ [group.drop "UserPresets/".length]

/-- The sample dialog with one user preset, "Loud". -/
def sampleWithPreset : EffectUIHost :=
  { sampleOpenDialog with mUserPresets := ["Loud"] }

/-- Three passes of the user through the Save Preset dialog: no name, then
"Loud" without replacing, then "Loud" with replacing. -/
def sampleScript : List SaveAsRound :=
  [ { rc := .wxID_OK, name := "", choice := .wxID_YES },
    { rc := .wxID_OK, name := "Loud", choice := .wxID_NO },
    { rc := .wxID_OK, name := "Loud", choice := .wxID_YES } ]

/-- The sample playing dialog with the stream at the `double` 10.1 in a region
that starts at the `double` 0.1. -/
def sampleRewinding : EffectUIHost :=
  { samplePlaying with
    audio := { sampleAudio with
      IsStreamActive := true, GetStreamTime := 5685794529555251 / 2 ^ 49 }
    mRegion := { t0 := 3602879701896397 / 2 ^ 55, t1 := 20 } }

/-- The sample playing dialog with the stream at the `double` 0.3 in a region
from 0 to the `double` 0.9. -/
def sampleForwarding : EffectUIHost :=
  { samplePlaying with
    audio := { sampleAudio with
      IsStreamActive := true, GetStreamTime := 5404319552844595 / 2 ^ 54 }
    mRegion := { t0 := 0, t1 := 8106479329266893 / 2 ^ 53 } }

/-- The definition of a realtime analyzer. -/
def sampleAnalyzeDefinition : EffectDefinition :=
  { sampleDefinition with GetName := "Measure", GetType := .EffectTypeAnalyze }

/-- The dialog of the realtime analyzer as the constructor leaves it. -/
def sampleAnalyzeDialog : EffectUIHost :=
  EffectUIHost.new { sampleHost with GetDefinition := sampleAnalyzeDefinition } sampleClient
    { settings := { values := [] } } sampleAudio (sampleToolkit false) none

/-- The dialog of the realtime analyzer after `Initialize`, once playback has
started (`mPlaying` set). -/
def sampleAnalyzePlaying : EffectUIHost :=
  match sampleAnalyzeDialog.Initialize with
  | some (_, d) => { d with mPlaying := true }
  | none => sampleAnalyzeDialog

/-! ## Lemmas on `DoEffect`

Bit masks first, then the call log, then `DoEffect` case by case. -/

theorem and_or_self_right (a b : Nat) : (a ||| b) &&& b = b := by
  apply Nat.eq_of_testBit_eq
  intro i
  simp only [Nat.testBit_and, Nat.testBit_or]
  cases a.testBit i <;> cases b.testBit i <;> rfl

theorem or_and_of_disjoint (a b c : Nat) (h : b &&& c = 0) :
    (a ||| b) &&& c = a &&& c := by
  apply Nat.eq_of_testBit_eq
  intro i
  have hi : (b &&& c).testBit i = false := by rw [h]; simp
  simp only [Nat.testBit_and, Nat.testBit_or] at hi ⊢
  cases ha : a.testBit i <;> cases hb : b.testBit i <;> cases hc : c.testBit i <;> simp_all

theorem or_and_congr (a b k c : Nat) (h : a &&& c = b &&& c) :
    (a ||| k) &&& c = (b ||| k) &&& c := by
  apply Nat.eq_of_testBit_eq
  intro i
  have hi : (a &&& c).testBit i = (b &&& c).testBit i := by rw [h]
  simp only [Nat.testBit_and, Nat.testBit_or] at hi ⊢
  cases ha : a.testBit i <;> cases hb : b.testBit i <;> cases hc : c.testBit i <;> simp_all

/-! ### The call log -/

@[simp] theorem call_calls (p : Project) (c : HostCall) :
    (p.call c).calls = p.calls ++ [c] := rfl
@[simp] theorem call_menuManager (p : Project) (c : HostCall) :
    (p.call c).menuManager = p.menuManager := rfl
@[simp] theorem call_tracks (p : Project) (c : HostCall) :
    (p.call c).tracks = p.tracks := rfl
@[simp] theorem call_t0 (p : Project) (c : HostCall) : (p.call c).t0 = p.t0 := rfl
@[simp] theorem call_mSkipStateFlag (p : Project) (c : HostCall) :
    (p.call c).mSkipStateFlag = p.mSkipStateFlag := rfl
@[simp] theorem withCalls_tracks (p : Project) (l : List HostCall) :
    (p.withCalls l).tracks = p.tracks := rfl
@[simp] theorem withCalls_t0 (p : Project) (l : List HostCall) :
    (p.withCalls l).t0 = p.t0 := rfl
@[simp] theorem withCalls_mSkipStateFlag (p : Project) (l : List HostCall) :
    (p.withCalls l).mSkipStateFlag = p.mSkipStateFlag := rfl
@[simp] theorem withCalls_menuManager (p : Project) (l : List HostCall) :
    (p.withCalls l).menuManager = p.menuManager := rfl
@[simp] theorem withCalls_calls (p : Project) (l : List HostCall) :
    (p.withCalls l).calls = l := rfl
@[simp] theorem withCalls_withCalls (p : Project) (l m : List HostCall) :
    (p.withCalls l).withCalls m = p.withCalls m := rfl
@[simp] theorem withCalls_call (p : Project) (l : List HostCall) (c : HostCall) :
    (p.withCalls l).call c = p.withCalls (l ++ [c]) := rfl
@[simp] theorem withCalls_self (p : Project) : p.withCalls p.calls = p := rfl

/-! ### Log-local steps -/

theorem logLocal_call (c : HostCall) : LogLocal (fun p => p.call c) := by
  intro p l
  simp

theorem logLocal_comp {f g : Project → Project} (hf : LogLocal f) (hg : LogLocal g) :
    LogLocal (fun p => g (f p)) := by
  intro p l
  have h0 : g (f (p.withCalls [])) =
      (g ((f (p.withCalls [])).withCalls [])).withCalls
        ((f (p.withCalls [])).calls ++ (g ((f (p.withCalls [])).withCalls [])).calls) := by
    have := hg (f (p.withCalls [])) (f (p.withCalls [])).calls
    simpa using this
  show g (f (p.withCalls l)) =
    (g (f (p.withCalls []))).withCalls (l ++ (g (f (p.withCalls []))).calls)
  rw [hf p l, hg, h0]
  simp [List.append_assoc]

theorem zoomAfterGenerate_logLocal (type : EffectType) (count : Nat) (clean : Bool) :
    LogLocal (zoomAfterGenerate type count clean) := by
  intro p l
  unfold zoomAfterGenerate
  by_cases h3 : type = .EffectTypeGenerate <;>
  by_cases h4 : count = 0 ∨ (clean = true ∧ p.t0 = 0) <;>
  simp [h3, h4]

theorem restoreFocus_logLocal (focus : Option Window) (fp : Option Nat) :
    LogLocal (restoreFocus focus fp) := by
  intro p l
  unfold restoreFocus
  cases focus with
  | none => simp
  | some w => by_cases h : fp = w.parent <;> simp [h]

theorem showTracks_logLocal (n : Nat) : LogLocal (showTracks n) := by
  intro p l
  unfold showTracks
  by_cases h5 : p.tracks.length > n
  · simp [h5]
  · cases h6 : (p.tracks.filter (fun t => t.selected)).head? <;>
    cases h7 : p.tracks.head? <;>
    simp [h5, h6, h7]

theorem finishEffect_logLocal (type : EffectType) (count : Nat) (clean : Bool)
    (focus : Option Window) (fp : Option Nat) (n : Nat) :
    LogLocal (finishEffect type count clean focus fp n) := by
  have h1 := logLocal_comp (zoomAfterGenerate_logLocal type count clean)
    (logLocal_call .RedrawProject)
  have h2 := logLocal_comp h1 (restoreFocus_logLocal focus fp)
  have h3 := logLocal_comp h2 (showTracks_logLocal n)
  exact h3

theorem rememberLast_logLocal (K : Constants) (type : EffectType) (ID : PluginID)
    (shortDesc : String) : LogLocal (rememberLast K type ID shortDesc) := by
  intro p l
  cases type <;> simp [rememberLast, Project.withCalls, Project.call]

theorem afterSuccess_logLocal (K : Constants) (env : Collaborators) (ID : PluginID)
    (type : EffectType) (flags count : Nat) (clean : Bool) (focus : Option Window)
    (fp : Option Nat) (n : Nat) :
    LogLocal (afterSuccess K env ID type flags count clean focus fp n) := by
  intro p l
  unfold afterSuccess
  simp only [withCalls_mSkipStateFlag]
  generalize (if p.mSkipStateFlag = true then flags ||| K.kSkipState else flags) = flags2
  by_cases h1 : flags2 &&& K.kSkipState = 0 <;>
  by_cases h2 : flags2 &&& K.kDontRepeatLast = 0 <;>
  simp only [h1, h2, if_true, if_false]
  · have h := logLocal_comp
      (logLocal_call (.PushState (env.GetCommandDescription ID) (env.GetCommandName ID)))
      (rememberLast_logLocal K type ID (env.GetCommandName ID))
    exact logLocal_comp h (finishEffect_logLocal type count clean focus fp n) p l
  · exact logLocal_comp
      (logLocal_call (.PushState (env.GetCommandDescription ID) (env.GetCommandName ID)))
      (finishEffect_logLocal type count clean focus fp n) p l
  · exact logLocal_comp (rememberLast_logLocal K type ID (env.GetCommandName ID))
      (finishEffect_logLocal type count clean focus fp n) p l
  · exact finishEffect_logLocal type count clean focus fp n p l

/-! ### What the blocks after a successful run append -/

theorem zoomAfterGenerate_appends (type : EffectType) (count : Nat) (clean : Bool)
    (p : Project) :
    (zoomAfterGenerate type count clean p).menuManager = p.menuManager ∧
    ∃ extra, (∀ c ∈ extra, HostCall.isBookkeeping c = true) ∧
      (zoomAfterGenerate type count clean p).calls = p.calls ++ extra := by
  unfold zoomAfterGenerate
  split_ifs
  · exact ⟨rfl, [.DoZoomFit], by simp [HostCall.isBookkeeping], rfl⟩
  · exact ⟨rfl, [], by simp, by simp⟩
  · exact ⟨rfl, [], by simp, by simp⟩

theorem restoreFocus_appends (focus : Option Window) (fp : Option Nat) (p : Project) :
    (restoreFocus focus fp p).menuManager = p.menuManager ∧
    ∃ extra, (∀ c ∈ extra, HostCall.isBookkeeping c = true) ∧
      (restoreFocus focus fp p).calls = p.calls ++ extra := by
  unfold restoreFocus
  cases focus with
  | none => exact ⟨rfl, [], by simp, by simp⟩
  | some w =>
    by_cases h : fp = w.parent
    · simp only [h, if_true]
      exact ⟨rfl, [.SetFocus w.id], by simp [HostCall.isBookkeeping], rfl⟩
    · simp only [h, if_false]
      exact ⟨trivial, [], by simp, by simp⟩

theorem showTracks_appends (n : Nat) (p : Project) :
    (showTracks n p).menuManager = p.menuManager ∧
    ∃ extra, (∀ c ∈ extra, HostCall.isBookkeeping c = true) ∧
      (showTracks n p).calls = p.calls ++ extra := by
  unfold showTracks
  by_cases h5 : p.tracks.length > n
  · simp only [h5, if_true]
    exact ⟨rfl, [.VerticalScroll], by simp [HostCall.isBookkeeping], rfl⟩
  · simp only [h5, if_false]
    split
    · rename_i t _
      exact ⟨rfl, [.TrackFocusSet t.id, .EnsureVisible t.id],
        by simp [HostCall.isBookkeeping], by simp⟩
    · exact ⟨rfl, [], by simp, by simp⟩

theorem finishEffect_appends (type : EffectType) (count : Nat) (clean : Bool)
    (focus : Option Window) (fp : Option Nat) (n : Nat) (p : Project) :
    (finishEffect type count clean focus fp n p).menuManager = p.menuManager ∧
    ∃ extra, (∀ c ∈ extra, HostCall.isBookkeeping c = true) ∧
      (finishEffect type count clean focus fp n p).calls = p.calls ++ extra := by
  unfold finishEffect
  obtain ⟨m1, e1, b1, c1⟩ := zoomAfterGenerate_appends type count clean p
  obtain ⟨m3, e3, b3, c3⟩ := restoreFocus_appends focus fp
    ((zoomAfterGenerate type count clean p).call .RedrawProject)
  obtain ⟨m4, e4, b4, c4⟩ := showTracks_appends n
    (restoreFocus focus fp ((zoomAfterGenerate type count clean p).call .RedrawProject))
  refine ⟨?_, e1 ++ [.RedrawProject] ++ e3 ++ e4, ?_, ?_⟩
  · simp only [m4, m3, call_menuManager, m1]
  · intro c hc
    simp only [List.mem_append, List.mem_singleton] at hc
    rcases hc with ((hc | hc) | hc) | hc
    · exact b1 c hc
    · subst hc; rfl
    · exact b3 c hc
    · exact b4 c hc
  · simp only [c4, c3, call_calls, c1, List.append_assoc]

theorem rememberLast_appends (K : Constants) (type : EffectType) (ID : PluginID)
    (shortDesc : String) (p : Project) :
    ∃ extra, (∀ c ∈ extra, HostCall.isBookkeeping c = true) ∧
      (rememberLast K type ID shortDesc p).calls = p.calls ++ extra := by
  cases type with
  | other n => exact ⟨[], by simp, by simp [rememberLast]⟩
  | EffectTypeGenerate =>
    exact ⟨[.Modify "RepeatLastGenerator" (lastEffectDesc shortDesc)],
      by simp [HostCall.isBookkeeping], by simp [rememberLast]⟩
  | EffectTypeProcess =>
    exact ⟨[.Modify "RepeatLastEffect" (lastEffectDesc shortDesc)],
      by simp [HostCall.isBookkeeping], by simp [rememberLast]⟩
  | EffectTypeAnalyze =>
    exact ⟨[.Modify "RepeatLastAnalyzer" (lastEffectDesc shortDesc)],
      by simp [HostCall.isBookkeeping], by simp [rememberLast]⟩
  | EffectTypeTool =>
    exact ⟨[.Modify "RepeatLastTool" (lastEffectDesc shortDesc)],
      by simp [HostCall.isBookkeeping], by simp [rememberLast]⟩

theorem rememberLast_menuManager_congr (K : Constants) (type : EffectType)
    (ID : PluginID) (shortDesc : String) (p q : Project)
    (h : p.menuManager = q.menuManager) :
    (rememberLast K type ID shortDesc p).menuManager =
      (rememberLast K type ID shortDesc q).menuManager := by
  cases type <;> simp [rememberLast, h]

theorem afterSuccess_menuManager (K : Constants) (env : Collaborators) (ID : PluginID)
    (type : EffectType) (flags count : Nat) (clean : Bool) (focus : Option Window)
    (fp : Option Nat) (n : Nat) (p : Project) :
    (afterSuccess K env ID type flags count clean focus fp n p).menuManager =
      if (if p.mSkipStateFlag then flags ||| K.kSkipState else flags)
          &&& K.kDontRepeatLast = 0 then
        (rememberLast K type ID (env.GetCommandName ID) p).menuManager
      else p.menuManager := by
  unfold afterSuccess
  simp only [(finishEffect_appends type count clean focus fp n _).1]
  generalize (if p.mSkipStateFlag = true then flags ||| K.kSkipState else flags) = flags2
  by_cases h1 : flags2 &&& K.kSkipState = 0 <;>
  by_cases h2 : flags2 &&& K.kDontRepeatLast = 0 <;>
  simp only [h1, h2, if_true, if_false]
  · exact rememberLast_menuManager_congr K type ID _ _ _ rfl
  · rfl

theorem afterSuccess_calls (K : Constants) (env : Collaborators) (ID : PluginID)
    (type : EffectType) (flags count : Nat) (clean : Bool) (focus : Option Window)
    (fp : Option Nat) (n : Nat) (p : Project) :
    ∃ extra, (∀ c ∈ extra, HostCall.isBookkeeping c = true) ∧
      (afterSuccess K env ID type flags count clean focus fp n p).calls =
        p.calls ++
          (if (if p.mSkipStateFlag then flags ||| K.kSkipState else flags)
              &&& K.kSkipState = 0 then
            [HostCall.PushState (env.GetCommandDescription ID) (env.GetCommandName ID)]
          else []) ++ extra := by
  unfold afterSuccess
  generalize (if p.mSkipStateFlag = true then flags ||| K.kSkipState else flags) = flags2
  by_cases h1 : flags2 &&& K.kSkipState = 0 <;>
  by_cases h2 : flags2 &&& K.kDontRepeatLast = 0 <;>
  simp only [h1, h2, if_true, if_false]
  · obtain ⟨e1, b1, c1⟩ := rememberLast_appends K type ID (env.GetCommandName ID)
      (p.call (.PushState (env.GetCommandDescription ID) (env.GetCommandName ID)))
    obtain ⟨_, e2, b2, c2⟩ := finishEffect_appends type count clean focus fp n
      (rememberLast K type ID (env.GetCommandName ID)
        (p.call (.PushState (env.GetCommandDescription ID) (env.GetCommandName ID))))
    refine ⟨e1 ++ e2, ?_, ?_⟩
    · intro c hc
      rcases List.mem_append.mp hc with hc | hc
      · exact b1 c hc
      · exact b2 c hc
    · simp only [c2, c1, call_calls, List.append_assoc]
  · obtain ⟨_, e2, b2, c2⟩ := finishEffect_appends type count clean focus fp n
      (p.call (.PushState (env.GetCommandDescription ID) (env.GetCommandName ID)))
    exact ⟨e2, b2, by simp only [c2, call_calls, List.append_assoc]⟩
  · obtain ⟨e1, b1, c1⟩ := rememberLast_appends K type ID (env.GetCommandName ID) p
    obtain ⟨_, e2, b2, c2⟩ := finishEffect_appends type count clean focus fp n
      (rememberLast K type ID (env.GetCommandName ID) p)
    refine ⟨e1 ++ e2, ?_, ?_⟩
    · intro c hc
      rcases List.mem_append.mp hc with hc | hc
      · exact b1 c hc
      · exact b2 c hc
    · simp only [c2, c1, List.append_assoc, List.append_nil]
  · obtain ⟨_, e2, b2, c2⟩ := finishEffect_appends type count clean focus fp n p
    exact ⟨e2, b2, by simp only [c2, List.append_nil]⟩

/-! ### `DoEffect` case by case -/

theorem stopActivity_eq (K : Constants) (flags : Nat) (project : Project) :
    stopActivity K flags project =
      project.withCalls (project.calls ++
        if flags &&& K.kConfigured ≠ 0 then [HostCall.Stop] else []) := by
  unfold stopActivity
  by_cases h : flags &&& K.kConfigured = 0
  · simp [h]
  · simp [h, Project.call, Project.withCalls]

/-- The result of `DoEffect` when the plugin is not found. -/
theorem DoEffect_of_no_plugin (K : Constants) (env : Collaborators) (ID : PluginID)
    (flags : Nat) (project : Project) (h : env.GetPlugin ID = none) :
    DoEffect K env ID flags project = (false, project) := by
  simp [DoEffect, h]

/-- The result of `DoEffect` when the plugin is found but the effect or its settings are not. -/
theorem DoEffect_of_no_run (K : Constants) (env : Collaborators) (ID : PluginID)
    (flags : Nat) (project : Project) (plug : PluginDescriptor)
    (hplug : env.GetPlugin ID = some plug)
    (h : env.GetEffect ID = none ∨ env.GetDefaultSettings ID = none) :
    DoEffect K env ID flags project =
      (false, { project with
        mSkipStateFlag := false
        calls := project.calls ++
          (if flags &&& K.kConfigured ≠ 0 then [HostCall.Stop] else []) ++
          [.SetSkipStateFlag false, .UpdateMenus false] }) := by
  unfold DoEffect
  simp only [hplug, stopActivity_eq]
  rcases h with h | h
  · simp [runEffect, h, Project.call, Project.withCalls]
  · cases he : env.GetEffect ID <;>
      simp [runEffect, h, he, Project.call, Project.withCalls]

/-- The result of `DoEffect` when the plugin, the effect and its settings are found. -/
theorem DoEffect_of_run (K : Constants) (env : Collaborators) (ID : PluginID)
    (flags : Nat) (project : Project) (plug : PluginDescriptor) (effect : Effect)
    (pSettings : EffectSettings)
    (hplug : env.GetPlugin ID = some plug) (he : env.GetEffect ID = some effect)
    (hs : env.GetDefaultSettings ID = some pSettings)
    (factory : Option EffectDialogFactory)
    (hfac : factory = if flags &&& K.kConfigured = 0 then some .DialogFactory else none)
    (run : EffectRun) (hrun : run = effect.DoEffect pSettings flags factory)
    (before : List HostCall)
    (hbefore : before = project.calls ++
      (if flags &&& K.kConfigured ≠ 0 then [HostCall.Stop] else []) ++
      [.SetSkipStateFlag false, .EffectDoEffect pSettings flags factory])
    (q0 : Project)
    (hq0 : q0 =
      { tracks := run.tracks, t0 := run.t0, menuManager := project.menuManager,
        mSkipStateFlag := run.mSkipStateFlag, calls := [] })
    (q : Project)
    (hq : q = afterSuccess K env ID plug.GetEffectType flags
      (countSelectedWaveTracks project.tracks).1 (countSelectedWaveTracks project.tracks).2
      env.FindFocus run.focusParent project.tracks.length q0) :
    DoEffect K env ID flags project =
      if run.success then (true, q.withCalls (before ++ q.calls))
      else (false, q0.withCalls (before ++ [.UpdateMenus false])) := by
  have hl := afterSuccess_logLocal K env ID plug.GetEffectType flags
    (countSelectedWaveTracks project.tracks).1 (countSelectedWaveTracks project.tracks).2
    env.FindFocus run.focusParent project.tracks.length q0 before
  have hq00 : q0.withCalls [] = q0 := by rw [hq0]; rfl
  rw [hq00, ← hq] at hl
  unfold DoEffect
  simp only [hplug, stopActivity_eq, runEffect, he, hs,
    EffectSettingsAccess.ModifySettings, ← hfac, ← hrun, withCalls_tracks]
  by_cases hsucc : run.success = true
  · simp only [hsucc, not_true_eq_false, if_false, if_true]
    rw [← hl]
    congr 2
    rw [hq0, hbefore]
    simp [Project.call, Project.withCalls]
  · simp only [hsucc, not_false_eq_true, if_true, if_false]
    rw [hq0, hbefore]
    simp [Project.call, Project.withCalls]

theorem callsMade_of_append {before after : Project} {made : List HostCall}
    (h : after.calls = before.calls ++ made) : callsMade before after = made := by
  simp [callsMade, h]

theorem callsMade_self (p : Project) : callsMade p p = [] := by
  simp [callsMade]

theorem pushStateCalls_append (l m : List HostCall) :
    pushStateCalls (l ++ m) = pushStateCalls l ++ pushStateCalls m := by
  simp [pushStateCalls]

theorem pushStateCalls_bookkeeping {extra : List HostCall}
    (h : ∀ c ∈ extra, HostCall.isBookkeeping c = true) : pushStateCalls extra = [] := by
  simp only [pushStateCalls, List.filter_eq_nil_iff]
  intro c hc
  have := h c hc
  cases c <;> simp_all [HostCall.isBookkeeping]

theorem factoriesPassed_append (l m : List HostCall) :
    factoriesPassed (l ++ m) = factoriesPassed l ++ factoriesPassed m := by
  simp [factoriesPassed]

theorem factoriesPassed_bookkeeping {extra : List HostCall}
    (h : ∀ c ∈ extra, HostCall.isBookkeeping c = true) : factoriesPassed extra = [] := by
  simp only [factoriesPassed, List.filterMap_eq_nil_iff]
  intro c hc
  have := h c hc
  cases c <;> simp_all [HostCall.isBookkeeping]

theorem stop_not_mem_bookkeeping {extra : List HostCall}
    (h : ∀ c ∈ extra, HostCall.isBookkeeping c = true) : HostCall.Stop ∉ extra := by
  intro hc
  have := h _ hc
  simp [HostCall.isBookkeeping] at this

theorem effectRun_eq_none_iff (K : Constants) (env : Collaborators) (ID : PluginID)
    (flags : Nat) :
    effectRun K env ID flags = none ↔
      (env.GetEffect ID = none ∨ env.GetDefaultSettings ID = none) := by
  unfold effectRun
  cases env.GetEffect ID <;> cases env.GetDefaultSettings ID <;> simp

theorem effectRun_of_found (K : Constants) (env : Collaborators) (ID : PluginID)
    (flags : Nat) (effect : Effect) (pSettings : EffectSettings)
    (he : env.GetEffect ID = some effect)
    (hs : env.GetDefaultSettings ID = some pSettings) :
    effectRun K env ID flags = some (effect.DoEffect pSettings flags
      (if flags &&& K.kConfigured = 0 then some .DialogFactory else none)) := by
  simp [effectRun, he, hs]

/-- The result of `DoEffect` when the effect ran and reported failure. -/
theorem DoEffect_of_failed_run (K : Constants) (env : Collaborators) (ID : PluginID)
    (flags : Nat) (project : Project) (plug : PluginDescriptor) (effect : Effect)
    (pSettings : EffectSettings) (run : EffectRun)
    (hplug : env.GetPlugin ID = some plug) (he : env.GetEffect ID = some effect)
    (hs : env.GetDefaultSettings ID = some pSettings)
    (hrun : effectRun K env ID flags = some run) (hfail : run.success = false) :
    (DoEffect K env ID flags project).1 = false ∧
    (DoEffect K env ID flags project).2.menuManager = project.menuManager ∧
    (DoEffect K env ID flags project).2.calls = project.calls ++
      ((if flags &&& K.kConfigured ≠ 0 then [HostCall.Stop] else []) ++
        [.SetSkipStateFlag false,
          .EffectDoEffect pSettings flags
            (if flags &&& K.kConfigured = 0 then some .DialogFactory else none),
          .UpdateMenus false]) := by
  rw [effectRun_of_found K env ID flags effect pSettings he hs] at hrun
  have hrun2 := (Option.some.inj hrun).symm
  rw [DoEffect_of_run K env ID flags project plug effect pSettings hplug he hs _ rfl
    run hrun2 _ rfl _ rfl _ rfl]
  simp [hfail, List.append_assoc]

/-- The result of `DoEffect` when the effect ran and reported success. -/
theorem DoEffect_of_successful_run (K : Constants) (env : Collaborators) (ID : PluginID)
    (flags : Nat) (project : Project) (plug : PluginDescriptor) (effect : Effect)
    (pSettings : EffectSettings) (run : EffectRun)
    (hplug : env.GetPlugin ID = some plug) (he : env.GetEffect ID = some effect)
    (hs : env.GetDefaultSettings ID = some pSettings)
    (hrun : effectRun K env ID flags = some run) (hok : run.success = true) :
    (DoEffect K env ID flags project).1 = true ∧
    (DoEffect K env ID flags project).2.menuManager =
      (if (if run.mSkipStateFlag then flags ||| K.kSkipState else flags)
          &&& K.kDontRepeatLast = 0 then
        (rememberLast K plug.GetEffectType ID (env.GetCommandName ID) project).menuManager
      else project.menuManager) ∧
    ∃ extra, (∀ c ∈ extra, HostCall.isBookkeeping c = true) ∧
      (DoEffect K env ID flags project).2.calls = project.calls ++
        ((if flags &&& K.kConfigured ≠ 0 then [HostCall.Stop] else []) ++
          [.SetSkipStateFlag false,
            .EffectDoEffect pSettings flags
              (if flags &&& K.kConfigured = 0 then some .DialogFactory else none)] ++
          (if (if run.mSkipStateFlag then flags ||| K.kSkipState else flags)
              &&& K.kSkipState = 0 then
            [HostCall.PushState (env.GetCommandDescription ID) (env.GetCommandName ID)]
          else []) ++ extra) := by
  rw [effectRun_of_found K env ID flags effect pSettings he hs] at hrun
  have hrun2 := (Option.some.inj hrun).symm
  rw [DoEffect_of_run K env ID flags project plug effect pSettings hplug he hs _ rfl
    run hrun2 _ rfl _ rfl _ rfl]
  simp only [hok, if_true, withCalls_menuManager, withCalls_calls, true_and]
  refine ⟨?_, ?_⟩
  · rw [afterSuccess_menuManager]
    dsimp only
    split_ifs <;> first | rfl | exact rememberLast_menuManager_congr K _ ID _ _ _ rfl
  · obtain ⟨extra, hb, hc⟩ := afterSuccess_calls K env ID plug.GetEffectType flags
      (countSelectedWaveTracks project.tracks).1 (countSelectedWaveTracks project.tracks).2
      env.FindFocus run.focusParent project.tracks.length
      { tracks := run.tracks, t0 := run.t0, menuManager := project.menuManager,
        mSkipStateFlag := run.mSkipStateFlag, calls := [] }
    refine ⟨extra, hb, ?_⟩
    rw [hc]
    simp [List.append_assoc]

/-! ## Claims on `EffectUI::DoEffect` -/

/-- C1: when `PluginManager::GetPlugin` returns null for `ID`, `DoEffect`
returns false whatever the flags are and leaves the state as it found it: it
makes no call at all (no `Stop`, no run of an effect, no `PushState`, no
`UpdateMenus`) and no repeat-last field changes. -/
theorem DoEffect_plugin_not_found (K : Constants) (env : Collaborators)
    (ID : PluginID) (flags : Nat) (project : Project)
    (h : env.GetPlugin ID = none) :
    (DoEffect K env ID flags project).1 = false ∧
    (DoEffect K env ID flags project).2 = project ∧
    callsMade project (DoEffect K env ID flags project).2 = [] ∧
    (DoEffect K env ID flags project).2.menuManager = project.menuManager := by
  rw [DoEffect_of_no_plugin K env ID flags project h]
  exact ⟨rfl, rfl, callsMade_self project, rfl⟩

theorem DoEffect_plugin_not_found_witness :
    sampleEnv.GetPlugin "Missing" = none ∧
    (DoEffect sampleConstants sampleEnv "Missing" 5 sampleProject).1 = false ∧
    (DoEffect sampleConstants sampleEnv "Missing" 5 sampleProject).2 = sampleProject ∧
    callsMade sampleProject
      (DoEffect sampleConstants sampleEnv "Missing" 5 sampleProject).2 = [] ∧
    (DoEffect sampleConstants sampleEnv "Missing" 5 sampleProject).2.menuManager =
      sampleProject.menuManager :=
  ⟨by decide,
    DoEffect_plugin_not_found sampleConstants sampleEnv "Missing" 5 sampleProject
      (by decide)⟩

/-- C2: when the plugin descriptor of `ID` exists, `DoEffect` returns true
exactly when `EffectManager::GetEffect(ID)` yields an effect,
`EffectManager::GetDefaultSettings(ID)` yields settings and the effect's own
`DoEffect` call (made with the caller's flags and the dialog factory chosen
from them) returns true; in every other case it returns false. -/
theorem DoEffect_returns_true_iff (K : Constants) (env : Collaborators)
    (ID : PluginID) (flags : Nat) (project : Project) (plug : PluginDescriptor)
    (hplug : env.GetPlugin ID = some plug) :
    ((DoEffect K env ID flags project).1 = true ↔
      ∃ effect pSettings, env.GetEffect ID = some effect ∧
        env.GetDefaultSettings ID = some pSettings ∧
        (effect.DoEffect pSettings flags
          (if flags &&& K.kConfigured = 0 then some .DialogFactory else none)).success
            = true) ∧
    ((¬ ∃ effect pSettings, env.GetEffect ID = some effect ∧
        env.GetDefaultSettings ID = some pSettings ∧
        (effect.DoEffect pSettings flags
          (if flags &&& K.kConfigured = 0 then some .DialogFactory else none)).success
            = true) →
      (DoEffect K env ID flags project).1 = false) := by
  have key : (DoEffect K env ID flags project).1 = true ↔
      ∃ effect pSettings, env.GetEffect ID = some effect ∧
        env.GetDefaultSettings ID = some pSettings ∧
        (effect.DoEffect pSettings flags
          (if flags &&& K.kConfigured = 0 then some .DialogFactory else none)).success
            = true := by
    cases he : env.GetEffect ID with
    | none =>
      rw [DoEffect_of_no_run K env ID flags project plug hplug (Or.inl he)]
      simp
    | some effect =>
      cases hs : env.GetDefaultSettings ID with
      | none =>
        rw [DoEffect_of_no_run K env ID flags project plug hplug (Or.inr hs)]
        simp
      | some pSettings =>
        rw [DoEffect_of_run K env ID flags project plug effect pSettings hplug he hs
          _ rfl _ rfl _ rfl _ rfl _ rfl]
        by_cases hsucc : (effect.DoEffect pSettings flags
          (if flags &&& K.kConfigured = 0 then some .DialogFactory else none)).success
            = true
        · simp [hsucc]
        · simp [hsucc]
  refine ⟨key, fun hnot => ?_⟩
  cases hres : (DoEffect K env ID flags project).1 with
  | false => rfl
  | true => exact absurd (key.mp hres) hnot

theorem DoEffect_returns_true_iff_witness :
    sampleEnv.GetPlugin "Amplify" = some { GetEffectType := .EffectTypeProcess } ∧
    (((DoEffect sampleConstants sampleEnv "Amplify" 0 sampleProject).1 = true ↔
      ∃ effect pSettings, sampleEnv.GetEffect "Amplify" = some effect ∧
        sampleEnv.GetDefaultSettings "Amplify" = some pSettings ∧
        (effect.DoEffect pSettings 0
          (if 0 &&& sampleConstants.kConfigured = 0 then some .DialogFactory
            else none)).success = true) ∧
    ((¬ ∃ effect pSettings, sampleEnv.GetEffect "Amplify" = some effect ∧
        sampleEnv.GetDefaultSettings "Amplify" = some pSettings ∧
        (effect.DoEffect pSettings 0
          (if 0 &&& sampleConstants.kConfigured = 0 then some .DialogFactory
            else none)).success = true) →
      (DoEffect sampleConstants sampleEnv "Amplify" 0 sampleProject).1 = false)) :=
  ⟨by decide,
    DoEffect_returns_true_iff sampleConstants sampleEnv "Amplify" 0 sampleProject
      { GetEffectType := .EffectTypeProcess } (by decide)⟩

/-- C3: `DoEffect` pushes an undo state at most once, with the effect's command
description and command name.  It pushes one exactly when the plugin is found,
the effect ran and reported success, the `kSkipState` bit is clear in the
caller's flags, and `EffectManager`'s skip-state flag is false after the run.
Whenever `DoEffect` returns false it pushes none.  (`kSkipState` is a
non-zero mask.) -/
theorem DoEffect_pushes_state (K : Constants) (env : Collaborators)
    (ID : PluginID) (flags : Nat) (project : Project)
    (hK : K.kSkipState ≠ 0) :
    (pushStateCalls (callsMade project (DoEffect K env ID flags project).2) =
        [.PushState (env.GetCommandDescription ID) (env.GetCommandName ID)] ↔
      (env.GetPlugin ID ≠ none ∧
        (∃ run, effectRun K env ID flags = some run ∧ run.success = true ∧
          run.mSkipStateFlag = false) ∧
        flags &&& K.kSkipState = 0)) ∧
    (pushStateCalls (callsMade project (DoEffect K env ID flags project).2) = [] ∨
      pushStateCalls (callsMade project (DoEffect K env ID flags project).2) =
        [.PushState (env.GetCommandDescription ID) (env.GetCommandName ID)]) ∧
    ((DoEffect K env ID flags project).1 = false →
      pushStateCalls (callsMade project (DoEffect K env ID flags project).2) = []) := by
  cases hplug : env.GetPlugin ID with
  | none =>
    rw [DoEffect_of_no_plugin K env ID flags project hplug, callsMade_self]
    simp [pushStateCalls]
  | some plug =>
    cases hrun : effectRun K env ID flags with
    | none =>
      have hno := (effectRun_eq_none_iff K env ID flags).mp hrun
      rw [DoEffect_of_no_run K env ID flags project plug hplug hno]
      rw [@callsMade_of_append project _
        ((if flags &&& K.kConfigured ≠ 0 then [HostCall.Stop] else []) ++
          [.SetSkipStateFlag false, .UpdateMenus false]) (by simp [List.append_assoc])]
      split_ifs <;> simp [pushStateCalls]
    | some run =>
      obtain ⟨effect, he⟩ : ∃ effect, env.GetEffect ID = some effect := by
        cases he : env.GetEffect ID with
        | none =>
          rw [(effectRun_eq_none_iff K env ID flags).mpr (Or.inl he)] at hrun
          exact absurd hrun (by simp)
        | some effect => exact ⟨effect, rfl⟩
      obtain ⟨pSettings, hs⟩ : ∃ s, env.GetDefaultSettings ID = some s := by
        cases hs : env.GetDefaultSettings ID with
        | none =>
          rw [(effectRun_eq_none_iff K env ID flags).mpr (Or.inr hs)] at hrun
          exact absurd hrun (by simp)
        | some s => exact ⟨s, rfl⟩
      cases hsucc : run.success with
      | false =>
        obtain ⟨h1, _, h3⟩ := DoEffect_of_failed_run K env ID flags project plug effect
          pSettings run hplug he hs hrun hsucc
        rw [callsMade_of_append h3]
        have hp : pushStateCalls
            ((if flags &&& K.kConfigured ≠ 0 then [HostCall.Stop] else []) ++
              [.SetSkipStateFlag false,
                .EffectDoEffect pSettings flags
                  (if flags &&& K.kConfigured = 0 then some .DialogFactory else none),
                .UpdateMenus false]) = [] := by
          split_ifs <;> simp [pushStateCalls]
        rw [hp]
        simp [hsucc]
      | true =>
        obtain ⟨h1, _, extra, hb, h3⟩ := DoEffect_of_successful_run K env ID flags project
          plug effect pSettings run hplug he hs hrun hsucc
        rw [callsMade_of_append h3, h1]
        have hp : pushStateCalls
            ((if flags &&& K.kConfigured ≠ 0 then [HostCall.Stop] else []) ++
              [.SetSkipStateFlag false,
                .EffectDoEffect pSettings flags
                  (if flags &&& K.kConfigured = 0 then some .DialogFactory else none)]) = [] := by
          split_ifs <;> simp [pushStateCalls]
        rw [pushStateCalls_append, pushStateCalls_append, hp,
          pushStateCalls_bookkeeping hb]
        cases hskip : run.mSkipStateFlag with
        | true =>
          have : ¬ ((flags ||| K.kSkipState) &&& K.kSkipState = 0) := by
            rw [and_or_self_right]; exact hK
          simp [this, pushStateCalls, hsucc, hskip]
        | false =>
          by_cases hbit : flags &&& K.kSkipState = 0
          · simp [hbit, pushStateCalls, hsucc, hskip]
          · simp [hbit, pushStateCalls, hsucc, hskip]

/-- C3 at a sample call: "Amplify", found and successful, with no flag set. -/
theorem DoEffect_pushes_state_witness :
    sampleConstants.kSkipState ≠ 0 ∧
    ((pushStateCalls (callsMade sampleProject
          (DoEffect sampleConstants sampleEnv "Amplify" 0 sampleProject).2) =
        [.PushState (sampleEnv.GetCommandDescription "Amplify")
          (sampleEnv.GetCommandName "Amplify")] ↔
      (sampleEnv.GetPlugin "Amplify" ≠ none ∧
        (∃ run, effectRun sampleConstants sampleEnv "Amplify" 0 = some run ∧
          run.success = true ∧ run.mSkipStateFlag = false) ∧
        0 &&& sampleConstants.kSkipState = 0)) ∧
    (pushStateCalls (callsMade sampleProject
          (DoEffect sampleConstants sampleEnv "Amplify" 0 sampleProject).2) = [] ∨
      pushStateCalls (callsMade sampleProject
          (DoEffect sampleConstants sampleEnv "Amplify" 0 sampleProject).2) =
        [.PushState (sampleEnv.GetCommandDescription "Amplify")
          (sampleEnv.GetCommandName "Amplify")]) ∧
    ((DoEffect sampleConstants sampleEnv "Amplify" 0 sampleProject).1 = false →
      pushStateCalls (callsMade sampleProject
          (DoEffect sampleConstants sampleEnv "Amplify" 0 sampleProject).2) = [])) :=
  ⟨by decide,
    DoEffect_pushes_state sampleConstants sampleEnv "Amplify" 0 sampleProject
      (by decide)⟩

theorem afterSuccess_flags_congr (K : Constants) (env : Collaborators) (ID : PluginID)
    (type : EffectType) (f1 f2 count : Nat) (clean : Bool) (focus : Option Window)
    (fp : Option Nat) (n : Nat) (p : Project)
    (hs : f1 &&& K.kSkipState = f2 &&& K.kSkipState)
    (hd : f1 &&& K.kDontRepeatLast = f2 &&& K.kDontRepeatLast) :
    afterSuccess K env ID type f1 count clean focus fp n p =
      afterSuccess K env ID type f2 count clean focus fp n p := by
  unfold afterSuccess
  have e1 : (if p.mSkipStateFlag = true then f1 ||| K.kSkipState else f1) &&& K.kSkipState =
      (if p.mSkipStateFlag = true then f2 ||| K.kSkipState else f2) &&& K.kSkipState := by
    split_ifs
    · exact or_and_congr f1 f2 K.kSkipState K.kSkipState hs
    · exact hs
  have e2 : (if p.mSkipStateFlag = true then f1 ||| K.kSkipState else f1)
        &&& K.kDontRepeatLast =
      (if p.mSkipStateFlag = true then f2 ||| K.kSkipState else f2)
        &&& K.kDontRepeatLast := by
    split_ifs
    · exact or_and_congr f1 f2 K.kSkipState K.kDontRepeatLast hd
    · exact hd
  simp only [e1, e2]

/-- C4: the flags reach the host-side decisions of `DoEffect` through the
`kConfigured`, `kSkipState` and `kDontRepeatLast` bits only.  For two flags
values that agree on these three masks, and an effect that answers both calls
alike, `DoEffect` stops playback or not alike, hands the same dialog factory
to the effect, pushes the same undo state, renames the same repeat command,
leaves the same repeat-last fields and returns the same value. -/
theorem DoEffect_flags_three_bits (K : Constants) (env : Collaborators)
    (ID : PluginID) (f1 f2 : Nat) (project : Project)
    (hc : f1 &&& K.kConfigured = f2 &&& K.kConfigured)
    (hs : f1 &&& K.kSkipState = f2 &&& K.kSkipState)
    (hd : f1 &&& K.kDontRepeatLast = f2 &&& K.kDontRepeatLast)
    (hresp : ∀ effect pSettings factory, env.GetEffect ID = some effect →
      env.GetDefaultSettings ID = some pSettings →
      effect.DoEffect pSettings f1 factory = effect.DoEffect pSettings f2 factory) :
    hostDecisions project (DoEffect K env ID f1 project) =
      hostDecisions project (DoEffect K env ID f2 project) := by
  cases hplug : env.GetPlugin ID with
  | none => simp [DoEffect, hplug]
  | some plug =>
    cases he : env.GetEffect ID with
    | none =>
      rw [DoEffect_of_no_run K env ID f1 project plug hplug (Or.inl he),
        DoEffect_of_no_run K env ID f2 project plug hplug (Or.inl he), hc]
    | some effect =>
      cases hset : env.GetDefaultSettings ID with
      | none =>
        rw [DoEffect_of_no_run K env ID f1 project plug hplug (Or.inr hset),
          DoEffect_of_no_run K env ID f2 project plug hplug (Or.inr hset), hc]
      | some pSettings =>
        rw [DoEffect_of_run K env ID f1 project plug effect pSettings hplug he hset
            _ rfl _ rfl _ rfl _ rfl _ rfl,
          DoEffect_of_run K env ID f2 project plug effect pSettings hplug he hset
            _ rfl _ rfl _ rfl _ rfl _ rfl]
        rw [hc, hresp effect pSettings _ he hset,
          afterSuccess_flags_congr K env ID plug.GetEffectType f1 f2 _ _ _ _ _ _ hs hd]
        generalize (if f2 &&& K.kConfigured = 0 then some EffectDialogFactory.DialogFactory
          else none) = factory
        generalize effect.DoEffect pSettings f2 factory = run
        generalize afterSuccess K env ID plug.GetEffectType f2
          (countSelectedWaveTracks project.tracks).1
          (countSelectedWaveTracks project.tracks).2 env.FindFocus run.focusParent
          project.tracks.length
          { tracks := run.tracks, t0 := run.t0, menuManager := project.menuManager,
            mSkipStateFlag := run.mSkipStateFlag, calls := [] } = q
        cases run.success <;>
          simp [hostDecisions, callsMade, List.append_assoc, factoriesPassed,
            pushStateCalls, modifyCalls, List.filter_append, List.filterMap_append]

/-- C4 at a sample call: flags `8` and `0` agree on the three masks. -/
theorem DoEffect_flags_three_bits_witness :
    (8 &&& sampleConstants.kConfigured = 0 &&& sampleConstants.kConfigured) ∧
    (8 &&& sampleConstants.kSkipState = 0 &&& sampleConstants.kSkipState) ∧
    (8 &&& sampleConstants.kDontRepeatLast = 0 &&& sampleConstants.kDontRepeatLast) ∧
    (∀ effect pSettings factory, sampleEnv.GetEffect "Amplify" = some effect →
      sampleEnv.GetDefaultSettings "Amplify" = some pSettings →
      effect.DoEffect pSettings 8 factory = effect.DoEffect pSettings 0 factory) ∧
    hostDecisions sampleProject (DoEffect sampleConstants sampleEnv "Amplify" 8 sampleProject) =
      hostDecisions sampleProject
        (DoEffect sampleConstants sampleEnv "Amplify" 0 sampleProject) := by
  have hresp : ∀ effect pSettings factory, sampleEnv.GetEffect "Amplify" = some effect →
      sampleEnv.GetDefaultSettings "Amplify" = some pSettings →
      effect.DoEffect pSettings 8 factory = effect.DoEffect pSettings 0 factory := by
    intro effect pSettings factory he _
    have he2 : sampleEffect = effect := by
      simpa [sampleEnv] using he
    subst he2
    rfl
  exact ⟨by decide, by decide, by decide, hresp,
    DoEffect_flags_three_bits sampleConstants sampleEnv "Amplify" 8 0 sampleProject
      (by decide) (by decide) (by decide) hresp⟩

/-- C5: with the plugin found, the `kConfigured` bit decides two things.  When
it is set, `Stop` is the first call `DoEffect` makes, so playback is stopped
before the effect runs, and the effect, if it is run, gets a null dialog
factory.  When it is clear, `DoEffect` never stops playback and the effect, if
it is run, gets `EffectUI::DialogFactory`.  The effect is run exactly when
`EffectManager` yields it and its settings. -/
theorem DoEffect_configured_bit (K : Constants) (env : Collaborators)
    (ID : PluginID) (flags : Nat) (project : Project) (plug : PluginDescriptor)
    (hplug : env.GetPlugin ID = some plug) :
    (flags &&& K.kConfigured ≠ 0 →
      ∃ rest, callsMade project (DoEffect K env ID flags project).2 = .Stop :: rest ∧
        factoriesPassed rest =
          if (effectRun K env ID flags).isSome then [none] else []) ∧
    (flags &&& K.kConfigured = 0 →
      HostCall.Stop ∉ callsMade project (DoEffect K env ID flags project).2 ∧
      factoriesPassed (callsMade project (DoEffect K env ID flags project).2) =
        if (effectRun K env ID flags).isSome then [some .DialogFactory] else []) := by
  cases hrun : effectRun K env ID flags with
  | none =>
    have hno := (effectRun_eq_none_iff K env ID flags).mp hrun
    rw [DoEffect_of_no_run K env ID flags project plug hplug hno]
    rw [@callsMade_of_append project _
      ((if flags &&& K.kConfigured ≠ 0 then [HostCall.Stop] else []) ++
        [.SetSkipStateFlag false, .UpdateMenus false]) (by simp [List.append_assoc])]
    constructor
    · intro hbit
      exact ⟨[.SetSkipStateFlag false, .UpdateMenus false], by simp [hbit],
        by simp [factoriesPassed]⟩
    · intro hbit
      simp [hbit, factoriesPassed]
  | some run =>
    obtain ⟨effect, he⟩ : ∃ effect, env.GetEffect ID = some effect := by
      cases he : env.GetEffect ID with
      | none =>
        rw [(effectRun_eq_none_iff K env ID flags).mpr (Or.inl he)] at hrun
        exact absurd hrun (by simp)
      | some effect => exact ⟨effect, rfl⟩
    obtain ⟨pSettings, hs⟩ : ∃ s, env.GetDefaultSettings ID = some s := by
      cases hs : env.GetDefaultSettings ID with
      | none =>
        rw [(effectRun_eq_none_iff K env ID flags).mpr (Or.inr hs)] at hrun
        exact absurd hrun (by simp)
      | some s => exact ⟨s, rfl⟩
    cases hsucc : run.success with
    | false =>
      simp only [Option.isSome_some, if_true]
      obtain ⟨_, _, h3⟩ := DoEffect_of_failed_run K env ID flags project plug effect
        pSettings run hplug he hs hrun hsucc
      rw [callsMade_of_append h3]
      constructor
      · intro hbit
        exact ⟨[.SetSkipStateFlag false, .EffectDoEffect pSettings flags none,
          .UpdateMenus false], by simp [hbit], by simp [factoriesPassed]⟩
      · intro hbit
        simp [hbit, factoriesPassed]
    | true =>
      obtain ⟨_, _, extra, hb, h3⟩ := DoEffect_of_successful_run K env ID flags project
        plug effect pSettings run hplug he hs hrun hsucc
      rw [callsMade_of_append h3]
      have hf := factoriesPassed_bookkeeping hb
      have hstop := stop_not_mem_bookkeeping hb
      have hpush : ∃ push, push =
          (if (if run.mSkipStateFlag then flags ||| K.kSkipState else flags)
              &&& K.kSkipState = 0 then
            [HostCall.PushState (env.GetCommandDescription ID) (env.GetCommandName ID)]
          else []) ∧ factoriesPassed push = [] ∧ HostCall.Stop ∉ push := by
        refine ⟨_, rfl, ?_, ?_⟩ <;> split_ifs <;> simp [factoriesPassed]
      obtain ⟨push, hpe, hpf, hps⟩ := hpush
      rw [← hpe]
      simp only [Option.isSome_some, if_true]
      constructor
      · intro hbit
        refine ⟨[.SetSkipStateFlag false, .EffectDoEffect pSettings flags none] ++
          push ++ extra, by simp [hbit], ?_⟩
        rw [factoriesPassed_append, factoriesPassed_append, hf, hpf]
        simp [factoriesPassed]
      · intro hbit
        rw [factoriesPassed_append, factoriesPassed_append, hf, hpf]
        refine ⟨?_, ?_⟩
        · simp [hbit, hps, hstop]
        · simp [factoriesPassed, hbit]

/-- C5 at a sample call: "Amplify" with the `kConfigured` bit set. -/
theorem DoEffect_configured_bit_witness :
    sampleEnv.GetPlugin "Amplify" = some { GetEffectType := .EffectTypeProcess } ∧
    ((1 &&& sampleConstants.kConfigured ≠ 0 →
      ∃ rest, callsMade sampleProject
          (DoEffect sampleConstants sampleEnv "Amplify" 1 sampleProject).2 = .Stop :: rest ∧
        factoriesPassed rest =
          if (effectRun sampleConstants sampleEnv "Amplify" 1).isSome then [none] else []) ∧
    (1 &&& sampleConstants.kConfigured = 0 →
      HostCall.Stop ∉ callsMade sampleProject
        (DoEffect sampleConstants sampleEnv "Amplify" 1 sampleProject).2 ∧
      factoriesPassed (callsMade sampleProject
          (DoEffect sampleConstants sampleEnv "Amplify" 1 sampleProject).2) =
        if (effectRun sampleConstants sampleEnv "Amplify" 1).isSome then
          [some .DialogFactory] else [])) :=
  ⟨by decide,
    DoEffect_configured_bit sampleConstants sampleEnv "Amplify" 1 sampleProject
      { GetEffectType := .EffectTypeProcess } (by decide)⟩

/-- C6: `DoEffect` remembers a successful generator, effect, analyzer or tool.
When it returns true and `kDontRepeatLast` is clear in the caller's flags, the
repeat-last fields of the plugin's own effect type, and no others, are
written: the last-plugin field becomes `ID` and the repeat flags become
`kConfigured` (for a Tool whose command name is `NYQUIST_PROMPT_NAME`,
`kRepeatNyquistPrompt`); Analyze and Tool also record `repeattypeplugin` as
their registration.  A plugin of any other type writes nothing.  When
`DoEffect` returns false or `kDontRepeatLast` is set, no repeat-last field
changes.  (`kSkipState` and `kDontRepeatLast` are masks with no common bit.) -/
theorem DoEffect_repeat_last (K : Constants) (env : Collaborators)
    (ID : PluginID) (flags : Nat) (project : Project) (plug : PluginDescriptor)
    (hplug : env.GetPlugin ID = some plug)
    (hK : K.kSkipState &&& K.kDontRepeatLast = 0) :
    ((DoEffect K env ID flags project).1 = true ∧ flags &&& K.kDontRepeatLast = 0 →
      (plug.GetEffectType = .EffectTypeGenerate →
        (DoEffect K env ID flags project).2.menuManager =
          { project.menuManager with
            mLastGenerator := ID
            mRepeatGeneratorFlags := K.kConfigured }) ∧
      (plug.GetEffectType = .EffectTypeProcess →
        (DoEffect K env ID flags project).2.menuManager =
          { project.menuManager with
            mLastEffect := ID
            mRepeatEffectFlags := K.kConfigured }) ∧
      (plug.GetEffectType = .EffectTypeAnalyze →
        (DoEffect K env ID flags project).2.menuManager =
          { project.menuManager with
            mLastAnalyzer := ID
            mLastAnalyzerRegistration := K.repeattypeplugin
            mRepeatAnalyzerFlags := K.kConfigured }) ∧
      (plug.GetEffectType = .EffectTypeTool →
        (DoEffect K env ID flags project).2.menuManager =
          { project.menuManager with
            mLastTool := ID
            mLastToolRegistration := K.repeattypeplugin
            mRepeatToolFlags :=
              if env.GetCommandName ID = K.NYQUIST_PROMPT_NAME then K.kRepeatNyquistPrompt
              else K.kConfigured }) ∧
      (∀ n, plug.GetEffectType = .other n →
        (DoEffect K env ID flags project).2.menuManager = project.menuManager)) ∧
    ((DoEffect K env ID flags project).1 = false ∨ flags &&& K.kDontRepeatLast ≠ 0 →
      (DoEffect K env ID flags project).2.menuManager = project.menuManager) := by
  cases hrun : effectRun K env ID flags with
  | none =>
    have hno := (effectRun_eq_none_iff K env ID flags).mp hrun
    rw [DoEffect_of_no_run K env ID flags project plug hplug hno]
    simp
  | some run =>
    obtain ⟨effect, he⟩ : ∃ effect, env.GetEffect ID = some effect := by
      cases he : env.GetEffect ID with
      | none =>
        rw [(effectRun_eq_none_iff K env ID flags).mpr (Or.inl he)] at hrun
        exact absurd hrun (by simp)
      | some effect => exact ⟨effect, rfl⟩
    obtain ⟨pSettings, hs⟩ : ∃ s, env.GetDefaultSettings ID = some s := by
      cases hs : env.GetDefaultSettings ID with
      | none =>
        rw [(effectRun_eq_none_iff K env ID flags).mpr (Or.inr hs)] at hrun
        exact absurd hrun (by simp)
      | some s => exact ⟨s, rfl⟩
    cases hsucc : run.success with
    | false =>
      obtain ⟨h1, h2, _⟩ := DoEffect_of_failed_run K env ID flags project plug effect
        pSettings run hplug he hs hrun hsucc
      rw [h1, h2]
      simp
    | true =>
      obtain ⟨h1, h2, _⟩ := DoEffect_of_successful_run K env ID flags project
        plug effect pSettings run hplug he hs hrun hsucc
      have hbit : (if run.mSkipStateFlag = true then flags ||| K.kSkipState else flags)
          &&& K.kDontRepeatLast = flags &&& K.kDontRepeatLast := by
        split_ifs
        · exact or_and_of_disjoint flags K.kSkipState K.kDontRepeatLast hK
        · rfl
      rw [h1, h2, hbit]
      constructor
      · rintro ⟨_, hclear⟩
        simp only [hclear, if_true]
        refine ⟨?_, ?_, ?_, ?_, ?_⟩ <;> intro ht <;> (try intro ht2) <;>
          simp_all [rememberLast]
      · rintro (h | h)
        · exact absurd h (by simp)
        · simp [h]

/-- C6 at a sample call: "Amplify", a processing effect, with no flag set. -/
theorem DoEffect_repeat_last_witness :
    sampleEnv.GetPlugin "Amplify" = some { GetEffectType := .EffectTypeProcess } ∧
    sampleConstants.kSkipState &&& sampleConstants.kDontRepeatLast = 0 ∧
    (DoEffect sampleConstants sampleEnv "Amplify" 0 sampleProject).1 = true ∧
    (DoEffect sampleConstants sampleEnv "Amplify" 0 sampleProject).2.menuManager =
      { sampleProject.menuManager with
        mLastEffect := "Amplify"
        mRepeatEffectFlags := sampleConstants.kConfigured } :=
  ⟨by decide, by decide, by decide,
    ((DoEffect_repeat_last sampleConstants sampleEnv "Amplify" 0 sampleProject
      { GetEffectType := .EffectTypeProcess } (by decide) (by decide)).1
        ⟨by decide, by decide⟩).2.1 rfl⟩


/-! ## Lemmas on the dialog -/

@[simp] theorem dialog_call_calls (d : EffectUIHost) (c : DialogCall) :
    (d.call c).calls = d.calls ++ [c] := rfl

theorem dialogCallsMade_of_append {before after : EffectUIHost}
    {made : List DialogCall} (h : after.calls = before.calls ++ made) :
    dialogCallsMade before after = made := by
  simp [dialogCallsMade, h]

/-! ### `UpdateControls` block by block -/

theorem releaseTrappedFocus_of_close (d : EffectUIHost)
    (hc : d.mCloseBtn.isSome = true) :
    ∃ focus, d.releaseTrappedFocus = some { d with focus := focus } := by
  obtain ⟨c, hc2⟩ := Option.isSome_iff_exists.mp hc
  unfold EffectUIHost.releaseTrappedFocus
  by_cases h1 : (d.mCapturing || d.mDisableTransport) = true
  · by_cases h2 : d.focus = ptr d.mRewindBtn ∨ d.focus = ptr d.mFFwdBtn ∨
        d.focus = ptr d.mPlayBtn ∨ d.focus = ptr d.mEnableCb
    · refine ⟨some c.id, ?_⟩
      rw [if_pos h1]
      simp only [h2, if_true, hc2, Option.map_some']
    · refine ⟨d.focus, ?_⟩
      rw [if_pos h1]
      simp only [h2, if_false]
  · refine ⟨d.focus, ?_⟩
    rw [if_neg h1]

theorem UpdateControls_of_batch (d : EffectUIHost) (hbatch : d.mIsBatch = true) :
    d.UpdateControls = some d := by
  simp [EffectUIHost.UpdateControls, hbatch]

set_option maxHeartbeats 800000 in
theorem UpdateControls_of_built (d : EffectUIHost) (hb : d.ControlsBuilt)
    (hbatch : d.mIsBatch = false) :
    ∃ d2, d.UpdateControls = some d2 ∧
      d2 = { d with
        focus := d2.focus
        mApplyBtn := d2.mApplyBtn
        mPlayToggleBtn := d2.mPlayToggleBtn
        mPlayBtn := d2.mPlayBtn
        mRewindBtn := d2.mRewindBtn
        mFFwdBtn := d2.mFFwdBtn
        mEnableCb := d2.mEnableCb } ∧
      (∃ a, d2.mApplyBtn = some a ∧ a.enabled = !d.mCapturing) ∧
      ((d.mEffectUIHost.GetDefinition.GetType ≠ .EffectTypeAnalyze ∧
          d.mEffectUIHost.GetDefinition.GetType ≠ .EffectTypeTool) →
        ∃ b, d2.playControl = some b ∧
          b.enabled = !(d.mCapturing || d.mDisableTransport)) ∧
      (¬ (d.mEffectUIHost.GetDefinition.GetType ≠ .EffectTypeAnalyze ∧
          d.mEffectUIHost.GetDefinition.GetType ≠ .EffectTypeTool) →
        d2.playControl.map (fun b => b.enabled) = d.playControl.map (fun b => b.enabled) ∧
        (d.mSupportsRealtime = false → d2.playControl = d.playControl)) ∧
      (d.mSupportsRealtime = true →
        (∃ r, d2.mRewindBtn = some r ∧
          r.enabled = !(d.mCapturing || d.mDisableTransport)) ∧
        (∃ f, d2.mFFwdBtn = some f ∧
          f.enabled = !(d.mCapturing || d.mDisableTransport)) ∧
        (∃ e, d2.mEnableCb = some e ∧
          e.enabled = !(d.mCapturing || d.mDisableTransport)) ∧
        ∃ b, d2.playControl = some b ∧
          (d.mIsGUI = false →
            b.label = if d.mPlaying then "Stop &Playback" else "Start &Playback") ∧
          (d.mIsGUI = true →
            b.bitmapLabel = (if d.mPlaying then d.mStopBM else d.mPlayBM) ∧
            b.bitmapDisabled =
              (if d.mPlaying then d.mStopDisabledBM else d.mPlayDisabledBM) ∧
            b.toolTip = (if d.mPlaying then "Stop" else "Play"))) ∧
      (d.mSupportsRealtime = false →
        d2.mRewindBtn = d.mRewindBtn ∧ d2.mFFwdBtn = d.mFFwdBtn ∧
          d2.mEnableCb = d.mEnableCb) := by
  obtain ⟨happly, hclose, hplay, hrt, _⟩ := hb hbatch
  obtain ⟨a, ha⟩ := Option.isSome_iff_exists.mp happly
  obtain ⟨fcs, hfocus⟩ := releaseTrappedFocus_of_close d hclose
  clear hb happly hclose
  obtain ⟨host, client, access, audio, tk, val, init, rt, gui, batch, dis, en, playing,
    cap, dism, pos, reg, presets, st, menu, toggle, play, rew, ff, ecb, apply, close,
    pbm, pdbm, sbm, sdbm, sb, acc, focus, calls⟩ := d
  simp only at ha hbatch hplay hrt hfocus
  subst ha hbatch
  simp only [EffectUIHost.playControl] at hplay ⊢
  by_cases htype : host.GetDefinition.GetType ≠ .EffectTypeAnalyze ∧
      host.GetDefinition.GetType ≠ .EffectTypeTool
  all_goals
    cases gui <;> cases rt <;>
    simp only [Bool.not_false, Bool.not_true, if_true, if_false, Bool.false_eq_true,
      true_or, false_or, forall_const, not_false_eq_true, not_true_eq_false,
      and_self, or_self, IsEmpty.forall_iff] at hplay hrt ⊢
  all_goals
    first
    | have hplay2 := hplay htype
      clear hplay
      obtain ⟨b, hb2⟩ := Option.isSome_iff_exists.mp hplay2
      subst hb2
    | obtain ⟨b, hb2⟩ := Option.isSome_iff_exists.mp hplay
      subst hb2
    | skip
  all_goals
    first
    | obtain ⟨hr1, hr2, hr3⟩ := hrt
      obtain ⟨r, hr1⟩ := Option.isSome_iff_exists.mp hr1
      obtain ⟨f, hr2⟩ := Option.isSome_iff_exists.mp hr2
      obtain ⟨e, hr3⟩ := Option.isSome_iff_exists.mp hr3
      subst hr1 hr2 hr3
      cases playing <;> cases hmac : tk.wxMac <;>
      simp [EffectUIHost.UpdateControls, hfocus,
        EffectUIHost.enableApply, EffectUIHost.enablePlayControl,
        EffectUIHost.enableTransport, EffectUIHost.updatePlayControl, htype, hmac,
        Control.Enable, Control.SetLabel, Control.SetName, Control.SetToolTip,
        Control.SetBitmapLabel, Control.SetBitmapDisabled]
    | simp [EffectUIHost.UpdateControls, hfocus,
        EffectUIHost.enableApply, EffectUIHost.enablePlayControl, htype, Control.Enable]

/-! ### `BuildButtonBar` and `Initialize` -/

theorem BuildButtonBar_facts (d : EffectUIHost) :
    d.BuildButtonBar = { d with
      mSupportsRealtime := d.mEffectUIHost.GetDefinition.SupportsRealtime
      mIsGUI := d.mClient.IsGraphicalUI
      mIsBatch := d.mEffectUIHost.IsBatchProcessing
      mMenuBtn := d.BuildButtonBar.mMenuBtn
      mPlayToggleBtn := d.BuildButtonBar.mPlayToggleBtn
      mPlayBtn := d.BuildButtonBar.mPlayBtn
      mRewindBtn := d.BuildButtonBar.mRewindBtn
      mFFwdBtn := d.BuildButtonBar.mFFwdBtn
      mEnableCb := d.BuildButtonBar.mEnableCb
      mPlayBM := d.BuildButtonBar.mPlayBM
      mPlayDisabledBM := d.BuildButtonBar.mPlayDisabledBM
      mStopBM := d.BuildButtonBar.mStopBM
      mStopDisabledBM := d.BuildButtonBar.mStopDisabledBM } ∧
    (d.mEffectUIHost.IsBatchProcessing = false →
      ((d.mEffectUIHost.GetDefinition.SupportsRealtime = true ∨
          (d.mEffectUIHost.GetDefinition.GetType ≠ .EffectTypeAnalyze ∧
            d.mEffectUIHost.GetDefinition.GetType ≠ .EffectTypeTool)) →
        d.BuildButtonBar.playControl.isSome = true) ∧
      (d.mEffectUIHost.GetDefinition.SupportsRealtime = true →
        d.BuildButtonBar.mRewindBtn.isSome = true ∧
        d.BuildButtonBar.mFFwdBtn.isSome = true ∧
        d.BuildButtonBar.mEnableCb.isSome = true) ∧
      (d.mClient.IsGraphicalUI = true →
        d.BuildButtonBar.mPlayBM ≠ d.BuildButtonBar.mStopBM)) := by
  obtain ⟨host, client, access, audio, tk, val, init, rt, gui, batch, dis, en, playing,
    cap, dism, pos, reg, presets, st, menu, toggle, play, rew, ff, ecb, apply, close,
    pbm, pdbm, sbm, sdbm, sb, acc, focus, calls⟩ := d
  by_cases htype : host.GetDefinition.GetType ≠ .EffectTypeAnalyze ∧
      host.GetDefinition.GetType ≠ .EffectTypeTool <;>
  cases hgui : client.IsGraphicalUI <;>
  cases hb : host.IsBatchProcessing <;>
  cases hrt : host.GetDefinition.SupportsRealtime <;>
  simp [EffectUIHost.BuildButtonBar, EffectUIHost.playControl, hgui, hb, hrt, htype,
    CreateBitmap]

theorem buildFrame_eq (d : EffectUIHost) :
    d.buildFrame = { d.BuildButtonBar with
      acceleratorTable :=
        if d.mEffectUIHost.GetDefinition.ManualPage = "" ∧
            d.mEffectUIHost.GetDefinition.HelpPage = "" then []
        else if d.toolkit.wxMac then [{ keyCode := none, command := none }]
        else [{ keyCode := some .WXK_F1, command := some .wxID_HELP }]
      standardButtons :=
        [StandardButton.eApplyButton, StandardButton.eCloseButton] ++
          (if d.mEffectUIHost.GetDefinition.ManualPage = "" ∧
              d.mEffectUIHost.GetDefinition.HelpPage = "" then []
            else [StandardButton.eHelpButton]) ++
          (if d.mEffectUIHost.GetDefinition.EnablesDebug then [StandardButton.eDebugButton]
            else [])
      mApplyBtn := some (stockButton .wxID_APPLY)
      mCloseBtn := some (stockButton .wxID_CANCEL) } := by
  have hframe := (BuildButtonBar_facts d).1
  have h1 : d.BuildButtonBar.mEffectUIHost = d.mEffectUIHost := by rw [hframe]
  have h2 : d.BuildButtonBar.toolkit = d.toolkit := by rw [hframe]
  unfold EffectUIHost.buildFrame
  simp only [h1, h2]
  generalize d.BuildButtonBar = b
  by_cases hp : d.mEffectUIHost.GetDefinition.ManualPage = "" ∧
      d.mEffectUIHost.GetDefinition.HelpPage = "" <;>
  cases hd : d.mEffectUIHost.GetDefinition.EnablesDebug <;>
  cases hm : d.toolkit.wxMac <;>
  simp [hp, hd, hm, EffectUIHost.FindStandardButton, StandardButton.windowId]

theorem buildFrame_built (d : EffectUIHost) : d.buildFrame.ControlsBuilt := by
  have hframe := (BuildButtonBar_facts d).1
  have hfacts := (BuildButtonBar_facts d).2
  have hb : d.BuildButtonBar.mIsBatch = d.mEffectUIHost.IsBatchProcessing := by rw [hframe]
  have hg : d.BuildButtonBar.mIsGUI = d.mClient.IsGraphicalUI := by rw [hframe]
  have hr : d.BuildButtonBar.mSupportsRealtime =
      d.mEffectUIHost.GetDefinition.SupportsRealtime := by rw [hframe]
  have hh : d.BuildButtonBar.mEffectUIHost = d.mEffectUIHost := by rw [hframe]
  rw [buildFrame_eq]
  intro hbatch
  simp only [EffectUIHost.playControl, hb, hg, hr, hh] at hbatch hfacts ⊢
  obtain ⟨f1, f2, f3⟩ := hfacts hbatch
  exact ⟨rfl, rfl, f1, f2, f3⟩

theorem isSome_of_map_eq {α β : Type} (f : α → β) (x y : Option α)
    (h : x.map f = y.map f) : x.isSome = y.isSome := by
  cases x <;> cases y <;> simp_all

/-- On a dialog whose controls are built `UpdateControls` dereferences no null
pointer, changes nothing but the focus and the seven controls, and leaves the
controls built. -/
theorem UpdateControls_total (d : EffectUIHost) (hb : d.ControlsBuilt)
    (ha : d.mApplyBtn.isSome = true) :
    ∃ d2, d.UpdateControls = some d2 ∧
      d2 = { d with
        focus := d2.focus
        mApplyBtn := d2.mApplyBtn
        mPlayToggleBtn := d2.mPlayToggleBtn
        mPlayBtn := d2.mPlayBtn
        mRewindBtn := d2.mRewindBtn
        mFFwdBtn := d2.mFFwdBtn
        mEnableCb := d2.mEnableCb } ∧
      d2.ControlsBuilt ∧ d2.mApplyBtn.isSome = true := by
  by_cases hbatch : d.mIsBatch = true
  · exact ⟨d, UpdateControls_of_batch d hbatch, rfl, hb, ha⟩
  · have hbatch : d.mIsBatch = false := by simpa using hbatch
    obtain ⟨d2, h1, hframe, ⟨a, ha2, _⟩, hplay, hplay2, hrt, hnrt⟩ :=
      UpdateControls_of_built d hb hbatch
    refine ⟨d2, h1, hframe, ?_, by simp [ha2]⟩
    obtain ⟨_, hclose, hp, hr, hbm⟩ := hb hbatch
    have e1 : d2.mCloseBtn = d.mCloseBtn := by rw [hframe]
    have e2 : d2.mSupportsRealtime = d.mSupportsRealtime := by rw [hframe]
    have e3 : d2.mEffectUIHost = d.mEffectUIHost := by rw [hframe]
    have e4 : d2.mIsGUI = d.mIsGUI := by rw [hframe]
    have e5 : d2.mPlayBM = d.mPlayBM := by rw [hframe]
    have e6 : d2.mStopBM = d.mStopBM := by rw [hframe]
    intro _
    refine ⟨by simp [ha2], by rw [e1]; exact hclose, ?_, ?_, ?_⟩
    · rw [e2, e3]
      intro hcond
      by_cases htype : d.mEffectUIHost.GetDefinition.GetType ≠ .EffectTypeAnalyze ∧
          d.mEffectUIHost.GetDefinition.GetType ≠ .EffectTypeTool
      · obtain ⟨b, hb2, _⟩ := hplay htype
        simp [hb2]
      · rw [isSome_of_map_eq _ _ _ (hplay2 htype).1]
        exact hp hcond
    · rw [e2]
      intro hrt2
      obtain ⟨⟨r, hr1, _⟩, ⟨f, hf1, _⟩, ⟨e, he1, _⟩, _⟩ := hrt hrt2
      simp [hr1, hf1, he1]
    · rw [e4, e5, e6]
      exact hbm

/-- The function `Initialize` fails, with no null dereference, when `PopulateUI` returns a
null validator. -/
theorem Initialize_of_null_validator (d : EffectUIHost)
    (hv : d.mClient.PopulateUI = none) :
    d.Initialize = some (false, d.probeAudio.populate) := by
  have h : d.probeAudio.populate.mpValidator = none := hv
  simp [EffectUIHost.Initialize, h]

/-- The function `Initialize` succeeds, with no null dereference, when `PopulateUI` returns
a validator; the dialog it leaves has its controls built, the standard buttons
and the accelerator table `buildFrame` chose, and the collaborators it had. -/
theorem Initialize_of_validator (d : EffectUIHost) (v : EffectUIValidator)
    (hv : d.mClient.PopulateUI = some v) :
    ∃ d2, d.Initialize = some (true, d2) ∧ d2.ControlsBuilt ∧
      d2.mpValidator = some v ∧
      d2.mEffectUIHost = d.mEffectUIHost ∧ d2.toolkit = d.toolkit ∧
      d2.acceleratorTable =
        (if d.mEffectUIHost.GetDefinition.ManualPage = "" ∧
            d.mEffectUIHost.GetDefinition.HelpPage = "" then []
        else if d.toolkit.wxMac then [{ keyCode := none, command := none }]
        else [{ keyCode := some .WXK_F1, command := some .wxID_HELP }]) ∧
      d2.standardButtons =
        [StandardButton.eApplyButton, StandardButton.eCloseButton] ++
          (if d.mEffectUIHost.GetDefinition.ManualPage = "" ∧
              d.mEffectUIHost.GetDefinition.HelpPage = "" then []
            else [StandardButton.eHelpButton]) ++
          (if d.mEffectUIHost.GetDefinition.EnablesDebug then [StandardButton.eDebugButton]
            else []) := by
  have hval : d.probeAudio.populate.mpValidator = some v := hv
  unfold EffectUIHost.Initialize
  simp only [hval, Option.isNone_some, Bool.false_eq_true, if_false]
  generalize hd0 : d.probeAudio.populate = d0 at hval ⊢
  have hh : d0.mEffectUIHost = d.mEffectUIHost := by rw [← hd0]; rfl
  have ht : d0.toolkit = d.toolkit := by rw [← hd0]; rfl
  have hbf := buildFrame_eq d0
  have hbb := (BuildButtonBar_facts d0).1
  have hbuilt := buildFrame_built d0
  have happly : d0.buildFrame.mApplyBtn.isSome = true := by rw [hbf]; rfl
  obtain ⟨d2, hu, hframe, hb2, ha2⟩ := UpdateControls_total d0.buildFrame hbuilt happly
  obtain ⟨a, ha3⟩ := Option.isSome_iff_exists.mp ha2
  have e1 : d2.mpValidator = some v := by rw [hframe, hbf]; simp only []; rw [hbb]; exact hval
  have e2 : d2.mEffectUIHost = d.mEffectUIHost := by
    rw [hframe, hbf]; simp only []; rw [hbb]; exact hh
  have e3 : d2.toolkit = d.toolkit := by rw [hframe, hbf]; simp only []; rw [hbb]; exact ht
  have e4 : d2.acceleratorTable = d0.buildFrame.acceleratorTable := by rw [hframe]
  have e5 : d2.standardButtons = d0.buildFrame.standardButtons := by rw [hframe]
  rw [hbf] at e4 e5
  simp only [hh, ht] at e4 e5
  have hfin : ∀ target : WindowId,
      (({ d2 with focus := some target } : EffectUIHost).LoadUserPresets.InitializeRealtime).ControlsBuilt ∧
      (({ d2 with focus := some target } : EffectUIHost).LoadUserPresets.InitializeRealtime).mpValidator
        = d2.mpValidator ∧
      (({ d2 with focus := some target } : EffectUIHost).LoadUserPresets.InitializeRealtime).mEffectUIHost
        = d2.mEffectUIHost ∧
      (({ d2 with focus := some target } : EffectUIHost).LoadUserPresets.InitializeRealtime).toolkit
        = d2.toolkit ∧
      (({ d2 with focus := some target } : EffectUIHost).LoadUserPresets.InitializeRealtime).acceleratorTable
        = d2.acceleratorTable ∧
      (({ d2 with focus := some target } : EffectUIHost).LoadUserPresets.InitializeRealtime).standardButtons
        = d2.standardButtons := by
    intro target
    unfold EffectUIHost.InitializeRealtime
    split_ifs
    · exact ⟨hb2, rfl, rfl, rfl, rfl, rfl⟩
    · exact ⟨hb2, rfl, rfl, rfl, rfl, rfl⟩
  cases hg : d2.mIsGUI with
  | false =>
    obtain ⟨f1, f2, f3, f4, f5, f6⟩ := hfin .panel
    refine ⟨_, ?_, f1, f2.trans e1, f3.trans e2, f4.trans e3, f5.trans e4, f6.trans e5⟩
    simp [hu, hg]
  | true =>
    obtain ⟨f1, f2, f3, f4, f5, f6⟩ := hfin a.id
    refine ⟨_, ?_, f1, f2.trans e1, f3.trans e2, f4.trans e3, f5.trans e4, f6.trans e5⟩
    simp [hu, hg, ptr, ha3]

/-! ## Claims on the dialog -/

/-- C7: `EffectUI::DialogFactory` dereferences no null pointer and returns a
dialog only when the parent window has a project and `Initialize` succeeds on
the new dialog, and then it returns that dialog.  It returns null when no
project is found, and it returns null when the client's `PopulateUI` returns a
null validator.  On any dialog, `Initialize` returns false exactly when
`PopulateUI` returns a null validator, and it too dereferences no null
pointer. -/
theorem DialogFactory_result (FindProjectFromWindow : Option Nat)
    (host : EffectUIHostInterface) (client : EffectUIClientInterface)
    (access : EffectSettingsAccess) (audio : AudioIOState) (toolkit : Toolkit)
    (focus : Option WindowId) :
    DialogFactory FindProjectFromWindow host client access audio toolkit focus ≠ none ∧
    (∀ dlg, DialogFactory FindProjectFromWindow host client access audio toolkit focus
          = some (some dlg) ↔
        (FindProjectFromWindow ≠ none ∧
          (EffectUIHost.new host client access audio toolkit focus).Initialize
            = some (true, dlg))) ∧
    (FindProjectFromWindow = none →
      DialogFactory FindProjectFromWindow host client access audio toolkit focus
        = some none) ∧
    (client.PopulateUI = none →
      DialogFactory FindProjectFromWindow host client access audio toolkit focus
        = some none) ∧
    (∀ d : EffectUIHost, d.Initialize ≠ none ∧
      ((∃ d2, d.Initialize = some (false, d2)) ↔ d.mClient.PopulateUI = none)) := by
  have hinit : ∀ d : EffectUIHost, d.Initialize ≠ none ∧
      ((∃ d2, d.Initialize = some (false, d2)) ↔ d.mClient.PopulateUI = none) := by
    intro d
    cases hv : d.mClient.PopulateUI with
    | none =>
      rw [Initialize_of_null_validator d hv]
      simp
    | some v =>
      obtain ⟨d2, h, _⟩ := Initialize_of_validator d v hv
      rw [h]
      simp
  refine ⟨?_, ?_, ?_, ?_, hinit⟩
  · cases FindProjectFromWindow with
    | none => simp [DialogFactory]
    | some project =>
      cases hv : client.PopulateUI with
      | none =>
        simp [DialogFactory,
          Initialize_of_null_validator (EffectUIHost.new host client access audio toolkit focus) hv]
      | some v =>
        obtain ⟨d2, h, _⟩ := Initialize_of_validator
          (EffectUIHost.new host client access audio toolkit focus) v hv
        simp [DialogFactory, h]
  · intro dlg
    cases FindProjectFromWindow with
    | none => simp [DialogFactory]
    | some project =>
      cases hv : client.PopulateUI with
      | none =>
        simp [DialogFactory,
          Initialize_of_null_validator (EffectUIHost.new host client access audio toolkit focus) hv]
      | some v =>
        obtain ⟨d2, h, _⟩ := Initialize_of_validator
          (EffectUIHost.new host client access audio toolkit focus) v hv
        simp [DialogFactory, h]
  · intro h
    simp [DialogFactory, h]
  · intro hv
    cases FindProjectFromWindow with
    | none => simp [DialogFactory]
    | some project =>
      simp [DialogFactory,
        Initialize_of_null_validator (EffectUIHost.new host client access audio toolkit focus) hv]

/-- C8 as stated fails on a build with `__WXMAC__`: for an effect with a
manual page, `Initialize` succeeds and adds the Help button, but the
accelerator table it installs holds one unset entry and no F1 accelerator for
`wxID_HELP`. -/
theorem Initialize_help_accelerator_mac_counterexample :
    ((sampleDialog true).Initialize).map (fun r =>
        (r.1, decide (sampleDefinition.ManualPage ≠ ""),
          decide (StandardButton.eHelpButton ∈ r.2.standardButtons),
          decide (({ keyCode := some .WXK_F1, command := some .wxID_HELP } :
            AcceleratorEntry) ∈ r.2.acceleratorTable),
          r.2.acceleratorTable)) =
      some (true, true, true, false, [{ keyCode := none, command := none }]) := by
  decide

/-- C8, amended: when `Initialize` succeeds, the dialog has the Help button
exactly when the effect's `ManualPage` or `HelpPage` is non-empty; on a build
without `__WXMAC__` it has the F1 accelerator for `wxID_HELP` under the same
condition.  Hence, when neither page is given, nothing in the dialog raises a
button event with id `wxID_HELP`, so `OnHelp` is not reached; and whenever
such an event can be raised, the assertion of `OnHelp` does not fail: on the
branch with an empty `ManualPage` it is evaluated once, to true, before the
help page is shown. -/
theorem Initialize_help_button (d d2 : EffectUIHost)
    (h : d.Initialize = some (true, d2)) :
    (StandardButton.eHelpButton ∈ d2.standardButtons ↔
      (d.mEffectUIHost.GetDefinition.ManualPage ≠ "" ∨
        d.mEffectUIHost.GetDefinition.HelpPage ≠ "")) ∧
    (d.toolkit.wxMac = false →
      ((({ keyCode := some .WXK_F1, command := some .wxID_HELP } : AcceleratorEntry) ∈
          d2.acceleratorTable) ↔
        (d.mEffectUIHost.GetDefinition.ManualPage ≠ "" ∨
          d.mEffectUIHost.GetDefinition.HelpPage ≠ ""))) ∧
    (d.mEffectUIHost.GetDefinition.ManualPage = "" ∧
        d.mEffectUIHost.GetDefinition.HelpPage = "" →
      d2.raisesButtonEvent .wxID_HELP = false) ∧
    (d2.raisesButtonEvent .wxID_HELP = true →
      DialogCall.wxASSERT false ∉ dialogCallsMade d2 d2.OnHelp ∧
      (d2.mEffectUIHost.GetDefinition.ManualPage = "" →
        dialogCallsMade d2 d2.OnHelp =
          [.wxASSERT true, .ShowHelpPage d2.mEffectUIHost.GetDefinition.HelpPage])) := by
  cases hv : d.mClient.PopulateUI with
  | none =>
    rw [Initialize_of_null_validator d hv] at h
    simp at h
  | some v =>
    obtain ⟨d3, h3, _, _, hhost, _, hacc, hsb⟩ := Initialize_of_validator d v hv
    rw [h3] at h
    obtain rfl : d3 = d2 := by simpa using h
    have hpages : d.mEffectUIHost.GetDefinition.ManualPage ≠ "" ∨
        d.mEffectUIHost.GetDefinition.HelpPage ≠ "" ↔
        ¬ (d.mEffectUIHost.GetDefinition.ManualPage = "" ∧
          d.mEffectUIHost.GetDefinition.HelpPage = "") := by
      tauto
    refine ⟨?_, ?_, ?_, ?_⟩
    · rw [hsb, hpages]
      by_cases hp : d.mEffectUIHost.GetDefinition.ManualPage = "" ∧
          d.mEffectUIHost.GetDefinition.HelpPage = "" <;>
        cases d.mEffectUIHost.GetDefinition.EnablesDebug <;> simp [hp]
    · intro hmac
      rw [hacc, hpages]
      by_cases hp : d.mEffectUIHost.GetDefinition.ManualPage = "" ∧
          d.mEffectUIHost.GetDefinition.HelpPage = "" <;> simp [hp, hmac]
    · intro hp
      cases hdbg : d.mEffectUIHost.GetDefinition.EnablesDebug <;>
        simp [EffectUIHost.raisesButtonEvent, hsb, hacc, hp, hdbg, StandardButton.windowId]
    · intro hraise
      have hsome : ¬ (d.mEffectUIHost.GetDefinition.ManualPage = "" ∧
          d.mEffectUIHost.GetDefinition.HelpPage = "") := by
        intro hp
        cases hdbg : d.mEffectUIHost.GetDefinition.EnablesDebug <;>
          simp [EffectUIHost.raisesButtonEvent, hsb, hacc, hp, hdbg,
            StandardButton.windowId] at hraise
      rw [hhost]
      by_cases hm : d.mEffectUIHost.GetDefinition.ManualPage = ""
      · have hh : d.mEffectUIHost.GetDefinition.HelpPage ≠ "" := fun hh => hsome ⟨hm, hh⟩
        simp [dialogCallsMade, EffectUIHost.OnHelp, hhost, hm, hh, EffectUIHost.call]
      · simp [dialogCallsMade, EffectUIHost.OnHelp, hhost, hm, EffectUIHost.call]

/-- C8, amended, at the sample dialog on a build without `__WXMAC__`. -/
theorem Initialize_help_button_witness :
    (sampleDialog false).Initialize = some (true, sampleInitialized false) ∧
    (StandardButton.eHelpButton ∈ (sampleInitialized false).standardButtons ↔
      ((sampleDialog false).mEffectUIHost.GetDefinition.ManualPage ≠ "" ∨
        (sampleDialog false).mEffectUIHost.GetDefinition.HelpPage ≠ "")) ∧
    ((sampleInitialized false).raisesButtonEvent .wxID_HELP = true →
      DialogCall.wxASSERT false ∉
        dialogCallsMade (sampleInitialized false) (sampleInitialized false).OnHelp) :=
  ⟨rfl,
    (Initialize_help_button (sampleDialog false) (sampleInitialized false) rfl).1,
    fun hr => ((Initialize_help_button (sampleDialog false) (sampleInitialized false)
      rfl).2.2.2 hr).1⟩

/-- C9, as worded, fails: for an analyzer the play button is not left
untouched.  On the dialog of a realtime analyzer, after `Initialize` and with
`mPlaying` set, `UpdateControls` changes the label of the play button from
"Start &Playback" to "Stop &Playback". -/
theorem UpdateControls_relabels_analyzer_counterexample :
    sampleAnalyzePlaying.mEffectUIHost.GetDefinition.GetType = .EffectTypeAnalyze ∧
    sampleAnalyzePlaying.ControlsBuilt ∧
    sampleAnalyzePlaying.mIsBatch = false ∧
    ∃ d2, sampleAnalyzePlaying.UpdateControls = some d2 ∧
      sampleAnalyzePlaying.playControl.map (fun b => b.label) = some "Start &Playback" ∧
      d2.playControl.map (fun b => b.label) = some "Stop &Playback" ∧
      d2.playControl ≠ sampleAnalyzePlaying.playControl := by
  have hb : sampleAnalyzePlaying.ControlsBuilt := by decide
  have hl : sampleAnalyzePlaying.UpdateControls.bind
      (fun d2 => d2.playControl.map (fun b => b.label)) = some "Stop &Playback" := rfl
  cases h : sampleAnalyzePlaying.UpdateControls with
  | none =>
    rw [h] at hl
    exact absurd hl (by simp)
  | some d2 =>
    rw [h] at hl
    have hl2 : d2.playControl.map (fun b => b.label) = some "Stop &Playback" := hl
    refine ⟨rfl, hb, rfl, d2, rfl, rfl, hl2, ?_⟩
    intro heq
    rw [heq] at hl2
    have hl3 : sampleAnalyzePlaying.playControl.map (fun b => b.label) =
        some "Start &Playback" := rfl
    rw [hl3] at hl2
    exact absurd hl2 (by decide)

/-- C9, amended: `UpdateControls` on a dialog whose controls are built.  In
batch mode it changes nothing.  Otherwise it dereferences no null pointer and
afterwards the Apply button is enabled exactly when not capturing; for an
effect that is neither an analyzer nor a tool the play or preview button is
enabled exactly when neither capturing nor transport-disabled; for an analyzer
or a tool its enabled state is as before, and the button is as before
altogether when the effect does not support realtime; for a realtime effect,
of any type, the Rewind, FFwd and Enable controls are enabled exactly when
neither capturing nor transport-disabled, and the play control shows the Stop
label (plain dialog) or the Stop bitmap (graphical dialog) exactly when
`mPlaying` is true, and the Start label or Play bitmap otherwise. -/
theorem UpdateControls_enables (d : EffectUIHost) (hb : d.ControlsBuilt) :
    (d.mIsBatch = true → d.UpdateControls = some d) ∧
    (d.mIsBatch = false →
      ∃ d2, d.UpdateControls = some d2 ∧
        (∃ a, d2.mApplyBtn = some a ∧ (a.enabled = true ↔ d.mCapturing = false)) ∧
        ((d.mEffectUIHost.GetDefinition.GetType ≠ .EffectTypeAnalyze ∧
            d.mEffectUIHost.GetDefinition.GetType ≠ .EffectTypeTool) →
          ∃ b, d2.playControl = some b ∧
            (b.enabled = true ↔ (d.mCapturing = false ∧ d.mDisableTransport = false))) ∧
        ((d.mEffectUIHost.GetDefinition.GetType = .EffectTypeAnalyze ∨
            d.mEffectUIHost.GetDefinition.GetType = .EffectTypeTool) →
          d2.playControl.map (fun b => b.enabled) =
            d.playControl.map (fun b => b.enabled) ∧
          (d.mSupportsRealtime = false → d2.playControl = d.playControl)) ∧
        (d.mSupportsRealtime = true →
          (∃ r, d2.mRewindBtn = some r ∧
            (r.enabled = true ↔ (d.mCapturing = false ∧ d.mDisableTransport = false))) ∧
          (∃ f, d2.mFFwdBtn = some f ∧
            (f.enabled = true ↔ (d.mCapturing = false ∧ d.mDisableTransport = false))) ∧
          (∃ e, d2.mEnableCb = some e ∧
            (e.enabled = true ↔ (d.mCapturing = false ∧ d.mDisableTransport = false))) ∧
          ∃ b, d2.playControl = some b ∧
            (d.mIsGUI = false →
              (b.label = "Stop &Playback" ↔ d.mPlaying = true) ∧
              (b.label = "Start &Playback" ↔ d.mPlaying = false)) ∧
            (d.mIsGUI = true →
              (b.bitmapLabel = d.mStopBM ↔ d.mPlaying = true) ∧
              (b.bitmapLabel = d.mPlayBM ↔ d.mPlaying = false)))) := by
  refine ⟨fun hbatch => UpdateControls_of_batch d hbatch, fun hbatch => ?_⟩
  obtain ⟨d2, h1, _, ⟨a, ha, hae⟩, hplay, hplay2, hrt, _⟩ :=
    UpdateControls_of_built d hb hbatch
  have hbm := (hb hbatch).2.2.2.2
  have hen : ∀ x : Bool, x = !(d.mCapturing || d.mDisableTransport) →
      (x = true ↔ (d.mCapturing = false ∧ d.mDisableTransport = false)) := by
    intro x hx
    subst hx
    cases d.mCapturing <;> cases d.mDisableTransport <;> simp
  refine ⟨d2, h1, ⟨a, ha, ?_⟩, ?_, ?_, ?_⟩
  · rw [hae]
    cases d.mCapturing <;> simp
  · intro htype
    obtain ⟨b, hb1, hb2⟩ := hplay htype
    exact ⟨b, hb1, hen _ hb2⟩
  · intro htype
    refine hplay2 ?_
    rintro ⟨h1, h2⟩
    rcases htype with h | h
    · exact h1 h
    · exact h2 h
  · intro hrt2
    obtain ⟨⟨r, hr1, hr2⟩, ⟨f, hf1, hf2⟩, ⟨e, he1, he2⟩, b, hb1, hb2, hb3⟩ := hrt hrt2
    refine ⟨⟨r, hr1, hen _ hr2⟩, ⟨f, hf1, hen _ hf2⟩, ⟨e, he1, hen _ he2⟩, b, hb1, ?_, ?_⟩
    · intro hg
      rw [hb2 hg]
      cases d.mPlaying <;> simp
    · intro hg
      rw [(hb3 hg).1]
      have hne := hbm hg
      cases d.mPlaying
      · simp [hne]
      · simp [Ne.symm hne]

/-- C9 at the dialog `Initialize` leaves for the sample realtime effect. -/
theorem UpdateControls_enables_witness :
    (sampleInitialized false).ControlsBuilt ∧
    (sampleInitialized false).mIsBatch = false ∧
    ∃ d2, (sampleInitialized false).UpdateControls = some d2 ∧
      (∃ a, d2.mApplyBtn = some a ∧ a.enabled = true) ∧
      (∃ r, d2.mRewindBtn = some r ∧ r.enabled = true) ∧
      (∃ b, d2.playControl = some b ∧ b.label = "Start &Playback") := by
  have hb : (sampleInitialized false).ControlsBuilt := by decide
  obtain ⟨d2, h1, ⟨a, ha, hae⟩, _, _, hrt⟩ :=
    (UpdateControls_enables (sampleInitialized false) hb).2 rfl
  obtain ⟨⟨r, hr1, hr2⟩, _, _, b, hb1, hb2, _⟩ := hrt rfl
  exact ⟨hb, rfl, d2, h1, ⟨a, ha, hae.mpr rfl⟩, ⟨r, hr1, hr2.mpr ⟨rfl, rfl⟩⟩,
    ⟨b, hb1, ((hb2 rfl).2).mpr rfl⟩⟩

/-- C10: `TransferDataFromWindow` runs its stages in order and stops at the
first that fails.  If `wxDialogWrapper::Validate`, then
`wxDialogWrapper::TransferDataFromWindow`, then the validator's `ValidateUI`
fails, it returns false, no later stage is called, `ModifySettings` is not
called and the settings are as before.  If the three pass, `ModifySettings`
runs the effect's `TransferDataFromWindow` on the settings, and the value that
call returns is the value returned.  (The validator pointer is not null.) -/
theorem TransferDataFromWindow_stages (d : EffectUIHost) (validator : EffectUIValidator)
    (hv : d.mpValidator = some validator) :
    ∃ result d2, d.TransferDataFromWindow = some (result, d2) ∧
      (d.toolkit.Validate = false →
        result = false ∧ dialogCallsMade d d2 = [.Validate] ∧
          d2.mpAccess = d.mpAccess) ∧
      (d.toolkit.Validate = true → d.toolkit.TransferDataFromWindow = false →
        result = false ∧
          dialogCallsMade d d2 = [.Validate, .wxTransferDataFromWindow] ∧
          d2.mpAccess = d.mpAccess) ∧
      (d.toolkit.Validate = true → d.toolkit.TransferDataFromWindow = true →
        validator.ValidateUI = false →
        result = false ∧
          dialogCallsMade d d2 = [.Validate, .wxTransferDataFromWindow, .ValidateUI] ∧
          d2.mpAccess = d.mpAccess) ∧
      (d.toolkit.Validate = true → d.toolkit.TransferDataFromWindow = true →
        validator.ValidateUI = true →
        result = (d.mEffectUIHost.TransferDataFromWindow d.mpAccess.settings).1 ∧
          dialogCallsMade d d2 =
            [.Validate, .wxTransferDataFromWindow, .ValidateUI, .ModifySettings,
              .EffectTransferDataFromWindow d.mpAccess.settings] ∧
          d2.mpAccess.settings =
            (d.mEffectUIHost.TransferDataFromWindow d.mpAccess.settings).2) := by
  unfold EffectUIHost.TransferDataFromWindow
  cases h1 : d.toolkit.Validate with
  | false =>
    refine ⟨false, d.call .Validate, ?_, ?_⟩
    · simp [EffectUIHost.call, h1]
    · simp [dialogCallsMade, EffectUIHost.call]
  | true =>
    cases h2 : d.toolkit.TransferDataFromWindow with
    | false =>
      refine ⟨false, (d.call .Validate).call .wxTransferDataFromWindow, ?_, ?_⟩
      · simp [EffectUIHost.call, h1, h2]
      · simp [dialogCallsMade, EffectUIHost.call]
    | true =>
      cases h3 : validator.ValidateUI with
      | false =>
        refine ⟨false,
          ((d.call .Validate).call .wxTransferDataFromWindow).call .ValidateUI, ?_, ?_⟩
        · simp [EffectUIHost.call, h1, h2, h3, hv]
        · simp [dialogCallsMade, EffectUIHost.call]
      | true =>
        refine ⟨(d.mEffectUIHost.TransferDataFromWindow d.mpAccess.settings).1,
          { ((((d.call .Validate).call .wxTransferDataFromWindow).call .ValidateUI).call
              .ModifySettings).call
              (.EffectTransferDataFromWindow d.mpAccess.settings) with
            mpAccess := { d.mpAccess with
              settings := (d.mEffectUIHost.TransferDataFromWindow d.mpAccess.settings).2 } },
          ?_, ?_⟩
        · simp [EffectUIHost.call, h1, h2, h3, hv, EffectSettingsAccess.ModifySettings]
        · simp [dialogCallsMade, EffectUIHost.call]

/-- C10 at a sample dialog whose stages all pass: the result is the effect's
own and the settings are the ones the effect left. -/
theorem TransferDataFromWindow_stages_witness :
    sampleOpenDialog.mpValidator = some { ValidateUI := true, UpdateUI := true } ∧
    ∃ result d2, sampleOpenDialog.TransferDataFromWindow = some (result, d2) ∧
      result = true ∧ d2.mpAccess.settings = { values := [("Ratio", "3")] } ∧
      dialogCallsMade sampleOpenDialog d2 =
        [.Validate, .wxTransferDataFromWindow, .ValidateUI, .ModifySettings,
          .EffectTransferDataFromWindow { values := [("Ratio", "2")] }] := by
  obtain ⟨result, d2, h, _, _, _, h4⟩ :=
    TransferDataFromWindow_stages sampleOpenDialog
      { ValidateUI := true, UpdateUI := true } rfl
  obtain ⟨hr, hc, hs⟩ := h4 rfl rfl rfl
  exact ⟨rfl, result, d2, h, hr, hs, hc⟩

/-! ## Lemmas on the handlers of the dialog -/

/-- With a validator, `TransferDataFromWindow` returns; it logs only its own
stages and leaves the presets, the toolkit, the validator and the flags of the
dialog alone. -/
theorem TransferDataFromWindow_run (d : EffectUIHost) (validator : EffectUIValidator)
    (hv : d.mpValidator = some validator) :
    ∃ ok d1 made, d.TransferDataFromWindow = some (ok, d1) ∧
      d1.calls = d.calls ++ made ∧
      (∀ c ∈ made, c.isTransferStage = true) ∧
      d1.mUserPresets = d.mUserPresets ∧ d1.toolkit = d.toolkit ∧
      d1.mpValidator = d.mpValidator := by
  unfold EffectUIHost.TransferDataFromWindow
  cases h1 : d.toolkit.Validate with
  | false =>
    refine ⟨false, d.call .Validate, [.Validate], ?_, rfl, ?_, rfl, rfl, rfl⟩
    · simp [EffectUIHost.call, h1]
    · simp [DialogCall.isTransferStage]
  | true =>
    cases h2 : d.toolkit.TransferDataFromWindow with
    | false =>
      refine ⟨false, (d.call .Validate).call .wxTransferDataFromWindow,
        [.Validate, .wxTransferDataFromWindow], ?_, ?_, ?_, rfl, rfl, rfl⟩
      · simp [EffectUIHost.call, h1, h2]
      · simp [EffectUIHost.call]
      · simp [DialogCall.isTransferStage]
    | true =>
      cases h3 : validator.ValidateUI with
      | false =>
        refine ⟨false,
          ((d.call .Validate).call .wxTransferDataFromWindow).call .ValidateUI,
          [.Validate, .wxTransferDataFromWindow, .ValidateUI], ?_, ?_, ?_, rfl, rfl, rfl⟩
        · simp [EffectUIHost.call, h1, h2, h3, hv]
        · simp [EffectUIHost.call]
        · simp [DialogCall.isTransferStage]
      | true =>
        refine ⟨(d.mEffectUIHost.TransferDataFromWindow d.mpAccess.settings).1,
          { ((((d.call .Validate).call .wxTransferDataFromWindow).call .ValidateUI).call
              .ModifySettings).call
              (.EffectTransferDataFromWindow d.mpAccess.settings) with
            mpAccess := { d.mpAccess with
              settings := (d.mEffectUIHost.TransferDataFromWindow d.mpAccess.settings).2 } },
          [.Validate, .wxTransferDataFromWindow, .ValidateUI, .ModifySettings,
            .EffectTransferDataFromWindow d.mpAccess.settings], ?_, ?_, ?_, ?_, ?_, ?_⟩
        · simp [EffectUIHost.call, h1, h2, h3, hv, EffectSettingsAccess.ModifySettings]
        · simp [EffectUIHost.call]
        · simp [DialogCall.isTransferStage]
        · simp [EffectUIHost.call]
        · simp [EffectUIHost.call]
        · simp [EffectUIHost.call]

theorem chooseRegion_calls (setTimes : SelectedRegion → Rat → Rat → SelectedRegion)
    (viewInfo : ViewInfo) (d : EffectUIHost) :
    (d.chooseRegion setTimes viewInfo).calls = d.calls := by
  simp only [EffectUIHost.chooseRegion]
  split_ifs <;> rfl

theorem clampPlayPos_facts (d : EffectUIHost) :
    d.clampPlayPos.calls = d.calls ∧ d.clampPlayPos.mRegion = d.mRegion ∧
    d.clampPlayPos.mPlayPos = min d.mPlayPos d.mRegion.t1 := by
  unfold EffectUIHost.clampPlayPos
  split_ifs with h
  · exact ⟨rfl, rfl, (min_eq_right (le_of_lt h)).symm⟩
  · exact ⟨rfl, rfl, (min_eq_left (not_lt.mp h)).symm⟩

theorem savePresetCalls_append (a b : List DialogCall) :
    savePresetCalls (a ++ b) = savePresetCalls a ++ savePresetCalls b := by
  simp [savePresetCalls]

theorem savePresetCalls_of_stages (made : List DialogCall)
    (h : ∀ c ∈ made, c.isTransferStage = true) : savePresetCalls made = [] := by
  simp only [savePresetCalls, List.filter_eq_nil_iff]
  intro c hc
  have h2 := h c hc
  cases c <;> simp_all [DialogCall.isTransferStage]

/-- With a validator, the save step returns: it transfers the data from the
window and then logs one save, to the group of the name and with the settings
the transfer left, exactly when the transfer succeeded. -/
theorem savePreset_run
    (SaveUserPreset : String → EffectSettings → (String → List String) →
      String → List String)
    (name : String) (d : EffectUIHost) (validator : EffectUIValidator)
    (hv : d.mpValidator = some validator) :
    ∃ ok d1 d2 made, d.TransferDataFromWindow = some (ok, d1) ∧
      d.savePreset SaveUserPreset name = some d2 ∧
      d1.calls = d.calls ++ made ∧ (∀ c ∈ made, c.isTransferStage = true) ∧
      d2.calls = d1.calls ++
        (if ok = true then
          [.SaveUserPreset (d.toolkit.UserPresetsGroup name) d1.mpAccess.Get]
        else []) := by
  obtain ⟨ok, d1, made, ht, hc, hs, _, htk, _⟩ := TransferDataFromWindow_run d validator hv
  cases ok with
  | false =>
    refine ⟨false, d1, d1.LoadUserPresets, made, ht, ?_, hc, hs, ?_⟩
    · simp [EffectUIHost.savePreset, ht]
    · simp [EffectUIHost.LoadUserPresets]
  | true =>
    refine ⟨true, d1,
      EffectUIHost.LoadUserPresets
        { d1.call (.SaveUserPreset (d1.toolkit.UserPresetsGroup name) d1.mpAccess.Get) with
          toolkit := { d1.toolkit with
            GetConfigSubgroups :=
              SaveUserPreset (d1.toolkit.UserPresetsGroup name) d1.mpAccess.Get
                d1.toolkit.GetConfigSubgroups } },
      made, ht, ?_, hc, hs, ?_⟩
    · simp only [EffectUIHost.savePreset, ht, if_true]
      rfl
    · simp [EffectUIHost.LoadUserPresets, EffectUIHost.call, htk]

/-- What the save step logs: at most one save, to the group of the name, with
the settings a successful transfer left, as its last call; no modal dialog. -/
theorem savePreset_log
    (SaveUserPreset : String → EffectSettings → (String → List String) →
      String → List String)
    (name : String) (d : EffectUIHost) (validator : EffectUIValidator)
    (hv : d.mpValidator = some validator) :
    ∃ d2 made, d.savePreset SaveUserPreset name = some d2 ∧
      d2.calls = d.calls ++ made ∧
      (∀ group settings, DialogCall.SaveUserPreset group settings ∈ made →
        group = d.toolkit.UserPresetsGroup name ∧
        ∃ d1, d.TransferDataFromWindow = some (true, d1) ∧
          settings = d1.mpAccess.Get ∧
          d2.calls = d1.calls ++ [.SaveUserPreset group settings]) ∧
      (∀ rc, DialogCall.ShowModalSavePreset rc ∉ made) ∧
      (∀ choice, DialogCall.ShowModalReplace choice ∉ made) ∧
      (savePresetCalls made).length ≤ 1 := by
  obtain ⟨ok, d1, d2, made, ht, hs, hc1, hst, hc2⟩ :=
    savePreset_run SaveUserPreset name d validator hv
  have hnone := savePresetCalls_of_stages made hst
  cases ok with
  | false =>
    refine ⟨d2, made, hs, ?_, ?_, ?_, ?_, ?_⟩
    · rw [hc2, hc1]
      simp
    · intro group settings hm
      exact absurd (hst _ hm) (by simp [DialogCall.isTransferStage])
    · intro rc hm
      exact absurd (hst _ hm) (by simp [DialogCall.isTransferStage])
    · intro choice hm
      exact absurd (hst _ hm) (by simp [DialogCall.isTransferStage])
    · rw [hnone]
      simp
  | true =>
    refine ⟨d2, made ++ [.SaveUserPreset (d.toolkit.UserPresetsGroup name) d1.mpAccess.Get],
      hs, ?_, ?_, ?_, ?_, ?_⟩
    · rw [hc2, hc1]
      simp
    · intro group settings hm
      rcases List.mem_append.mp hm with hm | hm
      · exact absurd (hst _ hm) (by simp [DialogCall.isTransferStage])
      · simp only [List.mem_singleton, DialogCall.SaveUserPreset.injEq] at hm
        obtain ⟨hg, hse⟩ := hm
        refine ⟨hg, d1, ht, hse, ?_⟩
        rw [hc2, hg, hse]
        rfl
    · intro rc hm
      rcases List.mem_append.mp hm with hm | hm
      · exact absurd (hst _ hm) (by simp [DialogCall.isTransferStage])
      · simp at hm
    · intro choice hm
      rcases List.mem_append.mp hm with hm | hm
      · exact absurd (hst _ hm) (by simp [DialogCall.isTransferStage])
      · simp at hm
    · rw [savePresetCalls_append, hnone]
      simp [savePresetCalls]

/-- The Save Preset loop against any passes of the user, with a validator: it
returns, and each save it logged is justified by a pass of the user. -/
theorem saveAsLoop_run
    (SaveUserPreset : String → EffectSettings → (String → List String) →
      String → List String)
    (script : List SaveAsRound) :
    ∀ (d : EffectUIHost) (validator : EffectUIValidator),
      d.mpValidator = some validator →
      ∃ out made, d.saveAsLoop SaveUserPreset script = some out ∧
        out.2.calls = d.calls ++ made ∧
        (∀ group settings, DialogCall.SaveUserPreset group settings ∈ made →
          ∃ round ∈ script, round.rc = .wxID_OK ∧ round.name ≠ "" ∧
            group = d.toolkit.UserPresetsGroup round.name ∧
            (round.name ∈ d.mUserPresets →
              round.choice = .wxID_YES ∧
                DialogCall.ShowModalReplace .wxID_YES ∈ made) ∧
            ∃ d0 d1, d0 = { d with calls := d0.calls } ∧
              d0.TransferDataFromWindow = some (true, d1) ∧
              settings = d1.mpAccess.Get ∧
              out.2.calls = d1.calls ++ [.SaveUserPreset group settings]) ∧
        (∀ rc, rc ≠ .wxID_OK → DialogCall.ShowModalSavePreset rc ∈ made →
          savePresetCalls made = []) ∧
        (DialogCall.ShowModalReplace .wxID_CANCEL ∈ made →
          savePresetCalls made = []) ∧
        (savePresetCalls made).length ≤ 1 := by
  induction script with
  | nil =>
    intro d validator _
    refine ⟨(false, d), [], rfl, by simp, ?_, ?_, ?_, ?_⟩
    · intro group settings hm
      simp at hm
    · intro _ _ _
      rfl
    · intro _
      rfl
    · simp [savePresetCalls]
  | cons round rest ih =>
    intro d validator hv
    obtain ⟨rc0, name, choice⟩ := round
    by_cases hrc : rc0 = .wxID_OK
    · subst hrc
      by_cases hname : name = ""
      · obtain ⟨out, made, hrun, hcalls, hsave, hdis, hcan, hlen⟩ :=
          ih ((d.call (.ShowModalSavePreset .wxID_OK)).call .ShowModalMustSpecifyName)
            validator hv
        have hpre : savePresetCalls
            ([.ShowModalSavePreset .wxID_OK, .ShowModalMustSpecifyName] ++ made) =
            savePresetCalls made := by
          rw [savePresetCalls_append]
          rfl
        refine ⟨out, [.ShowModalSavePreset .wxID_OK, .ShowModalMustSpecifyName] ++ made,
          ?_, ?_, ?_, ?_, ?_, ?_⟩
        · rw [← hrun]
          simp [EffectUIHost.saveAsLoop, hname]
        · rw [hcalls]
          simp
        · intro group settings hm
          have hm2 : DialogCall.SaveUserPreset group settings ∈ made := by
            simpa using hm
          obtain ⟨r, hr, h1, h2, h3, h4, d0, d1, h5, h6, h7, h8⟩ := hsave group settings hm2
          refine ⟨r, List.mem_cons_of_mem _ hr, h1, h2, h3, ?_, d0, d1, h5, h6, h7, h8⟩
          intro hin
          exact ⟨(h4 hin).1, List.mem_append_right _ (h4 hin).2⟩
        · intro rc hne hm
          rw [hpre]
          apply hdis rc hne
          have hne2 : rc ≠ .wxID_OK := hne
          simpa [hne2] using hm
        · intro hm
          rw [hpre]
          apply hcan
          simpa using hm
        · rw [hpre]
          exact hlen
      · by_cases hin : name ∈ d.mUserPresets
        · cases choice with
          | wxID_YES =>
            obtain ⟨d2, made, hs, hcalls, hsave, hnom, hnor, hlen⟩ :=
              savePreset_log SaveUserPreset name
                ((d.call (.ShowModalSavePreset .wxID_OK)).call (.ShowModalReplace .wxID_YES))
                validator hv
            have hpre : savePresetCalls
                ([.ShowModalSavePreset .wxID_OK, .ShowModalReplace .wxID_YES] ++ made) =
                savePresetCalls made := by
              rw [savePresetCalls_append]
              rfl
            refine ⟨(true, d2),
              [.ShowModalSavePreset .wxID_OK, .ShowModalReplace .wxID_YES] ++ made,
              ?_, ?_, ?_, ?_, ?_, ?_⟩
            · have hin2 : name ∈
                  (d.call (.ShowModalSavePreset .wxID_OK)).mUserPresets := hin
              simp [EffectUIHost.saveAsLoop, hname, hin2, hs]
            · show d2.calls = _
              rw [hcalls]
              simp
            · intro group settings hm
              have hm2 : DialogCall.SaveUserPreset group settings ∈ made := by
                simpa using hm
              obtain ⟨hg, d1, h6, h7, h8⟩ := hsave group settings hm2
              refine ⟨⟨.wxID_OK, name, _⟩, List.mem_cons_self _ _, rfl, hname, hg, ?_, _, d1, rfl, h6, h7, h8⟩
              intro _
              exact ⟨rfl, by simp⟩
            · intro rc hne hm
              have hne2 : rc ≠ .wxID_OK := hne
              have hm2 : DialogCall.ShowModalSavePreset rc ∈ made := by
                simpa [hne2] using hm
              exact absurd hm2 (hnom rc)
            · intro hm
              have hm2 : DialogCall.ShowModalReplace .wxID_CANCEL ∈ made := by
                simpa using hm
              exact absurd hm2 (hnor _)
            · rw [hpre]
              exact hlen
          | wxID_NO =>
            obtain ⟨out, made, hrun, hcalls, hsave, hdis, hcan, hlen⟩ :=
              ih ((d.call (.ShowModalSavePreset .wxID_OK)).call (.ShowModalReplace .wxID_NO))
                validator hv
            have hpre : savePresetCalls
                ([.ShowModalSavePreset .wxID_OK, .ShowModalReplace .wxID_NO] ++ made) =
                savePresetCalls made := by
              rw [savePresetCalls_append]
              rfl
            refine ⟨out, [.ShowModalSavePreset .wxID_OK, .ShowModalReplace .wxID_NO] ++ made,
              ?_, ?_, ?_, ?_, ?_, ?_⟩
            · rw [← hrun]
              have hin2 : name ∈
                  (d.call (.ShowModalSavePreset .wxID_OK)).mUserPresets := hin
              simp [EffectUIHost.saveAsLoop, hname, hin2]
            · rw [hcalls]
              simp
            · intro group settings hm
              have hm2 : DialogCall.SaveUserPreset group settings ∈ made := by
                simpa using hm
              obtain ⟨r, hr, h1, h2, h3, h4, d0, d1, h5, h6, h7, h8⟩ :=
                hsave group settings hm2
              refine ⟨r, List.mem_cons_of_mem _ hr, h1, h2, h3, ?_, d0, d1, h5, h6, h7, h8⟩
              intro hin3
              exact ⟨(h4 hin3).1, List.mem_append_right _ (h4 hin3).2⟩
            · intro rc hne hm
              rw [hpre]
              apply hdis rc hne
              have hne2 : rc ≠ .wxID_OK := hne
              simpa [hne2] using hm
            · intro hm
              rw [hpre]
              apply hcan
              simpa using hm
            · rw [hpre]
              exact hlen
          | wxID_CANCEL =>
            refine ⟨(true, (d.call (.ShowModalSavePreset .wxID_OK)).call
                (.ShowModalReplace .wxID_CANCEL)),
              [.ShowModalSavePreset .wxID_OK, .ShowModalReplace .wxID_CANCEL],
              ?_, ?_, ?_, ?_, ?_, ?_⟩
            · have hin2 : name ∈
                  (d.call (.ShowModalSavePreset .wxID_OK)).mUserPresets := hin
              simp [EffectUIHost.saveAsLoop, hname, hin2]
            · simp
            · intro group settings hm
              simp at hm
            · intro _ _ _
              rfl
            · intro _
              rfl
            · simp [savePresetCalls]
        · obtain ⟨d2, made, hs, hcalls, hsave, hnom, hnor, hlen⟩ :=
            savePreset_log SaveUserPreset name
              (d.call (.ShowModalSavePreset .wxID_OK)) validator hv
          have hpre : savePresetCalls ([.ShowModalSavePreset .wxID_OK] ++ made) =
              savePresetCalls made := by
            rw [savePresetCalls_append]
            rfl
          refine ⟨(true, d2), [.ShowModalSavePreset .wxID_OK] ++ made,
            ?_, ?_, ?_, ?_, ?_, ?_⟩
          · have hin2 : name ∉
                (d.call (.ShowModalSavePreset .wxID_OK)).mUserPresets := hin
            simp [EffectUIHost.saveAsLoop, hname, hin2, hs]
          · show d2.calls = _
            rw [hcalls]
            simp
          · intro group settings hm
            have hm2 : DialogCall.SaveUserPreset group settings ∈ made := by
              simpa using hm
            obtain ⟨hg, d1, h6, h7, h8⟩ := hsave group settings hm2
            refine ⟨⟨.wxID_OK, name, _⟩, List.mem_cons_self _ _, rfl, hname, hg, ?_, _, d1, rfl, h6, h7, h8⟩
            intro hin3
            exact absurd hin3 hin
          · intro rc hne hm
            have hne2 : rc ≠ .wxID_OK := hne
            have hm2 : DialogCall.ShowModalSavePreset rc ∈ made := by
              simpa [hne2] using hm
            exact absurd hm2 (hnom rc)
          · intro hm
            have hm2 : DialogCall.ShowModalReplace .wxID_CANCEL ∈ made := by
              simpa using hm
            exact absurd hm2 (hnor _)
          · rw [hpre]
            exact hlen
    · refine ⟨(true, d.call (.ShowModalSavePreset rc0)),
        [.ShowModalSavePreset rc0], ?_, rfl, ?_, ?_, ?_, ?_⟩
      · simp [EffectUIHost.saveAsLoop, hrc]
      · intro group settings hm
        simp at hm
      · intro _ _ _
        rfl
      · intro _
        rfl
      · simp [savePresetCalls]

/-! ## Lemmas on `double` arithmetic -/

theorem ulp_pos (q : Rat) : 0 < ulp q := by
  unfold ulp
  positivity

theorem abs_roundNearestEven_sub_le (q : Rat) :
    |(roundNearestEven q : Rat) - q| ≤ 1 / 2 := by
  have h1 : (⌊q⌋ : Rat) ≤ q := Int.floor_le q
  have h2 : q < ⌊q⌋ + 1 := Int.lt_floor_add_one q
  unfold roundNearestEven
  simp only
  split_ifs with ha hb hc
  · rw [abs_le]
    constructor <;> linarith
  · rw [abs_le]
    push_cast
    constructor <;> linarith
  · rw [abs_le]
    constructor <;> linarith
  · rw [abs_le]
    push_cast
    constructor <;> linarith

/-- A `double` sum or difference is within half a unit in the last place of
the exact result. -/
theorem abs_roundDouble_sub_le (q : Rat) : |roundDouble q - q| ≤ ulp q / 2 := by
  have hu := ulp_pos q
  have h := abs_roundNearestEven_sub_le (q / ulp q)
  have he : roundDouble q - q = ((roundNearestEven (q / ulp q) : Rat) - q / ulp q) * ulp q := by
    unfold roundDouble
    field_simp
  rw [he, abs_mul, abs_of_pos hu]
  calc |(roundNearestEven (q / ulp q) : Rat) - q / ulp q| * ulp q
      ≤ 1 / 2 * ulp q := mul_le_mul_of_nonneg_right h (le_of_lt hu)
    _ = ulp q / 2 := by ring

theorem roundNearestEven_of_near (q : Rat) (n : Int) (hlo : (n : Rat) - 1 / 2 < q)
    (hhi : q < n + 1 / 2) : roundNearestEven q = n := by
  have h1 : (⌊q⌋ : Rat) ≤ q := Int.floor_le q
  have h2 : q < ⌊q⌋ + 1 := Int.lt_floor_add_one q
  unfold roundNearestEven
  simp only
  split_ifs with ha hb hc
  · have h3 : (⌊q⌋ : Rat) < n + 1 := by linarith
    have h4 : (n : Rat) < ⌊q⌋ + 1 := by linarith
    have h5 : ⌊q⌋ < n + 1 := by exact_mod_cast h3
    have h6 : n < ⌊q⌋ + 1 := by exact_mod_cast h4
    omega
  · have h3 : (⌊q⌋ : Rat) + 1 < n + 1 := by linarith
    have h4 : (n : Rat) < ⌊q⌋ + 1 + 1 := by linarith
    have h5 : ⌊q⌋ + 1 < n + 1 := by exact_mod_cast h3
    have h6 : n < ⌊q⌋ + 1 + 1 := by exact_mod_cast h4
    omega
  · have hr : q - ⌊q⌋ = 1 / 2 := le_antisymm (not_lt.mp hb) (not_lt.mp ha)
    have h3 : (⌊q⌋ : Rat) < n := by linarith
    have h4 : (n : Rat) < ⌊q⌋ + 1 := by linarith
    have h5 : ⌊q⌋ < n := by exact_mod_cast h3
    have h6 : n < ⌊q⌋ + 1 := by exact_mod_cast h4
    omega
  · have hr : q - ⌊q⌋ = 1 / 2 := le_antisymm (not_lt.mp hb) (not_lt.mp ha)
    have h3 : (⌊q⌋ : Rat) < n := by linarith
    have h4 : (n : Rat) < ⌊q⌋ + 1 := by linarith
    have h5 : ⌊q⌋ < n := by exact_mod_cast h3
    have h6 : n < ⌊q⌋ + 1 := by exact_mod_cast h4
    omega

theorem roundNearestEven_of_tie (q : Rat) (n : Int) (hq : q = n + 1 / 2)
    (hodd : n % 2 = 1) : roundNearestEven q = n + 1 := by
  have hf : ⌊q⌋ = n := by
    rw [Int.floor_eq_iff]
    constructor <;> linarith
  unfold roundNearestEven
  simp only [hf]
  have hr : q - n = 1 / 2 := by linarith
  rw [hr]
  simp only [lt_self_iff_false, if_false]
  rw [if_neg (by omega)]

theorem ulp_of_binade (q : Rat) (e : Int) (he : -1022 ≤ e) (h1 : (2 : Rat) ^ e ≤ |q|)
    (h2 : |q| < (2 : Rat) ^ (e + 1)) : ulp q = 2 ^ (e - 52) := by
  have hpos : 0 < |q| := lt_of_lt_of_le (by positivity) h1
  have hle : e ≤ Int.log 2 |q| :=
    (Int.zpow_le_iff_le_log (by norm_num) hpos).mp (by exact_mod_cast h1)
  have hlt : Int.log 2 |q| < e + 1 :=
    (Int.lt_zpow_iff_log_lt (by norm_num) hpos).mp (by exact_mod_cast h2)
  have hlog : Int.log 2 |q| = e := by omega
  unfold ulp
  rw [hlog, max_eq_left he]

/-- The `double` nearest to `q` when `q` lies strictly nearer to `n * u` than to
the neighbouring multiples of its unit `u`. -/
theorem roundDouble_of_near (q u : Rat) (e n : Int) (he : -1022 ≤ e)
    (h1 : (2 : Rat) ^ e ≤ |q|) (h2 : |q| < (2 : Rat) ^ (e + 1))
    (hu : (2 : Rat) ^ (e - 52) = u)
    (hlo : (n : Rat) - 1 / 2 < q / u) (hhi : q / u < n + 1 / 2) :
    roundDouble q = n * u := by
  unfold roundDouble
  rw [ulp_of_binade q e he h1 h2, hu, roundNearestEven_of_near _ n hlo hhi]

/-- The `double` nearest to `q` when `q` lies halfway between `n * u`, `n` odd,
and the next multiple of its unit `u`. -/
theorem roundDouble_of_tie (q u : Rat) (e n : Int) (he : -1022 ≤ e)
    (h1 : (2 : Rat) ^ e ≤ |q|) (h2 : |q| < (2 : Rat) ^ (e + 1))
    (hu : (2 : Rat) ^ (e - 52) = u)
    (hq : q / u = n + 1 / 2) (hodd : n % 2 = 1) :
    roundDouble q = (n + 1 : Int) * u := by
  unfold roundDouble
  rw [ulp_of_binade q e he h1 h2, hu, roundNearestEven_of_tie _ n hq hodd]

/-- The model agrees with the machine on the literal 10.1. -/
theorem roundDouble_ten_point_one :
    roundDouble (101 / 10) = 5685794529555251 / 2 ^ 49 := by
  rw [roundDouble_of_near (101 / 10) (1 / 2 ^ 49) 3 5685794529555251 (by norm_num)
    (le_abs.mpr (Or.inl (by norm_num))) (abs_lt.mpr ⟨by norm_num, by norm_num⟩)
    (by norm_num) (by norm_num) (by norm_num)]
  norm_num

/-! ## Claims on the presets and the transport of the dialog -/

/-- C11: the Save Preset loop of `OnSaveAs` (with a validator) returns for
every sequence of passes of the user, and every save it makes is justified by
a pass in which the name dialog returned OK with a name that is not empty:
the save is to `UserPresetsGroup(name)`, it is the last call, it comes right
after a `TransferDataFromWindow` that succeeded, with the settings that
transfer left, and when the name is among the existing presets the user
answered Yes to the replace prompt.  If the name dialog is dismissed with a
result other than OK, or the replace prompt is cancelled, nothing is saved.
At most one preset is saved. -/
theorem OnSaveAs_saves
    (SaveUserPreset : String → EffectSettings → (String → List String) →
      String → List String)
    (script : List SaveAsRound) (d : EffectUIHost) (validator : EffectUIValidator)
    (hv : d.mpValidator = some validator) :
    ∃ out, d.OnSaveAs SaveUserPreset script = some out ∧
      (∀ group settings,
        DialogCall.SaveUserPreset group settings ∈ dialogCallsMade d out.2 →
        ∃ round ∈ script, round.rc = .wxID_OK ∧ round.name ≠ "" ∧
          group = d.toolkit.UserPresetsGroup round.name ∧
          (round.name ∈ d.mUserPresets →
            round.choice = .wxID_YES ∧
              DialogCall.ShowModalReplace .wxID_YES ∈ dialogCallsMade d out.2) ∧
          ∃ d0 d1, d0 = { d with calls := d0.calls } ∧
            d0.TransferDataFromWindow = some (true, d1) ∧
            settings = d1.mpAccess.Get ∧
            out.2.calls = d1.calls ++ [.SaveUserPreset group settings]) ∧
      (∀ rc, rc ≠ .wxID_OK →
        DialogCall.ShowModalSavePreset rc ∈ dialogCallsMade d out.2 →
        savePresetCalls (dialogCallsMade d out.2) = []) ∧
      (DialogCall.ShowModalReplace .wxID_CANCEL ∈ dialogCallsMade d out.2 →
        savePresetCalls (dialogCallsMade d out.2) = []) ∧
      (savePresetCalls (dialogCallsMade d out.2)).length ≤ 1 := by
  obtain ⟨out, made, hrun, hcalls, h⟩ :=
    saveAsLoop_run SaveUserPreset script d validator hv
  refine ⟨out, hrun, ?_⟩
  rw [dialogCallsMade_of_append hcalls]
  exact h

/-- C11 at the sample dialog with the preset "Loud", for a user who first gives
no name, then "Loud" and answers No, then "Loud" and answers Yes: one preset is
saved, to the group of "Loud", with the settings the transfer left. -/
theorem OnSaveAs_saves_witness :
    sampleWithPreset.mpValidator = some { ValidateUI := true, UpdateUI := true } ∧
    ∃ out, sampleWithPreset.OnSaveAs sampleSaveUserPreset sampleScript = some out ∧
      savePresetCalls (dialogCallsMade sampleWithPreset out.2) =
        [.SaveUserPreset "UserPresets/Loud" { values := [("Ratio", "3")] }] ∧
      (savePresetCalls (dialogCallsMade sampleWithPreset out.2)).length ≤ 1 := by
  obtain ⟨out, hrun, _, _, _, hlen⟩ :=
    OnSaveAs_saves sampleSaveUserPreset sampleScript sampleWithPreset
      { ValidateUI := true, UpdateUI := true } rfl
  have heval : (sampleWithPreset.OnSaveAs sampleSaveUserPreset sampleScript).map
      (fun o => savePresetCalls (dialogCallsMade sampleWithPreset o.2)) =
      some [.SaveUserPreset "UserPresets/Loud" { values := [("Ratio", "3")] }] := by
    rfl
  rw [hrun] at heval
  exact ⟨rfl, out, hrun, Option.some.inj heval, hlen⟩

/-- C12: after `LoadUserPresets`, whatever `mUserPresets` held before,
`mUserPresets` is sorted in ascending order and is a permutation of the
subgroup names the plugin configuration reports under the user-presets group:
the previous entries are gone and no reported name is duplicated or dropped.
A second call with the same configuration leaves the dialog as the first call
left it. -/
theorem LoadUserPresets_sorted_perm (d : EffectUIHost) :
    List.Sorted (fun a b => a ≤ b) d.LoadUserPresets.mUserPresets ∧
    List.Perm d.LoadUserPresets.mUserPresets
      (d.toolkit.GetConfigSubgroups (d.toolkit.UserPresetsGroup "")) ∧
    (∀ prior : List String,
      ({ d with mUserPresets := prior } : EffectUIHost).LoadUserPresets =
        d.LoadUserPresets) ∧
    d.LoadUserPresets.LoadUserPresets = d.LoadUserPresets := by
  refine ⟨?_, ?_, ?_, ?_⟩
  · simp only [EffectUIHost.LoadUserPresets, List.nil_append]
    exact List.sorted_insertionSort (fun a b : String => a ≤ b) _
  · simp only [EffectUIHost.LoadUserPresets, List.nil_append]
    exact List.perm_insertionSort (fun a b : String => a ≤ b) _
  · intro prior
    rfl
  · rfl

/-- C13: in the realtime, not-playing branch of `OnPlay`, playback is started
once, on the region `(mPlayPos, mRegion.t1())`, and `mPlayPos ≤ mRegion.t1()`
there whatever `mPlayPos`, `mRegion`, the selection and the play region were.
When the play region is active, `mRegion` takes its times; otherwise, when the
selection differs from `mRegion`, `mRegion` becomes the selection; in both
cases `mPlayPos` is reset to the start of the new region (clamped to its end,
which matters only for a region whose start lies after its end).  Otherwise
`mRegion` is kept and `mPlayPos` is kept, clamped to `t1`.  In the non-realtime
branch (with a validator) no project playback is started or stopped and
`Preview` is called exactly when `TransferDataFromWindow` succeeds. -/
theorem OnPlay_region (setTimes : SelectedRegion → Rat → Rat → SelectedRegion)
    (viewInfo : ViewInfo) (d : EffectUIHost) :
    (d.mSupportsRealtime = true → d.mPlaying = false →
      ∃ d1, d.OnPlay setTimes viewInfo = some d1 ∧
        dialogCallsMade d d1 = [.PlayPlayRegion d1.mPlayPos d1.mRegion.t1] ∧
        d1.mPlayPos ≤ d1.mRegion.t1 ∧
        (viewInfo.playRegion.Active = true →
          d1.mRegion = setTimes d.mRegion viewInfo.playRegion.GetStart
            viewInfo.playRegion.GetEnd ∧
          d1.mPlayPos = min d1.mRegion.t0 d1.mRegion.t1 ∧
          (d1.mRegion.t0 ≤ d1.mRegion.t1 → d1.mPlayPos = d1.mRegion.t0)) ∧
        (viewInfo.playRegion.Active = false →
          (viewInfo.selectedRegion.t0 ≠ d.mRegion.t0 ∨
            viewInfo.selectedRegion.t1 ≠ d.mRegion.t1) →
          d1.mRegion = viewInfo.selectedRegion ∧
          d1.mPlayPos = min d1.mRegion.t0 d1.mRegion.t1 ∧
          (d1.mRegion.t0 ≤ d1.mRegion.t1 → d1.mPlayPos = d1.mRegion.t0)) ∧
        (viewInfo.playRegion.Active = false →
          viewInfo.selectedRegion.t0 = d.mRegion.t0 →
          viewInfo.selectedRegion.t1 = d.mRegion.t1 →
          d1.mRegion = d.mRegion ∧ d1.mPlayPos = min d.mPlayPos d.mRegion.t1)) ∧
    (d.mSupportsRealtime = false →
      ∀ validator, d.mpValidator = some validator →
      ∃ ok d1 d2, d.TransferDataFromWindow = some (ok, d1) ∧
        d.OnPlay setTimes viewInfo = some d2 ∧
        dialogCallsMade d1 d2 = (if ok then [.Preview] else []) ∧
        (DialogCall.Preview ∈ dialogCallsMade d d2 ↔ ok = true) ∧
        DialogCall.Stop ∉ dialogCallsMade d d2 ∧
        ∀ t0 t1, DialogCall.PlayPlayRegion t0 t1 ∉ dialogCallsMade d d2) := by
  refine ⟨fun hrt hp => ?_, fun hrt validator hv => ?_⟩
  · obtain ⟨hc, hr, hpos⟩ := clampPlayPos_facts (d.chooseRegion setTimes viewInfo)
    have hcalls := chooseRegion_calls setTimes viewInfo d
    refine ⟨(d.chooseRegion setTimes viewInfo).clampPlayPos.call
      (.PlayPlayRegion (d.chooseRegion setTimes viewInfo).clampPlayPos.mPlayPos
        (d.chooseRegion setTimes viewInfo).clampPlayPos.mRegion.t1), ?_, ?_, ?_, ?_, ?_, ?_⟩
    · simp only [EffectUIHost.OnPlay, hrt, hp]
      rfl
    · apply dialogCallsMade_of_append
      rw [dialog_call_calls, hc, hcalls]
      rfl
    · show (d.chooseRegion setTimes viewInfo).clampPlayPos.mPlayPos ≤
        (d.chooseRegion setTimes viewInfo).clampPlayPos.mRegion.t1
      rw [hpos, hr]
      exact min_le_right _ _
    · intro ha
      have h : d.chooseRegion setTimes viewInfo =
          { d with
            mRegion := setTimes d.mRegion viewInfo.playRegion.GetStart
              viewInfo.playRegion.GetEnd
            mPlayPos := (setTimes d.mRegion viewInfo.playRegion.GetStart
              viewInfo.playRegion.GetEnd).t0 } := by
        simp only [EffectUIHost.chooseRegion, ha, if_true]
      have hreg : (d.chooseRegion setTimes viewInfo).clampPlayPos.mRegion =
          setTimes d.mRegion viewInfo.playRegion.GetStart viewInfo.playRegion.GetEnd := by
        rw [hr, h]
      have hp2 : (d.chooseRegion setTimes viewInfo).clampPlayPos.mPlayPos =
          min (d.chooseRegion setTimes viewInfo).clampPlayPos.mRegion.t0
            (d.chooseRegion setTimes viewInfo).clampPlayPos.mRegion.t1 := by
        rw [hpos, hr, h]
      refine ⟨hreg, hp2, fun hle => ?_⟩
      show (d.chooseRegion setTimes viewInfo).clampPlayPos.mPlayPos =
        (d.chooseRegion setTimes viewInfo).clampPlayPos.mRegion.t0
      rw [hp2]
      exact min_eq_left hle
    · intro ha hsel
      have h : d.chooseRegion setTimes viewInfo =
          { d with
            mRegion := viewInfo.selectedRegion
            mPlayPos := viewInfo.selectedRegion.t0 } := by
        simp only [EffectUIHost.chooseRegion, ha, if_pos hsel]
        rfl
      have hreg : (d.chooseRegion setTimes viewInfo).clampPlayPos.mRegion =
          viewInfo.selectedRegion := by
        rw [hr, h]
      have hp2 : (d.chooseRegion setTimes viewInfo).clampPlayPos.mPlayPos =
          min (d.chooseRegion setTimes viewInfo).clampPlayPos.mRegion.t0
            (d.chooseRegion setTimes viewInfo).clampPlayPos.mRegion.t1 := by
        rw [hpos, hr, h]
      refine ⟨hreg, hp2, fun hle => ?_⟩
      show (d.chooseRegion setTimes viewInfo).clampPlayPos.mPlayPos =
        (d.chooseRegion setTimes viewInfo).clampPlayPos.mRegion.t0
      rw [hp2]
      exact min_eq_left hle
    · intro ha h0 h1
      have h : d.chooseRegion setTimes viewInfo = d := by
        simp [EffectUIHost.chooseRegion, ha, h0, h1]
      constructor
      · show (d.chooseRegion setTimes viewInfo).clampPlayPos.mRegion = d.mRegion
        rw [hr, h]
      · show (d.chooseRegion setTimes viewInfo).clampPlayPos.mPlayPos = _
        rw [hpos, h]
  · obtain ⟨ok, d1, made, ht, hcalls, hstage, _⟩ := TransferDataFromWindow_run d validator hv
    cases ok with
    | false =>
      refine ⟨false, d1, d1, ht, ?_, ?_, ?_, ?_, ?_⟩
      · simp [EffectUIHost.OnPlay, hrt, ht]
      · simp [dialogCallsMade]
      · rw [dialogCallsMade_of_append hcalls]
        constructor
        · intro hm
          exact absurd (hstage _ hm) (by simp [DialogCall.isTransferStage])
        · intro hf
          exact absurd hf (by decide)
      · rw [dialogCallsMade_of_append hcalls]
        intro hm
        exact absurd (hstage _ hm) (by simp [DialogCall.isTransferStage])
      · intro t0 t1
        rw [dialogCallsMade_of_append hcalls]
        intro hm
        exact absurd (hstage _ hm) (by simp [DialogCall.isTransferStage])
    | true =>
      have hc2 : (d1.call .Preview).calls = d.calls ++ (made ++ [.Preview]) := by
        rw [dialog_call_calls, hcalls, List.append_assoc]
      refine ⟨true, d1, d1.call .Preview, ht, ?_, ?_, ?_, ?_, ?_⟩
      · simp [EffectUIHost.OnPlay, hrt, ht]
      · simp [dialogCallsMade]
      · rw [dialogCallsMade_of_append hc2]
        simp
      · rw [dialogCallsMade_of_append hc2]
        intro hm
        rcases List.mem_append.mp hm with hm | hm
        · exact absurd (hstage _ hm) (by simp [DialogCall.isTransferStage])
        · simp at hm
      · intro t0 t1
        rw [dialogCallsMade_of_append hc2]
        intro hm
        rcases List.mem_append.mp hm with hm | hm
        · exact absurd (hstage _ hm) (by simp [DialogCall.isTransferStage])
        · simp at hm

/-- C13 at the sample stopped dialog, whose remembered region is 1 s to 4 s
and whose play position is 9 s, when the selection is 3 s to 8 s: playback
starts on the region 3 s to 8 s. -/
theorem OnPlay_region_witness :
    sampleStopped.mSupportsRealtime = true ∧ sampleStopped.mPlaying = false ∧
    ∃ d1, sampleStopped.OnPlay sampleSetTimes sampleViewInfo = some d1 ∧
      dialogCallsMade sampleStopped d1 = [.PlayPlayRegion 3 8] ∧
      d1.mPlayPos = 3 := by
  obtain ⟨d1, h, hc, _, _, hsel, _⟩ :=
    (OnPlay_region sampleSetTimes sampleViewInfo sampleStopped).1 rfl rfl
  obtain ⟨hreg, _, hpos⟩ := hsel rfl (Or.inl (by decide))
  have hp : d1.mPlayPos = 3 := by
    rw [hpos (by rw [hreg]; decide), hreg]
    rfl
  refine ⟨rfl, rfl, d1, h, ?_, hp⟩
  rw [hc, hp, hreg]
  rfl

/-- C14, as worded, fails.  With the stream at the `double` 10.1, a region
starting at the `double` 0.1 and a seek period of 60, `OnRewind` seeks by -10,
the `double` difference `10.1 - 0.1`, and lands before `t0`.  With the stream
at the `double` 0.3, a region from 0 to the `double` 0.9 and a seek period of
1, `OnFFwd` seeks by the `double` difference `0.9 - 0.3` and lands after `t1`.
With the stream at 2, a region starting at 1 and a seek period of 1,
`OnRewind` lands on `t0` although the period does not overshoot. -/
theorem OnRewind_OnFFwd_rounding_counterexample :
    (sampleRewinding.mPlaying = true ∧
      sampleRewinding.OnRewind (some 60) = sampleRewinding.call (.SeekStream (-10)) ∧
      sampleRewinding.audio.GetStreamTime - 10 < sampleRewinding.mRegion.t0) ∧
    (sampleForwarding.mPlaying = true ∧
      sampleForwarding.mRegion.t0 < sampleForwarding.mRegion.t1 ∧
      sampleForwarding.OnFFwd (some 1) =
        sampleForwarding.call (.SeekStream (1351079888211149 / 2 ^ 51)) ∧
      sampleForwarding.mRegion.t1 <
        sampleForwarding.audio.GetStreamTime + 1351079888211149 / 2 ^ 51) ∧
    (samplePlaying.mPlaying = true ∧
      samplePlaying.OnRewind (some 1) = samplePlaying.call (.SeekStream (-1)) ∧
      samplePlaying.audio.GetStreamTime - 1 = samplePlaying.mRegion.t0 ∧
      ¬ samplePlaying.audio.GetStreamTime - 1 < samplePlaying.mRegion.t0) := by
  have hr1 : roundDouble ((5685794529555251 / 2 ^ 49 : Rat) - 60) =
      -7022800668930867 / 2 ^ 47 := by
    rw [roundDouble_of_near _ (1 / 2 ^ 47) 5 (-7022800668930867) (by norm_num)
      (le_abs.mpr (Or.inr (by norm_num))) (abs_lt.mpr ⟨by norm_num, by norm_num⟩)
      (by norm_num) (by norm_num) (by norm_num)]
    norm_num
  have hr2 : roundDouble ((5685794529555251 / 2 ^ 49 : Rat) - 3602879701896397 / 2 ^ 55) =
      10 := by
    rw [roundDouble_of_near _ (1 / 2 ^ 49) 3 5629499534213120 (by norm_num)
      (le_abs.mpr (Or.inl (by norm_num))) (abs_lt.mpr ⟨by norm_num, by norm_num⟩)
      (by norm_num) (by norm_num) (by norm_num)]
    norm_num
  have hf1 : roundDouble ((5404319552844595 / 2 ^ 54 : Rat) + 1) =
      5854679515581645 / 2 ^ 52 := by
    rw [roundDouble_of_near _ (1 / 2 ^ 52) 0 5854679515581645 (by norm_num)
      (le_abs.mpr (Or.inl (by norm_num))) (abs_lt.mpr ⟨by norm_num, by norm_num⟩)
      (by norm_num) (by norm_num) (by norm_num)]
    norm_num
  have hf2 : roundDouble ((8106479329266893 / 2 ^ 53 : Rat) - 5404319552844595 / 2 ^ 54) =
      1351079888211149 / 2 ^ 51 := by
    rw [roundDouble_of_tie _ (1 / 2 ^ 53) (-1) 5404319552844595 (by norm_num)
      (le_abs.mpr (Or.inl (by norm_num))) (abs_lt.mpr ⟨by norm_num, by norm_num⟩)
      (by norm_num) (by norm_num) (by norm_num)]
    norm_num
  have hb1 : roundDouble ((2 : Rat) - 1) = 1 := by
    rw [roundDouble_of_near _ (1 / 2 ^ 52) 0 4503599627370496 (by norm_num)
      (le_abs.mpr (Or.inl (by norm_num))) (abs_lt.mpr ⟨by norm_num, by norm_num⟩)
      (by norm_num) (by norm_num) (by norm_num)]
    norm_num
  refine ⟨⟨rfl, ?_, ?_⟩, ⟨rfl, ?_, ?_, ?_⟩, ⟨rfl, ?_, ?_, ?_⟩⟩
  · show sampleRewinding.call (.SeekStream (-(if
        roundDouble ((5685794529555251 / 2 ^ 49 : Rat) - 60) < 3602879701896397 / 2 ^ 55
      then roundDouble ((5685794529555251 / 2 ^ 49 : Rat) - 3602879701896397 / 2 ^ 55)
      else 60))) = _
    rw [hr1, hr2, if_pos (by norm_num)]
  · show (5685794529555251 / 2 ^ 49 : Rat) - 10 < 3602879701896397 / 2 ^ 55
    norm_num
  · show (0 : Rat) < 8106479329266893 / 2 ^ 53
    norm_num
  · show sampleForwarding.call (.SeekStream (if
        (0 : Rat) < 8106479329266893 / 2 ^ 53 ∧
          roundDouble ((5404319552844595 / 2 ^ 54 : Rat) + 1) > 8106479329266893 / 2 ^ 53
      then roundDouble ((8106479329266893 / 2 ^ 53 : Rat) - 5404319552844595 / 2 ^ 54)
      else 1)) = _
    rw [hf1, hf2, if_pos (by norm_num)]
  · show (8106479329266893 / 2 ^ 53 : Rat) <
      5404319552844595 / 2 ^ 54 + 1351079888211149 / 2 ^ 51
    norm_num
  · show samplePlaying.call (.SeekStream (-(if roundDouble ((2 : Rat) - 1) < 1
      then roundDouble ((2 : Rat) - 1) else 1))) = _
    rw [hb1, if_neg (by norm_num)]
  · show (2 : Rat) - 1 = 1
    norm_num
  · show ¬ (2 : Rat) - 1 < 1
    norm_num

/-- C14, amended: while playing, `OnRewind` seeks the stream by `-seek`.  When
`pos - period`, computed in `double`, is before `mRegion.t0()`, `seek` is the
`double` difference `pos - t0`, so `pos - seek` is `t0` up to the rounding of
that subtraction: within half a unit in the last place of `pos - t0`, and
exactly `t0` when `pos - t0` is a `double`.  Otherwise `seek` is the configured
period and `pos - seek`, computed in `double`, is not before `t0`.  `OnFFwd`
seeks by `+seek`; when `t0 < t1` and `pos + period`, computed in `double`, is
after `mRegion.t1()`, `seek` is the `double` difference `t1 - pos`, so
`pos + seek` is `t1` up to the rounding of that subtraction; otherwise `seek`
is the configured period, and when `t0 < t1` the `double` `pos + seek` is not
after `t1`.  While not playing, `OnRewind` sets `mPlayPos` to `t0` and
`OnFFwd` sets it to `t1`; nothing else changes, so the audio stream is not
touched. -/
theorem OnRewind_OnFFwd_seek (SeekShortPeriod : Option Rat) (d : EffectUIHost) :
    (d.mPlaying = true →
      (∃ seek : Rat,
        d.OnRewind SeekShortPeriod = d.call (.SeekStream (-seek)) ∧
        (roundDouble (d.audio.GetStreamTime - SeekShortPeriod.getD 1) < d.mRegion.t0 →
          seek = roundDouble (d.audio.GetStreamTime - d.mRegion.t0) ∧
          |(d.audio.GetStreamTime - seek) - d.mRegion.t0| ≤
            ulp (d.audio.GetStreamTime - d.mRegion.t0) / 2 ∧
          (roundDouble (d.audio.GetStreamTime - d.mRegion.t0) =
              d.audio.GetStreamTime - d.mRegion.t0 →
            d.audio.GetStreamTime - seek = d.mRegion.t0)) ∧
        (¬ roundDouble (d.audio.GetStreamTime - SeekShortPeriod.getD 1) < d.mRegion.t0 →
          seek = SeekShortPeriod.getD 1 ∧
          d.mRegion.t0 ≤ roundDouble (d.audio.GetStreamTime - seek))) ∧
      (∃ seek : Rat,
        d.OnFFwd SeekShortPeriod = d.call (.SeekStream seek) ∧
        (d.mRegion.t0 < d.mRegion.t1 →
          roundDouble (d.audio.GetStreamTime + SeekShortPeriod.getD 1) > d.mRegion.t1 →
          seek = roundDouble (d.mRegion.t1 - d.audio.GetStreamTime) ∧
          |(d.audio.GetStreamTime + seek) - d.mRegion.t1| ≤
            ulp (d.mRegion.t1 - d.audio.GetStreamTime) / 2 ∧
          (roundDouble (d.mRegion.t1 - d.audio.GetStreamTime) =
              d.mRegion.t1 - d.audio.GetStreamTime →
            d.audio.GetStreamTime + seek = d.mRegion.t1)) ∧
        (¬ (d.mRegion.t0 < d.mRegion.t1 ∧
            roundDouble (d.audio.GetStreamTime + SeekShortPeriod.getD 1) > d.mRegion.t1) →
          seek = SeekShortPeriod.getD 1) ∧
        (d.mRegion.t0 < d.mRegion.t1 →
          ¬ roundDouble (d.audio.GetStreamTime + SeekShortPeriod.getD 1) > d.mRegion.t1 →
          roundDouble (d.audio.GetStreamTime + seek) ≤ d.mRegion.t1))) ∧
    (d.mPlaying = false →
      d.OnRewind SeekShortPeriod = { d with mPlayPos := d.mRegion.t0 } ∧
      d.OnFFwd SeekShortPeriod = { d with mPlayPos := d.mRegion.t1 } ∧
      dialogCallsMade d (d.OnRewind SeekShortPeriod) = [] ∧
      dialogCallsMade d (d.OnFFwd SeekShortPeriod) = []) := by
  refine ⟨fun hp => ⟨?_, ?_⟩, fun hp => ?_⟩
  · by_cases h : roundDouble (d.audio.GetStreamTime - SeekShortPeriod.getD 1) < d.mRegion.t0
    · refine ⟨roundDouble (d.audio.GetStreamTime - d.mRegion.t0), ?_, ?_, ?_⟩
      · simp only [EffectUIHost.OnRewind, hp, if_true, if_pos h]
      · intro _
        refine ⟨rfl, ?_, ?_⟩
        · have he := abs_roundDouble_sub_le (d.audio.GetStreamTime - d.mRegion.t0)
          rw [abs_sub_comm] at he
          have heq : d.audio.GetStreamTime -
              roundDouble (d.audio.GetStreamTime - d.mRegion.t0) - d.mRegion.t0 =
              d.audio.GetStreamTime - d.mRegion.t0 -
                roundDouble (d.audio.GetStreamTime - d.mRegion.t0) := by ring
          rw [heq]
          exact he
        · intro hrep
          rw [hrep]
          ring
      · intro h2
        exact absurd h h2
    · refine ⟨SeekShortPeriod.getD 1, ?_, ?_, ?_⟩
      · simp only [EffectUIHost.OnRewind, hp, if_true, if_neg h]
      · intro h2
        exact absurd h2 h
      · intro _
        exact ⟨rfl, not_lt.mp h⟩
  · by_cases h : d.mRegion.t0 < d.mRegion.t1 ∧
        roundDouble (d.audio.GetStreamTime + SeekShortPeriod.getD 1) > d.mRegion.t1
    · refine ⟨roundDouble (d.mRegion.t1 - d.audio.GetStreamTime), ?_, ?_, ?_, ?_⟩
      · simp only [EffectUIHost.OnFFwd, hp, if_true, if_pos h]
      · intro _ _
        refine ⟨rfl, ?_, ?_⟩
        · have he := abs_roundDouble_sub_le (d.mRegion.t1 - d.audio.GetStreamTime)
          have heq : d.audio.GetStreamTime +
              roundDouble (d.mRegion.t1 - d.audio.GetStreamTime) - d.mRegion.t1 =
              roundDouble (d.mRegion.t1 - d.audio.GetStreamTime) -
                (d.mRegion.t1 - d.audio.GetStreamTime) := by ring
          rw [heq]
          exact he
        · intro hrep
          rw [hrep]
          ring
      · intro h2
        exact absurd h h2
      · intro h1 h2
        exact absurd h.2 h2
    · refine ⟨SeekShortPeriod.getD 1, ?_, ?_, ?_, ?_⟩
      · simp only [EffectUIHost.OnFFwd, hp, if_true, if_neg h]
      · intro h1 h2
        exact absurd ⟨h1, h2⟩ h
      · intro _
        rfl
      · intro _ h2
        exact not_lt.mp h2
  · have h1 : d.OnRewind SeekShortPeriod = { d with mPlayPos := d.mRegion.t0 } := by
      simp [EffectUIHost.OnRewind, hp]
    have h2 : d.OnFFwd SeekShortPeriod = { d with mPlayPos := d.mRegion.t1 } := by
      simp [EffectUIHost.OnFFwd, hp]
    refine ⟨h1, h2, ?_, ?_⟩
    · rw [h1]
      simp [dialogCallsMade]
    · rw [h2]
      simp [dialogCallsMade]

/-- C14, amended, at the sample playing dialog, stream at 2 s in the region
1 s to 4 s, with a seek period of 5 s: rewinding seeks by -1 s, the `double`
difference `2 - 1`, and lands on the region start. -/
theorem OnRewind_OnFFwd_seek_witness :
    samplePlaying.mPlaying = true ∧
    ∃ seek : Rat,
      samplePlaying.OnRewind (some 5) = samplePlaying.call (.SeekStream (-seek)) ∧
      seek = 1 ∧
      samplePlaying.audio.GetStreamTime - seek = samplePlaying.mRegion.t0 := by
  have h3 : roundDouble ((2 : Rat) - 5) = -3 := by
    rw [roundDouble_of_near _ (1 / 2 ^ 51) 1 (-6755399441055744) (by norm_num)
      (le_abs.mpr (Or.inr (by norm_num))) (abs_lt.mpr ⟨by norm_num, by norm_num⟩)
      (by norm_num) (by norm_num) (by norm_num)]
    norm_num
  have h1 : roundDouble ((2 : Rat) - 1) = 2 - 1 := by
    rw [roundDouble_of_near _ (1 / 2 ^ 52) 0 4503599627370496 (by norm_num)
      (le_abs.mpr (Or.inl (by norm_num))) (abs_lt.mpr ⟨by norm_num, by norm_num⟩)
      (by norm_num) (by norm_num) (by norm_num)]
    norm_num
  have hover : roundDouble (samplePlaying.audio.GetStreamTime - (some 5 : Option Rat).getD 1) <
      samplePlaying.mRegion.t0 := by
    show roundDouble ((2 : Rat) - 5) < 1
    rw [h3]
    norm_num
  obtain ⟨seek, h, hclamp, _⟩ := ((OnRewind_OnFFwd_seek (some 5) samplePlaying).1 rfl).1
  obtain ⟨hs, _, hrep⟩ := hclamp hover
  refine ⟨rfl, seek, h, ?_, hrep h1⟩
  rw [hs]
  show roundDouble ((2 : Rat) - 1) = 1
  rw [h1]
  norm_num

end EffectUI
